import Mathlib

/-! ## Coordinator exchange state and UTXO reservation ledger

Shallow embedding of `src/xbridge/xbridgeexchange.cpp` (class `xbridge::Exchange`),
`src/xbridge/xbridgewallet.h` (`wallet::UtxoEntry`, `WalletParam`) and the
`dxGetLockedUtxos` command of `src/xbridge/rpcxbridge.cpp`.

Conventions
* `uint256`, `uint64_t`, `uint32_t` values are natural numbers; no operation
  modelled here does arithmetic that could wrap.
* `std::set<T>` is a list kept in `operator<` order, `std::map<K, V>` is a list of
  key/value pairs kept in key order. The functions below do not require their
  argument to be ordered; they return ordered lists on ordered arguments.
* locks (`LOCK(...)`, `m_lock.lock()`) and logging have no effect on the values
  computed and are left out.
* `TransactionPtr` is a shared pointer; a map entry holds the value of the
  pointed-to descriptor.
-/

namespace xbridge

/-! ## wallet::UtxoEntry (xbridgewallet.h) -/

/-- Record `wallet::UtxoEntry`. The field `amount` is a `double` in the source; no
operation modelled here reads it, so it is carried as an integer payload. -/
structure UtxoEntry where
  txId : String
  vout : Nat
  amount : Int
  address : String
  scriptPubKey : String
  confirmations : Nat
  rawAddress : List Nat
  signature : List Nat
  hasConfirmations : Bool
deriving DecidableEq, Repr

namespace UtxoEntry

/-- Member `operator <` of UtxoEntry; `std::string` compares lexicographically, character
by character. -/
def lt (a r : UtxoEntry) : Bool :=
  decide (a.txId.data < r.txId.data) || (decide (a.txId = r.txId) && decide (a.vout < r.vout))

/-- Member `operator ==` of UtxoEntry. -/
def eq (a r : UtxoEntry) : Bool :=
  decide (a.txId = r.txId) && decide (a.vout = r.vout)

/-- Equivalence used by `std::set<UtxoEntry>`: neither element is less than the other. -/
def equiv (a r : UtxoEntry) : Bool :=
  !a.lt r && !r.lt a

/-- An entry with the given outpoint and default values in the other fields. -/
def ofOutpoint (txId : String) (vout : Nat) : UtxoEntry :=
  ⟨txId, vout, 0, "", "", 0, [], [], false⟩

end UtxoEntry

/-- Entries `a` and `b` name the same outpoint (txid, vout). -/
def SameOutpoint (a b : UtxoEntry) : Prop :=
  a.txId = b.txId ∧ a.vout = b.vout

instance (a b : UtxoEntry) : Decidable (SameOutpoint a b) := by
  unfold SameOutpoint; infer_instance

/-- The outpoint of `o` occurs in the list `l` (compared by txid and vout only). -/
def Listed (o : UtxoEntry) (l : List UtxoEntry) : Prop :=
  ∃ x ∈ l, SameOutpoint x o

instance (o : UtxoEntry) (l : List UtxoEntry) : Decidable (Listed o l) := by
  unfold Listed; infer_instance

/-! ## std::set<wallet::UtxoEntry> -/

/-- Function `std::set<UtxoEntry>::count`. -/
def setCount (x : UtxoEntry) : List UtxoEntry → Bool
  | [] => false
  | y :: ys => x.equiv y || setCount x ys

/-- Function `std::set<UtxoEntry>::insert`: an equivalent element already present is
kept and nothing is inserted. -/
def setInsert (x : UtxoEntry) : List UtxoEntry → List UtxoEntry
  | [] => [x]
  | y :: ys =>
    if x.lt y then x :: y :: ys
    else if y.lt x then y :: setInsert x ys
    else y :: ys

/-- Function `std::set<UtxoEntry>::erase` by key. -/
def setErase (x : UtxoEntry) (s : List UtxoEntry) : List UtxoEntry :=
  s.filter (fun y => !x.equiv y)

/-! ## std::map -/

section Map
variable {κ : Type} [DecidableEq κ] [LT κ] [DecidableRel (fun (a b : κ) => a < b)] {α : Type}

/-- Function `std::map::count`. -/
def mapCount (k : κ) : List (κ × α) → Bool
  | [] => false
  | (j, _) :: m => decide (j = k) || mapCount k m

/-- Lookup of the value stored under `k` (`find`, or `operator[]` on a present key). -/
def mapFind (k : κ) : List (κ × α) → Option α
  | [] => none
  | (j, v) :: m => if j = k then some v else mapFind k m

/-- Function `std::map::erase` by key. -/
def mapErase (k : κ) (m : List (κ × α)) : List (κ × α) :=
  m.filter (fun p => !decide (p.1 = k))

/-- Assignment `m[k] = v`: replaces the value of a present key, otherwise inserts at
the key's place in the order. -/
def mapSet (k : κ) (v : α) : List (κ × α) → List (κ × α)
  | [] => [(k, v)]
  | (j, w) :: m =>
    if k < j then (k, v) :: (j, w) :: m
    else if j = k then (k, v) :: m
    else (j, w) :: mapSet k v m

end Map

/-! ## WalletParam (xbridgewallet.h) -/

/-- Class `WalletParam`, with the fields that `Exchange::loadWallets` fills in. -/
structure WalletParam where
  title : String
  currency : String
  m_ip : String
  m_port : String
  m_user : String
  m_passwd : String
  txVersion : Nat
  dustAmount : Nat
  jsonver : String
deriving DecidableEq, Repr

/-- Default constructor `WalletParam()`: `txVersion(1)`, `dustAmount(0)`. -/
def WalletParam.new : WalletParam :=
  ⟨"", "", "", "", "", "", 1, 0, ""⟩

/-! ## Interface of the collaborators of Exchange -/

/-- Arguments of the constructor `xbridge::Transaction(id, sourceAddr, sourceCurrency,
sourceAmount, destAddr, destCurrency, destAmount, created, blockHash, mpubkey)`. -/
structure TxParams where
  id : Nat
  sourceAddr : List Nat
  sourceCurrency : String
  sourceAmount : Nat
  destAddr : List Nat
  destCurrency : String
  destAmount : Nat
  timestamp : Nat
  blockHash : Nat
  mpubkey : List Nat
deriving DecidableEq, Repr

/-- What `Exchange` calls but does not define: the methods of `xbridge::Transaction`
(type `Tx` is the descriptor behind a `TransactionPtr`), `CoinValidator`, the clock,
the command line flag and the service node manager. A method that mutates its
receiver returns the new value of the receiver. -/
structure Env (Tx : Type) where
  /-- Constructor, see `TxParams`. -/
  mkTx : TxParams → Tx
  /-- Default constructor `xbridge::Transaction()`. -/
  nullTx : Tx
  id : Tx → Nat
  isValid : Tx → Bool
  isExpired : Tx → Bool
  isExpiredByBlockNumber : Tx → Bool
  updateTooSoon : Tx → Bool
  updateTimestamp : Tx → Tx
  /-- Call `self->tryJoin(other)`: the returned flag and the new value of `self`. -/
  tryJoin : Tx → Tx → Bool × Tx
  a_currency : Tx → String
  b_currency : Tx → String
  /-- Call `CoinValidator::instance().IsCoinValid(txId)`. -/
  IsCoinValid : String → Bool
  /-- Value of `std::time(0)`. -/
  time : Nat
  /-- Value of `gArgs.GetBoolArg("-enableexchange", false)`. -/
  enableexchange : Bool
  /-- Value of `sn::ServiceNodeMgr::instance().hasActiveSn()`. -/
  hasActiveSn : Bool
  /-- Function `uint256S`. -/
  uint256S : String → Nat

/-! ## Exchange::Impl -/

/-- Data members of `Exchange::Impl` that the modelled operations use. -/
structure Exchange (Tx : Type) where
  m_wallets : List (String × WalletParam)
  m_pendingTransactions : List (Nat × Tx)
  m_transactions : List (Nat × Tx)
  m_utxoItems : List UtxoEntry
  m_utxoTxMap : List (Nat × List UtxoEntry)
deriving DecidableEq, Repr

/-- State right after construction and `loadWallets`: no orders, nothing reserved. -/
def Exchange.empty {Tx : Type} (wallets : List (String × WalletParam)) : Exchange Tx :=
  ⟨wallets, [], [], [], []⟩

section Ops
variable {Tx : Type}

/-- Method `Exchange::isEnabled`. -/
def isEnabled (env : Env Tx) (e : Exchange Tx) : Bool :=
  decide (e.m_wallets.length > 0) && env.enableexchange

/-- Method `Exchange::isStarted`. -/
def isStarted (env : Env Tx) (e : Exchange Tx) : Bool :=
  isEnabled env e && env.hasActiveSn

/-- Method `Exchange::haveConnectedWallet`. -/
def haveConnectedWallet (e : Exchange Tx) (walletName : String) : Bool :=
  mapCount walletName e.m_wallets

/-- Loop of `Exchange::checkUtxoItems` over `items`. -/
def checkUtxoLoop (env : Env Tx) (e : Exchange Tx) : List UtxoEntry → Bool
  | [] => true
  | item :: rest =>
    if setCount item e.m_utxoItems || !env.IsCoinValid item.txId then false
    else checkUtxoLoop env e rest

/-- Method `Exchange::checkUtxoItems`. -/
def checkUtxoItems (env : Env Tx) (e : Exchange Tx) (txid : Nat) (items : List UtxoEntry) : Bool :=
  if mapCount txid e.m_utxoTxMap then true
  else checkUtxoLoop env e items

/-- Method `Exchange::getUtxoItems`: the returned flag and the new contents of the
output vector `items`. -/
def getUtxoItems (e : Exchange Tx) (txid : Nat) (items : List UtxoEntry) : Bool × List UtxoEntry :=
  if txid = 0 then (true, items ++ e.m_utxoItems)
  else if mapCount txid e.m_utxoTxMap then
    (true, items ++ (mapFind txid e.m_utxoTxMap).getD [])
  else (false, items)

/-- Second loop of `Exchange::lockUtxos`: threads `m_utxoItems`, the local set
`utxoTxMapItems` and the vector `m_utxoTxMap[id]`. -/
def lockLoop : List UtxoEntry → List UtxoEntry → List UtxoEntry → List UtxoEntry →
    List UtxoEntry × List UtxoEntry × List UtxoEntry
  | [], utxoItems, utxoTxMapItems, vec => (utxoItems, utxoTxMapItems, vec)
  | item :: rest, utxoItems, utxoTxMapItems, vec =>
    if !setCount item utxoTxMapItems then
      lockLoop rest (setInsert item utxoItems) (setInsert item utxoTxMapItems) (vec ++ [item])
    else
      lockLoop rest (setInsert item utxoItems) utxoTxMapItems vec

/-- Expression `m[k]` on a map of vectors: an absent key is first inserted with an
empty vector. -/
def mapTouch (k : Nat) (m : List (Nat × List UtxoEntry)) : List (Nat × List UtxoEntry) :=
  if mapCount k m then m else mapSet k [] m

/-- Method `Exchange::lockUtxos`. -/
def lockUtxos (id : Nat) (items : List UtxoEntry) (e : Exchange Tx) : Bool × Exchange Tx :=
  if items.isEmpty then (false, e)
  else
    let m := mapTouch id e.m_utxoTxMap
    let vec := (mapFind id m).getD []
    let utxoTxMapItems := vec.foldl (fun s item => setInsert item s) []
    let r := lockLoop items e.m_utxoItems utxoTxMapItems vec
    (true, { e with m_utxoItems := r.1, m_utxoTxMap := mapSet id r.2.2 m })

/-- Method `Exchange::unlockUtxos`. -/
def unlockUtxos (id : Nat) (e : Exchange Tx) : Bool × Exchange Tx :=
  if !mapCount id e.m_utxoTxMap then (false, e)
  else
    let vec := (mapFind id e.m_utxoTxMap).getD []
    (true, { e with
      m_utxoItems := vec.foldl (fun s item => setErase item s) e.m_utxoItems,
      m_utxoTxMap := mapErase id e.m_utxoTxMap })

/-- Block of `Exchange::createTransaction` under `m_pendingTransactionsLock`: the value
of `isCreated` and the new pending map. -/
def createPending (env : Env Tx) (txid : Nat) (tr : Tx) (pending : List (Nat × Tx)) :
    Bool × List (Nat × Tx) :=
  match mapFind txid pending with
  | none => (true, mapSet txid tr pending)
  | some cur =>
    if !env.isExpired cur then (false, mapSet txid (env.updateTimestamp cur) pending)
    else (false, mapSet txid tr (mapErase txid pending))

/-- Method `Exchange::createTransaction`: the returned flag, the output `isCreated`
and the new state. -/
def createTransaction (env : Env Tx) (p : TxParams) (items : List UtxoEntry)
    (e : Exchange Tx) : Bool × Bool × Exchange Tx :=
  if !haveConnectedWallet e p.sourceCurrency || !haveConnectedWallet e p.destCurrency then
    (false, false, e)
  else if !checkUtxoItems env e p.id items then (false, false, e)
  else
    let wp := (mapFind p.sourceCurrency e.m_wallets).getD WalletParam.new
    let wp2 := (mapFind p.destCurrency e.m_wallets).getD WalletParam.new
    if wp.dustAmount != 0 && decide (wp.dustAmount > p.sourceAmount) then (false, false, e)
    else if wp2.dustAmount != 0 && decide (wp2.dustAmount > p.destAmount) then (false, false, e)
    else
      let tr := env.mkTx p
      if !env.isValid tr then (false, false, e)
      else if env.isExpiredByBlockNumber tr then (false, false, e)
      else
        let r := createPending env p.id tr e.m_pendingTransactions
        (true, r.1, (lockUtxos p.id items { e with m_pendingTransactions := r.2 }).2)

/-- Method `Exchange::acceptTransaction`; the descriptor is built with `std::time(0)` and
`uint256()` in place of `p.timestamp` and `p.blockHash`. -/
def acceptTransaction (env : Env Tx) (p : TxParams) (items : List UtxoEntry)
    (e : Exchange Tx) : Bool × Exchange Tx :=
  if !haveConnectedWallet e p.sourceCurrency || !haveConnectedWallet e p.destCurrency then
    (false, e)
  else if !checkUtxoItems env e p.id items then (false, e)
  else
    let tr := env.mkTx { p with timestamp := env.time, blockHash := 0 }
    if !env.isValid tr then (false, e)
    else
      match mapFind p.id e.m_pendingTransactions with
      | none => (false, e)
      | some cur =>
        if env.isExpired cur then
          (false, { e with m_pendingTransactions := mapErase p.id e.m_pendingTransactions })
        else
          let j := env.tryJoin cur tr
          if !j.1 then
            (false, { e with m_pendingTransactions := mapSet p.id j.2 e.m_pendingTransactions })
          else
            (true, (lockUtxos p.id items { e with
              m_transactions := mapSet p.id j.2 e.m_transactions,
              m_pendingTransactions := mapErase p.id e.m_pendingTransactions }).2)

/-- Method `Exchange::deletePendingTransaction`. -/
def deletePendingTransaction (id : Nat) (e : Exchange Tx) : Bool × Exchange Tx :=
  let e1 := (unlockUtxos id e).2
  (true, { e1 with m_pendingTransactions := mapErase id e1.m_pendingTransactions })

/-- Method `Exchange::deleteTransaction`. -/
def deleteTransaction (txid : Nat) (e : Exchange Tx) : Bool × Exchange Tx :=
  (true, (unlockUtxos txid { e with m_transactions := mapErase txid e.m_transactions }).2)

/-- Method `Exchange::transaction`. -/
def transaction (env : Env Tx) (e : Exchange Tx) (hash : Nat) : Tx :=
  (mapFind hash e.m_transactions).getD env.nullTx

/-- Method `Exchange::pendingTransaction`. -/
def pendingTransaction (env : Env Tx) (e : Exchange Tx) (hash : Nat) : Tx :=
  (mapFind hash e.m_pendingTransactions).getD env.nullTx

/-- Loop of `Exchange::eraseExpiredTransactions` over the nodes of the pending map, from
the node of the iterator on: `erase(it++)` drops the node, every other node stays.
Returns the count, the nodes that stay and the state (of which only the reservation
ledger changes). -/
def eraseLoop (env : Env Tx) : List (Nat × Tx) → Nat → Exchange Tx →
    Nat × List (Nat × Tx) × Exchange Tx
  | [], result, e => (result, [], e)
  | (k, ptr) :: rest, result, e =>
    if env.isExpiredByBlockNumber ptr then
      eraseLoop env rest (result + 1) (unlockUtxos (env.id ptr) e).2
    else if env.isExpired ptr then
      eraseLoop env rest (result + 1) (unlockUtxos (env.id ptr) e).2
    else
      let r := eraseLoop env rest result e
      (r.1, (k, ptr) :: r.2.1, r.2.2)

/-- Method `Exchange::eraseExpiredTransactions`. -/
def eraseExpiredTransactions (env : Env Tx) (e : Exchange Tx) : Nat × Exchange Tx :=
  if !isStarted env e then (0, e)
  else
    let r := eraseLoop env e.m_pendingTransactions 0 e
    (r.1, { r.2.2 with m_pendingTransactions := r.2.1 })

/-- Method `Exchange::updateTimestampOrRemoveExpired`. On a key that is absent
`m_pendingTransactions[txid]` inserts a null pointer, which is then dereferenced:
the call has no defined result (`none`). -/
def updateTimestampOrRemoveExpired (env : Env Tx) (tx : Tx) (e : Exchange Tx) :
    Option (Bool × Exchange Tx) :=
  let txid := env.id tx
  match mapFind txid e.m_pendingTransactions with
  | none => none
  | some cur =>
    if !env.isExpired cur then
      if env.updateTooSoon cur then some (false, e)
      else some (true, { e with
        m_pendingTransactions := mapSet txid (env.updateTimestamp cur) e.m_pendingTransactions })
    else
      some (false, { e with m_pendingTransactions := mapErase txid e.m_pendingTransactions })

end Ops

/-! ## dxGetLockedUtxos (rpcxbridge.cpp) -/

/-- Values of `xbridge::Error` that rpcxbridge.cpp names; `other` stands for the remaining
values of the enumeration, which the commands only pass through. -/
inductive Error where
  | INVALID_PARAMETERS
  | NOT_EXCHANGE_NODE
  | TRANSACTION_NOT_FOUND
  | SUCCESS
  | UNKNOWN_ERROR
  | INVALID_CURRENCY
  | NO_SESSION
  | INSIFFICIENT_FUNDS
  | INVALID_ADDRESS
  | INVALID_STATE
  | INVALID_DETAIL_LEVEL
  | other (code : Nat)
deriving DecidableEq, Repr

/-- Reply of `dxGetLockedUtxos`: an error object, the object with key
`all_locked_utxo`, or the object with the order id and one list under a currency
label. Entries stand for their `toString()`. -/
inductive LockedUtxosReply where
  | error (code : Error)
  | all_locked_utxo (utxo : List UtxoEntry)
  | order (id : Nat) (label : String) (utxo : List UtxoEntry)
deriving DecidableEq, Repr

/-- Command `dxGetLockedUtxos` for a request that does not ask for help, on string
parameters. -/
def dxGetLockedUtxos {Tx : Type} (env : Env Tx) (e : Exchange Tx) (params : List String) :
    LockedUtxosReply :=
  if params.length > 1 then .error .INVALID_PARAMETERS
  else if !isStarted env e then .error .NOT_EXCHANGE_NODE
  else
    let id : Nat := match params with
      | [s] => env.uint256S s
      | _ => 0
    let r := getUtxoItems e id []
    if !r.1 then .error .TRANSACTION_NOT_FOUND
    else if id = 0 then .all_locked_utxo r.2
    else
      let pendingTx := pendingTransaction env e id
      let acceptedTx := transaction env e id
      if !env.isValid pendingTx && !env.isValid acceptedTx then .error .TRANSACTION_NOT_FOUND
      else if env.isValid pendingTx then .order id (env.a_currency pendingTx) r.2
      else .order id (env.a_currency acceptedTx ++ "_and_" ++ env.b_currency acceptedTx) r.2

/-! ## A concrete descriptor

Used to run the operations above on concrete inputs. -/

/-- Modelled from the spec: class `xbridge::Transaction` (xbridgetransaction.h) is not
among the sources. A descriptor holds the maker side it was constructed from, the
taker side once joined, and the time of its last update. -/
structure Descr where
  a : TxParams
  b : Option TxParams
  updated : Nat
deriving DecidableEq, Repr

/-- Value of a hexadecimal digit. -/
def hexDigit (c : Char) : Option Nat :=
  if '0' ≤ c ∧ c ≤ '9' then some (c.toNat - '0'.toNat)
  else if 'a' ≤ c ∧ c ≤ 'f' then some (c.toNat - 'a'.toNat + 10)
  else if 'A' ≤ c ∧ c ≤ 'F' then some (c.toNat - 'A'.toNat + 10)
  else none

/-- Number written by the leading hexadecimal digits of `cs`, continuing from `acc`. -/
def hexValue : List Char → Nat → Nat
  | [], acc => acc
  | c :: cs, acc =>
    match hexDigit c with
    | some d => hexValue cs (16 * acc + d)
    | none => acc

/-- Modelled from the spec: the methods of `xbridge::Transaction`, for the clock value
`now`, the time to live `ttl`, the minimum spacing `gap` between two updates, the block
hashes `stale` that count as expired by block number and the txids `badFunds` on the
blocklist. A descriptor is valid when its id is not null and both amounts are positive;
it is expired when its last update is more than `ttl` old; an update is too soon when
the last one is less than `gap` old; a join succeeds iff the maker's (from currency,
from amount) is the taker's (to currency, to amount) and vice versa. An order id is
displayed in hexadecimal, and `uint256S` reads it back as a 256-bit number. -/
def descrEnv (now ttl gap : Nat) (stale : List Nat) (badFunds : List String) : Env Descr where
  mkTx := fun p => ⟨p, none, p.timestamp⟩
  nullTx := ⟨⟨0, [], "", 0, [], "", 0, 0, 0, []⟩, none, 0⟩
  id := fun t => t.a.id
  isValid := fun t => decide (t.a.id ≠ 0) && decide (0 < t.a.sourceAmount) && decide (0 < t.a.destAmount)
  isExpired := fun t => decide (ttl < now - t.updated)
  isExpiredByBlockNumber := fun t => decide (t.a.blockHash ∈ stale)
  updateTooSoon := fun t => decide (now - t.updated < gap)
  updateTimestamp := fun t => { t with updated := now }
  tryJoin := fun t o =>
    if t.b.isNone && decide (t.a.sourceCurrency = o.a.destCurrency) &&
        decide (t.a.sourceAmount = o.a.destAmount) &&
        decide (t.a.destCurrency = o.a.sourceCurrency) &&
        decide (t.a.destAmount = o.a.sourceAmount) then
      (true, { t with b := some o.a })
    else (false, t)
  a_currency := fun t => t.a.sourceCurrency
  b_currency := fun t => t.a.destCurrency
  IsCoinValid := fun txId => decide (txId ∉ badFunds)
  time := now
  enableexchange := true
  hasActiveSn := true
  uint256S := fun s => hexValue s.data 0 % 2 ^ 256

/-- Two connected wallets, "BLOCK" and "LTC", without a dust minimum. -/
def demoWallets : List (String × WalletParam) :=
  [("BLOCK", { WalletParam.new with currency := "BLOCK" }),
   ("LTC", { WalletParam.new with currency := "LTC" })]

/-- Maker arguments of order `id`: 25 LTC for 1000 BLOCK, created at time 0. -/
def makerParams (id : Nat) : TxParams :=
  ⟨id, [1], "LTC", 25, [2], "BLOCK", 1000, 0, 7, [3]⟩

/-- Taker arguments matching `makerParams id`. -/
def takerParams (id : Nat) : TxParams :=
  ⟨id, [4], "BLOCK", 1000, [5], "LTC", 25, 0, 0, [6]⟩

/-! ## Call sequences and properties of states -/

/-- Names of the state-changing methods of `Exchange`. -/
inductive OpName where
  | createTransaction
  | acceptTransaction
  | deletePendingTransaction
  | deleteTransaction
  | eraseExpiredTransactions
  | lockUtxos
  | unlockUtxos
  | updateTimestampOrRemoveExpired
deriving DecidableEq, Repr

/-- One call of a state-changing method, with its arguments and the values its
collaborators have during the call. -/
inductive Op (Tx : Type) where
  | create (env : Env Tx) (p : TxParams) (items : List UtxoEntry)
  | accept (env : Env Tx) (p : TxParams) (items : List UtxoEntry)
  | deletePending (id : Nat)
  | delete (txid : Nat)
  | eraseExpired (env : Env Tx)
  | lock (id : Nat) (items : List UtxoEntry)
  | unlock (id : Nat)
  | updateTimestamp (env : Env Tx) (tx : Tx)

/-- The method an `Op` calls. -/
def Op.name {Tx : Type} : Op Tx → OpName
  | .create _ _ _ => .createTransaction
  | .accept _ _ _ => .acceptTransaction
  | .deletePending _ => .deletePendingTransaction
  | .delete _ => .deleteTransaction
  | .eraseExpired _ => .eraseExpiredTransactions
  | .lock _ _ => .lockUtxos
  | .unlock _ => .unlockUtxos
  | .updateTimestamp _ _ => .updateTimestampOrRemoveExpired

/-- State after the call, `none` when the call has no defined result. -/
def Op.apply {Tx : Type} : Op Tx → Exchange Tx → Option (Exchange Tx)
  | .create env p items, e => some (createTransaction env p items e).2.2
  | .accept env p items, e => some (acceptTransaction env p items e).2
  | .deletePending id, e => some (deletePendingTransaction id e).2
  | .delete txid, e => some (deleteTransaction txid e).2
  | .eraseExpired env, e => some (eraseExpiredTransactions env e).2
  | .lock id items, e => some (lockUtxos id items e).2
  | .unlock id, e => some (unlockUtxos id e).2
  | .updateTimestamp env tx, e => (updateTimestampOrRemoveExpired env tx e).map Prod.snd

/-- The order id and outpoints a call hands to `lockUtxos` (when it gets that far). -/
def Op.reserves {Tx : Type} : Op Tx → Option (Nat × List UtxoEntry)
  | .create _ p items => some (p.id, items)
  | .accept _ p items => some (p.id, items)
  | .lock id items => some (id, items)
  | _ => none

/-- States reached from the empty state (with the given wallets loaded) by calls each
of which satisfies `G` in the state it is made in. -/
inductive Reachable {Tx : Type} (G : Op Tx → Exchange Tx → Prop)
    (wallets : List (String × WalletParam)) : Exchange Tx → Prop where
  | empty : Reachable G wallets (Exchange.empty wallets)
  | step (op : Op Tx) (e e' : Exchange Tx) : Reachable G wallets e → G op e →
      op.apply e = some e' → Reachable G wallets e'

/-- Outpoint `o` is in the reservation list of order `x`. -/
def ListedFor {Tx : Type} (e : Exchange Tx) (x : Nat) (o : UtxoEntry) : Prop :=
  ∃ l, mapFind x e.m_utxoTxMap = some l ∧ Listed o l

/-- No outpoint of `items` is in the reservation list of an order other than `id`. -/
def NoForeign {Tx : Type} (e : Exchange Tx) (id : Nat) (items : List UtxoEntry) : Prop :=
  ∀ o ∈ items, ∀ y, y ≠ id → ¬ ListedFor e y o

/-- Every outpoint of a reservation list is in the reserved set. -/
def ListsReserved {Tx : Type} (e : Exchange Tx) : Prop :=
  ∀ x o, ListedFor e x o → setCount o e.m_utxoItems = true

/-- Reservation lists of distinct orders share no outpoint. -/
def ListsDisjoint {Tx : Type} (e : Exchange Tx) : Prop :=
  ∀ x y o, x ≠ y → ListedFor e x o → ¬ ListedFor e y o

/-- The entries of `items` whose outpoint is neither in `vec` nor earlier in `items`,
in the order of `items`. -/
def newOutpoints : List UtxoEntry → List UtxoEntry → List UtxoEntry
  | _, [] => []
  | vec, item :: rest =>
    if Listed item vec then newOutpoints vec rest
    else item :: newOutpoints (vec ++ [item]) rest

/-- States `e` and `e'` have the same reservation ledger. -/
def SameLedger {Tx : Type} (e e' : Exchange Tx) : Prop :=
  e'.m_utxoItems = e.m_utxoItems ∧ e'.m_utxoTxMap = e.m_utxoTxMap

/-- The methods that create, accept, delete and sweep orders. -/
def orderOps : List OpName :=
  [.createTransaction, .acceptTransaction, .deletePendingTransaction, .deleteTransaction,
   .eraseExpiredTransactions]

/-- The methods of `orderOps` together with `lockUtxos` and `unlockUtxos`. -/
def orderAndLedgerOps : List OpName :=
  orderOps ++ [.lockUtxos, .unlockUtxos]

/-- The methods of `orderOps` together with `updateTimestampOrRemoveExpired`. -/
def orderAndRefreshOps : List OpName :=
  orderOps ++ [.updateTimestampOrRemoveExpired]

/-! ## Concrete inputs -/

/-- Collaborators at time 10: time to live 100, minimum update spacing 5, no stale block,
empty blocklist. -/
def demoEnv : Env Descr :=
  descrEnv 10 100 5 [] []

/-- Outpoint ("aa", 0). -/
def utxoA : UtxoEntry :=
  UtxoEntry.ofOutpoint "aa" 0

/-- Outpoint ("bb", 1). -/
def utxoB : UtxoEntry :=
  UtxoEntry.ofOutpoint "bb" 1

/-- State after order 1 was created with `utxoA` and order 2 with `utxoB`. -/
def afterTwoOrders : Exchange Descr :=
  (createTransaction demoEnv (makerParams 2) [utxoB]
    (createTransaction demoEnv (makerParams 1) [utxoA] (Exchange.empty demoWallets)).2.2).2.2

/-- State after `lockUtxos(1, [utxoA])`, `lockUtxos(2, [utxoA])`, `unlockUtxos(1)`. -/
def sharedThenReleased : Exchange Descr :=
  (unlockUtxos 1 (lockUtxos 2 [utxoA]
    (lockUtxos 1 [utxoA] (Exchange.empty demoWallets)).2).2).2

/-- Collaborators as in `demoEnv`, with txid "bad" on the blocklist. -/
def blocklistEnv : Env Descr :=
  descrEnv 10 100 5 [] ["bad"]

/-- Outpoint ("bad", 0). -/
def utxoBad : UtxoEntry :=
  UtxoEntry.ofOutpoint "bad" 0

/-- State after order 1 was created with `utxoA`. -/
def afterOneOrder : Exchange Descr :=
  (createTransaction demoEnv (makerParams 1) [utxoA] (Exchange.empty demoWallets)).2.2

/-- Collaborators at time 1000, when a descriptor last updated at time 0 has outlived
the time to live 100. -/
def lateEnv : Env Descr :=
  descrEnv 1000 100 5 [] []

/-- An order is to be swept: it is expired by block number or by time to live. -/
def sweepable {Tx : Type} (env : Env Tx) (node : Nat × Tx) : Bool :=
  env.isExpiredByBlockNumber node.2 || env.isExpired node.2

/-- State after order 1 was created with `utxoA` at time 0 and order 2 with `utxoB` at
time 950. -/
def mixedAges : Exchange Descr :=
  (createTransaction lateEnv { makerParams 2 with timestamp := 950 } [utxoB] afterOneOrder).2.2

/-- A list that can be the contents of a `std::set<UtxoEntry>`: strictly increasing for
`operator <`. -/
def IsSet (s : List UtxoEntry) : Prop :=
  s.Pairwise (fun a b => a.lt b = true)

/-- Wallets "BLOCK" and "LTC" with the given dust minimums. -/
def walletsWithDust (block ltc : Nat) : List (String × WalletParam) :=
  [("BLOCK", { WalletParam.new with currency := "BLOCK", dustAmount := block }),
   ("LTC", { WalletParam.new with currency := "LTC", dustAmount := ltc })]

/-! ## Order commands (rpcxbridge.cpp) -/

/-- A parameter of a command (`json_spirit::Value`): a string, an integer (`i` is the
value `get_int()` returns for it), a boolean or a value of another type. -/
inductive Value where
  | str (s : String)
  | int (i : Int)
  | bool (b : Bool)
  | other
deriving DecidableEq, Repr

/-- Method `Value::get_str`; `none` when it throws because the value is not a string. -/
def Value.get_str : Value → Option String
  | .str s => some s
  | _ => none

/-- Method `Value::get_int`; `none` when it throws because the value is not an integer. -/
def Value.get_int : Value → Option Int
  | .int i => some i
  | _ => none

/-- Method `Value::get_int64`; `none` when it throws because the value is not an
integer. -/
def Value.get_int64 : Value → Option Int
  | .int i => some i
  | _ => none

/-- Method `Value::get_bool`; `none` when it throws because the value is not a boolean. -/
def Value.get_bool : Value → Option Bool
  | .bool b => some b
  | _ => none

/-- Method `Value::get_uint64`: the integer converted to `uint64_t`; `none` when it
throws because the value is not an integer. -/
def Value.get_uint64 : Value → Option Nat
  | .int i => some (i % 2 ^ 64).toNat
  | _ => none

/-- Fields of `xbridge::TransactionDescr` that the modelled commands read or write (the
declaration, xbridgetransactiondescr.h, is not among the sources). Amounts are
`uint64_t`; `state` is the numeric value of the enumerator; `created` and `txtime` are
times; `from_` and `to_` are the members `from` and `to`; `isLocal` is what `isLocal()`
returns. -/
structure TransactionDescr where
  id : Nat
  fromCurrency : String
  fromAmount : Nat
  toCurrency : String
  toAmount : Nat
  state : Int
  created : Nat
  txtime : Nat
  from_ : List Nat
  to_ : List Nat
  refTx : String
  isLocal : Bool
deriving DecidableEq, Repr

/-- Enumeration `TxCancelReason`; only the enumerator the modelled commands pass is
listed. -/
inductive TxCancelReason where
  | crRpcRequest
deriving DecidableEq, Repr

/-- A call of a state-changing method of `xbridge::App`, with its arguments. -/
inductive AppCall where
  | sendXBridgeTransaction (fromAddress fromCurrency : String) (fromAmount : Nat)
      (toAddress toCurrency : String) (toAmount : Nat)
  | acceptXBridgeTransaction (id : Nat) (fromAddress toAddress : String)
  | cancelXBridgeTransaction (id : Nat) (reason : TxCancelReason)
deriving DecidableEq, Repr

/-- Value of a member of a reply object, before it is formatted: a string, `GetHex()` of
an id, `xBridgeStringValueFromAmount` of an amount, `iso8601` of a stored time, or
`iso8601` of the current time. -/
inductive Field where
  | str (s : String)
  | hex (id : Nat)
  | amount (a : Nat)
  | time (t : Nat)
  | now
deriving DecidableEq, Repr

/-- Outcome of a command: the object `makeError` builds for a code (its text and function
name are left out), a reply object, an exception (runtime_error, bad_lexical_cast), or no
defined outcome (a null pointer is dereferenced). -/
inductive Reply where
  | error (code : Error)
  | object (fields : List (String × Field))
  | thrown
  | undefined
deriving DecidableEq, Repr

/-- What a command leaves behind: its reply, the state-changing calls it made on the
`App` in order, the state of the `App`, and the value of the descriptor behind the
pointer the command holds (`none` if it holds none). -/
structure RpcResult (σ : Type) where
  reply : Reply
  calls : List AppCall
  app : σ
  descr : Option TransactionDescr

/-- What the commands call on `xbridge::App::instance()` and on `TransactionDescr`, over
the state `σ` of the application; also the constants they use. A method that can write
through the descriptor pointer the command holds takes the descriptor's value and
returns its new value. -/
structure App (σ : Type) where
  /-- Method `App::transaction(id)`; `none` is a null pointer. -/
  transaction : σ → Nat → Option TransactionDescr
  /-- Method `App::transactions()`, in key order; a `none` is a null pointer. -/
  transactions : σ → List (Nat × Option TransactionDescr)
  /-- Whether `App::connectorByCurrency(currency)` is not null. -/
  connectorByCurrency : σ → String → Bool
  /-- Method `App::isValidAddress(address, conn)`, `conn` being the connector of the given
  currency. -/
  isValidAddress : σ → String → String → Bool
  /-- Method `fromXAddr` of the connector of the given currency. -/
  fromXAddr : String → List Nat → String
  checkCreateParams : σ → String → String → Nat → String → Error
  /-- Method `App::checkAcceptParams(id, txDescr, fromAddress)`: the status and the
  pointer it stores in `txDescr`. -/
  checkAcceptParams : σ → Nat → String → Error × Option TransactionDescr
  /-- Method `App::sendXBridgeTransaction`: the status, the outputs `id` and `blockHash`,
  and the new state. -/
  sendXBridgeTransaction : σ → String → String → Nat → String → String → Nat →
    Error × Nat × Nat × σ
  acceptXBridgeTransaction : σ → Nat → String → String → TransactionDescr →
    Error × TransactionDescr × σ
  cancelXBridgeTransaction : σ → Nat → TxCancelReason → TransactionDescr →
    Error × TransactionDescr × σ
  strState : TransactionDescr → String
  uint256S : String → Nat
  /-- Enumerator `TransactionDescr::trPending`. -/
  trPending : Int
  /-- Enumerator `TransactionDescr::trCreated`. -/
  trCreated : Int
  /-- Constant `TransactionDescr::MAX_COIN`. -/
  MAX_COIN : Nat

section Commands
variable {σ : Type}

/-- Command `dxCancelOrder` for a request that does not ask for help. -/
def dxCancelOrder (app : App σ) (s : σ) (params : List Value) : RpcResult σ :=
  match params with
  | [p0] =>
    match p0.get_str with
    | none => ⟨.thrown, [], s, none⟩
    | some str =>
      let id := app.uint256S str
      match app.transaction s id with
      | none => ⟨.error .TRANSACTION_NOT_FOUND, [], s, none⟩
      | some tx =>
        if tx.state ≥ app.trCreated then ⟨.error .INVALID_STATE, [], s, some tx⟩
        else
          let r := app.cancelXBridgeTransaction s id .crRpcRequest tx
          let calls := [AppCall.cancelXBridgeTransaction id .crRpcRequest]
          let tx := r.2.1
          if r.1 ≠ .SUCCESS then ⟨.error r.1, calls, r.2.2, some tx⟩
          else if !app.connectorByCurrency r.2.2 tx.fromCurrency then
            ⟨.error .NO_SESSION, calls, r.2.2, some tx⟩
          else if !app.connectorByCurrency r.2.2 tx.toCurrency then
            ⟨.error .NO_SESSION, calls, r.2.2, some tx⟩
          else
            ⟨.object [("id", .hex id), ("maker", .str tx.fromCurrency),
                ("maker_size", .amount tx.fromAmount),
                ("maker_address", .str (app.fromXAddr tx.fromCurrency tx.from_)),
                ("taker", .str tx.toCurrency), ("taker_size", .amount tx.toAmount),
                ("taker_address", .str (app.fromXAddr tx.toCurrency tx.to_)),
                ("refund_tx", .str tx.refTx), ("updated_at", .time tx.txtime),
                ("created_at", .time tx.created), ("status", .str (app.strState tx))],
              calls, r.2.2, some tx⟩
  | _ => ⟨.error .INVALID_PARAMETERS, [], s, none⟩

end Commands

/-- Arithmetic on `double` and the functions of xutil.h that compute with it (their
definitions, xutil.cpp, are not among the sources), over a type `D` of double values. -/
structure DoubleOps (D : Type) where
  /-- Comparison `a < b`; `a > b` is `lt b a`. -/
  lt : D → D → Bool
  /-- Comparison `a <= b`. -/
  le : D → D → Bool
  sub : D → D → D
  div : D → D → D
  fabs : D → D
  /-- Constant `std::numeric_limits<double>::epsilon()`. -/
  epsilon : D
  /-- Conversion of an unsigned integer to `double`. -/
  ofUInt64 : Nat → D
  /-- Function `boost::lexical_cast<double>`; `none` when it throws. -/
  lexical_cast : String → Option D
  /-- Function `xbridge::price` of a descriptor pointer (`none` is a null pointer). -/
  price : Option TransactionDescr → D
  /-- Function `xbridge::priceBid` of a descriptor pointer. -/
  priceBid : Option TransactionDescr → D
  xBridgeAmountFromReal : D → Nat
  xBridgeValidCoin : String → Bool

section Commands
variable {σ D : Type}

/-- The two `std::swap` calls of `dxTakeOrder` on the descriptor. -/
def swapPair (d : TransactionDescr) : TransactionDescr :=
  { d with fromCurrency := d.toCurrency, toCurrency := d.fromCurrency,
           fromAmount := d.toAmount, toAmount := d.fromAmount }

/-- Part of `dxTakeOrder` that follows `checkAcceptParams`, for a status `statusCode` and
the pointer `txDescr` it left. -/
def takeOrderChecked (app : App σ) (s : σ) (id : Nat) (fromAddress toAddress : String)
    (dryrun : Bool) (statusCode : Error) (txDescr : Option TransactionDescr) : RpcResult σ :=
  match statusCode with
  | .SUCCESS =>
    match txDescr with
    | none => ⟨.undefined, [], s, none⟩
    | some d =>
      if d.isLocal then ⟨.error .INVALID_PARAMETERS, [], s, some d⟩
      else if !app.connectorByCurrency s d.toCurrency then ⟨.error .NO_SESSION, [], s, some d⟩
      else if !app.connectorByCurrency s d.fromCurrency then ⟨.error .NO_SESSION, [], s, some d⟩
      else if !app.isValidAddress s toAddress d.fromCurrency then
        ⟨.error .INVALID_ADDRESS, [], s, some d⟩
      else if !app.isValidAddress s fromAddress d.toCurrency then
        ⟨.error .INVALID_ADDRESS, [], s, some d⟩
      else if dryrun then
        ⟨.object [("id", .hex 0), ("maker", .str d.fromCurrency),
            ("maker_size", .amount d.fromAmount), ("taker", .str d.toCurrency),
            ("taker_size", .amount d.toAmount), ("updated_at", .now),
            ("created_at", .time d.created), ("status", .str "filled")],
          [], s, some d⟩
      else
        let r := app.acceptXBridgeTransaction s id fromAddress toAddress (swapPair d)
        let calls := [AppCall.acceptXBridgeTransaction id fromAddress toAddress]
        let d' := r.2.1
        if r.1 = .SUCCESS then
          ⟨.object [("id", .hex id), ("maker", .str d'.fromCurrency),
              ("maker_size", .amount d'.fromAmount), ("taker", .str d'.toCurrency),
              ("taker_size", .amount d'.toAmount), ("updated_at", .now),
              ("created_at", .time d'.created), ("status", .str (app.strState d'))],
            calls, r.2.2, some d'⟩
        else ⟨.error r.1, calls, r.2.2, some (swapPair d')⟩
  | .TRANSACTION_NOT_FOUND => ⟨.error .TRANSACTION_NOT_FOUND, [], s, txDescr⟩
  | .NO_SESSION =>
    match txDescr with
    | none => ⟨.undefined, [], s, none⟩
    | some d => ⟨.error .NO_SESSION, [], s, some d⟩
  | .INSIFFICIENT_FUNDS => ⟨.error .INSIFFICIENT_FUNDS, [], s, txDescr⟩
  | code => ⟨.error code, [], s, txDescr⟩

/-- Part of `dxTakeOrder` that follows the check of the number of parameters; `p3` is the
fourth parameter when there is one. -/
def takeOrderParams (app : App σ) (s : σ) (p0 p1 p2 : Value) (p3 : Option Value) :
    RpcResult σ :=
  match p0.get_str, p1.get_str, p2.get_str with
  | some idStr, some fromAddress, some toAddress =>
    let id := app.uint256S idStr
    if fromAddress = toAddress then ⟨.error .INVALID_PARAMETERS, [], s, none⟩
    else
      match p3 with
      | none =>
        let c := app.checkAcceptParams s id fromAddress
        takeOrderChecked app s id fromAddress toAddress false c.1 c.2
      | some v =>
        match v.get_str with
        | none => ⟨.thrown, [], s, none⟩
        | some dryrunParam =>
          if dryrunParam ≠ "dryrun" then ⟨.error .INVALID_PARAMETERS, [], s, none⟩
          else
            let c := app.checkAcceptParams s id fromAddress
            takeOrderChecked app s id fromAddress toAddress true c.1 c.2
  | _, _, _ => ⟨.thrown, [], s, none⟩

/-- Command `dxTakeOrder` for a request that does not ask for help. -/
def dxTakeOrder (app : App σ) (s : σ) (params : List Value) : RpcResult σ :=
  match params with
  | [p0, p1, p2] => takeOrderParams app s p0 p1 p2 none
  | [p0, p1, p2, p3] => takeOrderParams app s p0 p1 p2 (some p3)
  | _ => ⟨.error .INVALID_PARAMETERS, [], s, none⟩

/-- Part of `dxMakeOrder` from `checkCreateParams` on. -/
def makeOrderSend (ops : DoubleOps D) (app : App σ) (s : σ) (fromCurrency : String)
    (fromAmount : D) (fromAddress toCurrency : String) (toAmount : D) (toAddress : String)
    (dryrun : Bool) : RpcResult σ :=
  let statusCode := app.checkCreateParams s fromCurrency toCurrency
    (ops.xBridgeAmountFromReal fromAmount) fromAddress
  if statusCode ≠ .SUCCESS then ⟨.error statusCode, [], s, none⟩
  else if dryrun then
    ⟨.object [("id", .hex 0), ("maker", .str fromCurrency),
        ("maker_size", .amount (ops.xBridgeAmountFromReal fromAmount)),
        ("maker_address", .str fromAddress), ("taker", .str toCurrency),
        ("taker_size", .amount (ops.xBridgeAmountFromReal toAmount)),
        ("taker_address", .str toAddress), ("status", .str "created")],
      [], s, none⟩
  else
    let r := app.sendXBridgeTransaction s fromAddress fromCurrency
      (ops.xBridgeAmountFromReal fromAmount) toAddress toCurrency
      (ops.xBridgeAmountFromReal toAmount)
    let calls := [AppCall.sendXBridgeTransaction fromAddress fromCurrency
      (ops.xBridgeAmountFromReal fromAmount) toAddress toCurrency
      (ops.xBridgeAmountFromReal toAmount)]
    if r.1 = .SUCCESS then
      match app.transaction r.2.2.2 r.2.1 with
      | none => ⟨.undefined, calls, r.2.2.2, none⟩
      | some t =>
        ⟨.object [("id", .hex r.2.1), ("maker_address", .str fromAddress),
            ("maker", .str fromCurrency),
            ("maker_size", .amount (ops.xBridgeAmountFromReal fromAmount)),
            ("taker_address", .str toAddress), ("taker", .str toCurrency),
            ("taker_size", .amount (ops.xBridgeAmountFromReal toAmount)),
            ("created_at", .time t.created), ("updated_at", .now),
            ("block_id", .hex r.2.2.1), ("status", .str "created")],
          calls, r.2.2.2, none⟩
    else ⟨.error r.1, calls, r.2.2.2, none⟩

/-- Part of `dxMakeOrder` from the validation of the addresses to the dryrun parameter;
`rest` holds the parameters after the seventh. -/
def makeOrderSubmit (ops : DoubleOps D) (app : App σ) (s : σ) (fromCurrency : String)
    (fromAmount : D) (fromAddress toCurrency : String) (toAmount : D) (toAddress : String)
    (rest : List Value) : RpcResult σ :=
  if !app.connectorByCurrency s fromCurrency then ⟨.error .NO_SESSION, [], s, none⟩
  else if !app.connectorByCurrency s toCurrency then ⟨.error .NO_SESSION, [], s, none⟩
  else if !app.isValidAddress s fromAddress fromCurrency then
    ⟨.error .INVALID_ADDRESS, [], s, none⟩
  else if !app.isValidAddress s toAddress toCurrency then
    ⟨.error .INVALID_ADDRESS, [], s, none⟩
  else if ops.le fromAmount (ops.ofUInt64 0) then ⟨.error .INVALID_PARAMETERS, [], s, none⟩
  else if ops.le toAmount (ops.ofUInt64 0) then ⟨.error .INVALID_PARAMETERS, [], s, none⟩
  else
    match rest with
    | [p7] =>
      match p7.get_str with
      | none => ⟨.thrown, [], s, none⟩
      | some dryrunParam =>
        if dryrunParam ≠ "dryrun" then ⟨.error .INVALID_PARAMETERS, [], s, none⟩
        else makeOrderSend ops app s fromCurrency fromAmount fromAddress toCurrency toAmount
          toAddress true
    | _ => makeOrderSend ops app s fromCurrency fromAmount fromAddress toCurrency toAmount
        toAddress false

/-- Part of `dxMakeOrder` from the check of the order type to the checks of the limits. -/
def makeOrderValidated (ops : DoubleOps D) (app : App σ) (s : σ) (fromCurrency : String)
    (fromAmount : D) (fromAddress toCurrency : String) (toAmount : D) (toAddress : String)
    (type : String) (rest : List Value) : RpcResult σ :=
  if type ≠ "exact" then ⟨.error .INVALID_PARAMETERS, [], s, none⟩
  else if fromAddress = toAddress then ⟨.error .INVALID_PARAMETERS, [], s, none⟩
  else if ops.lt (ops.ofUInt64 app.MAX_COIN) fromAmount ||
      ops.lt (ops.ofUInt64 app.MAX_COIN) toAmount then
    ⟨.error .INVALID_PARAMETERS, [], s, none⟩
  else if ops.le fromAmount (ops.ofUInt64 0) || ops.le toAmount (ops.ofUInt64 0) then
    ⟨.error .INVALID_PARAMETERS, [], s, none⟩
  else makeOrderSubmit ops app s fromCurrency fromAmount fromAddress toCurrency toAmount
    toAddress rest

/-- Command `dxMakeOrder` for a request that does not ask for help. -/
def dxMakeOrder (ops : DoubleOps D) (app : App σ) (s : σ) (params : List Value) :
    RpcResult σ :=
  match params with
  | p0 :: p1 :: p2 :: p3 :: p4 :: p5 :: p6 :: rest =>
    match p1.get_str with
    | none => ⟨.thrown, [], s, none⟩
    | some makerSize =>
      if !ops.xBridgeValidCoin makerSize then ⟨.error .INVALID_PARAMETERS, [], s, none⟩
      else
        match p4.get_str with
        | none => ⟨.thrown, [], s, none⟩
        | some takerSize =>
          if !ops.xBridgeValidCoin takerSize then ⟨.error .INVALID_PARAMETERS, [], s, none⟩
          else
            match p0.get_str, ops.lexical_cast makerSize, p2.get_str, p3.get_str,
              ops.lexical_cast takerSize, p5.get_str, p6.get_str with
            | some fromCurrency, some fromAmount, some fromAddress, some toCurrency,
              some toAmount, some toAddress, some type =>
              makeOrderValidated ops app s fromCurrency fromAmount fromAddress toCurrency
                toAmount toAddress type rest
            | _, _, _, _, _, _, _ => ⟨.thrown, [], s, none⟩
  | _ => ⟨.thrown, [], s, none⟩

end Commands

/-! ## dxGetOrderBook (rpcxbridge.cpp) -/

/-- Element of the `asks` or `bids` array of an order book: the array
`[price, size, count]` of levels 1 and 2, the array `[price, size, id]` of level 3, or
one of the three elements price, size and array of ids that level 4 puts into the
array itself. Prices and sizes stand for their formatted strings. -/
inductive BookRow (D : Type) where
  | counted (price : D) (size : Nat) (count : Nat)
  | byId (price : D) (size : Nat) (id : Nat)
  | price (p : D)
  | size (a : Nat)
  | ids (l : List Nat)
deriving DecidableEq, Repr

/-- Outcome of `dxGetOrderBook`: an error object, an exception, no defined outcome (a
vector is indexed out of range or a null pointer is dereferenced), or the object with
members detail, maker, taker, asks and bids. -/
inductive BookReply (D : Type) where
  | error (code : Error)
  | thrown
  | undefined
  | book (detail : Int) (maker taker : String) (asks bids : List (BookRow D))
deriving DecidableEq, Repr

/-- Conversion of an integer to `int32_t` (the low 32 bits, as a signed number). -/
def toInt32 (n : Int) : Int :=
  (n + 2 ^ 31) % 2 ^ 32 - 2 ^ 31

/-- Conversion of an integer to `std::size_t` (64 bits). -/
def toSizeT (n : Int) : Nat :=
  (n % 2 ^ 64).toNat

/-- Element `v[i]` of a vector for a signed index, which `operator[]` converts to
`size_t`; `none` when the index is out of range. -/
def vecAt {α : Type} (v : List α) (i : Int) : Option α :=
  if 0 ≤ i then v[i.toNat]? else none

/-- Algorithm `std::max_element`: the first of the largest elements, `none` on an empty
range. -/
def maxElement {α : Type} (comp : α → α → Bool) : List α → Option α
  | [] => none
  | x :: xs => some (xs.foldl (fun largest it => if comp largest it then it else largest) x)

/-- Algorithm `std::min_element`: the first of the smallest elements, `none` on an empty
range. -/
def minElement {α : Type} (comp : α → α → Bool) : List α → Option α
  | [] => none
  | x :: xs => some (xs.foldl (fun smallest it => if comp it smallest then it else smallest) x)

section OrderBook
variable {σ D : Type}

/-- Lambda `floatCompare` of `dxGetOrderBook`. -/
def floatCompare (ops : DoubleOps D) (a b : D) : Bool :=
  ops.le (ops.div (ops.fabs (ops.sub a b)) (ops.fabs a)) ops.epsilon &&
    ops.le (ops.div (ops.fabs (ops.sub a b)) (ops.fabs b)) ops.epsilon

/-- Predicate of the first `std::copy_if` of `dxGetOrderBook` (asks). -/
def isAskEntry (app : App σ) (fromCurrency toCurrency : String)
    (transaction : Nat × Option TransactionDescr) : Bool :=
  match transaction.2 with
  | none => false
  | some d =>
    if d.fromAmount ≤ 0 ∨ d.toAmount ≤ 0 then false
    else if d.state ≠ app.trPending then false
    else decide (d.toCurrency = toCurrency) && decide (d.fromCurrency = fromCurrency)

/-- Predicate of the second `std::copy_if` of `dxGetOrderBook` (bids). -/
def isBidEntry (app : App σ) (fromCurrency toCurrency : String)
    (transaction : Nat × Option TransactionDescr) : Bool :=
  match transaction.2 with
  | none => false
  | some d =>
    if d.fromAmount ≤ 0 ∨ d.toAmount ≤ 0 then false
    else if d.state ≠ app.trPending then false
    else decide (d.toCurrency = fromCurrency) && decide (d.fromCurrency = toCurrency)

/-- Comparison lambda given to `std::max_element` over `bidsList`. -/
def bidLess (ops : DoubleOps D) (a b : Nat × Option TransactionDescr) : Bool :=
  match a.2 with
  | none => true
  | some _ =>
    match b.2 with
    | none => false
    | some _ => ops.lt (ops.priceBid a.2) (ops.priceBid b.2)

/-- Comparison lambda given to `std::min_element` over `asksList`. -/
def askLess (ops : DoubleOps D) (a b : Nat × Option TransactionDescr) : Bool :=
  match a.2 with
  | none => true
  | some _ =>
    match b.2 with
    | none => false
    | some _ => ops.lt (ops.price a.2) (ops.price b.2)

/-- Result of `std::count_if` over a list with the lambda that compares the price `quote`
of an entry with `best` (null entries do not count). -/
def countAtPrice (ops : DoubleOps D) (quote : Option TransactionDescr → D) (best : D)
    (list : List (Nat × Option TransactionDescr)) : Nat :=
  (list.filter (fun a =>
    match a.2 with
    | none => false
    | some _ => floatCompare ops (quote a.2) best)).length

/-- Bids of detail level 1. -/
def level1Bids (ops : DoubleOps D) (bidsList : List (Nat × Option TransactionDescr)) :
    List (BookRow D) :=
  match maxElement (bidLess ops) bidsList with
  | none => []
  | some bidsItem =>
    match bidsItem.2 with
    | none => []
    | some tr =>
      [.counted (ops.priceBid (some tr)) tr.toAmount
        (countAtPrice ops ops.priceBid (ops.priceBid (some tr)) bidsList)]

/-- Asks of detail level 1. -/
def level1Asks (ops : DoubleOps D) (asksList : List (Nat × Option TransactionDescr)) :
    List (BookRow D) :=
  match minElement (askLess ops) asksList with
  | none => []
  | some asksItem =>
    match asksItem.2 with
    | none => []
    | some tr =>
      [.counted (ops.price (some tr)) tr.fromAmount
        (countAtPrice ops ops.price (ops.price (some tr)) asksList)]

end OrderBook

section OrderBook
variable {σ D : Type}

/-- Inner `while` of the loop over bids of detail level 2, entered with index `i` and the
size summed so far: the index and the size when it ends, `none` when it indexes
`bidsVector` out of range or dereferences a null pointer. `bound` is the loop bound as
the `size_t` it is compared as; `fuel` bounds the number of iterations. -/
def level2BidsWhile (ops : DoubleOps D) (bidsVector : List (Option TransactionDescr))
    (bound : Nat) (bidPrice : D) : Nat → Nat → Nat → Option (Nat × Nat)
  | 0, _, _ => none
  | fuel + 1, i, bidSize =>
    if ¬ (i + 1 < bound) then some (i + 1, bidSize)
    else
      match bidsVector[i + 1]? with
      | none => none
      | some ptr =>
        if floatCompare ops (ops.priceBid ptr) bidPrice then
          match ptr with
          | none => none
          | some tr =>
            level2BidsWhile ops bidsVector bound bidPrice fuel (i + 1)
              ((bidSize + tr.toAmount) % 2 ^ 64)
        else some (i + 1, bidSize)

/-- Loop `for (size_t i = 0; i < bound; ++i)` over bids of detail level 2, from index
`i` on. -/
def level2BidsFor (ops : DoubleOps D) (bidsList : List (Nat × Option TransactionDescr))
    (bidsVector : List (Option TransactionDescr)) (bound : Nat) :
    Nat → Nat → Option (List (BookRow D))
  | 0, _ => none
  | fuel + 1, i =>
    if ¬ (i < bound) then some []
    else
      match bidsVector[i]? with
      | none => none
      | some none => level2BidsFor ops bidsList bidsVector bound fuel (i + 1)
      | some (some tr) =>
        let bidPrice := ops.priceBid (some tr)
        let bidsCount := countAtPrice ops ops.priceBid bidPrice bidsList
        match level2BidsWhile ops bidsVector bound bidPrice (bidsVector.length + 1) i
            tr.toAmount with
        | none => none
        | some (j, bidSize) =>
          (level2BidsFor ops bidsList bidsVector bound fuel (j + 1)).map
            (fun rows => .counted bidPrice bidSize bidsCount :: rows)

/-- Inner `while` of the loop over asks of detail level 2; the index and `bound` are
`int32_t`. -/
def level2AsksWhile (ops : DoubleOps D) (asksVector : List (Option TransactionDescr))
    (bound : Int) (askPrice : D) : Nat → Int → Nat → Option (Int × Nat)
  | 0, _, _ => none
  | fuel + 1, i, askSize =>
    if ¬ (i + 1 < bound) then some (i + 1, askSize)
    else
      match vecAt asksVector (i + 1) with
      | none => none
      | some ptr =>
        if floatCompare ops (ops.price ptr) askPrice then
          match ptr with
          | none => none
          | some tr =>
            level2AsksWhile ops asksVector bound askPrice fuel (i + 1)
              ((askSize + tr.fromAmount) % 2 ^ 64)
        else some (i + 1, askSize)

/-- Loop `for (int32_t i = asks_len - bound; i < asks_len; ++i)` over asks of detail
level 2, from index `i` on. -/
def level2AsksFor (ops : DoubleOps D) (asksList : List (Nat × Option TransactionDescr))
    (asksVector : List (Option TransactionDescr)) (bound asks_len : Int) :
    Nat → Int → Option (List (BookRow D))
  | 0, _ => none
  | fuel + 1, i =>
    if ¬ (i < asks_len) then some []
    else
      match vecAt asksVector i with
      | none => none
      | some none => level2AsksFor ops asksList asksVector bound asks_len fuel (i + 1)
      | some (some tr) =>
        let askPrice := ops.price (some tr)
        let asksCount := countAtPrice ops ops.price askPrice asksList
        match level2AsksWhile ops asksVector bound askPrice (asksVector.length + 1) i
            tr.fromAmount with
        | none => none
        | some (j, askSize) =>
          (level2AsksFor ops asksList asksVector bound asks_len fuel (j + 1)).map
            (fun rows => .counted askPrice askSize asksCount :: rows)

/-- Loop `for (size_t i = 0; i < bound; ++i)` over bids of detail level 3, from index
`i` on. -/
def level3BidsFor (ops : DoubleOps D) (bidsVector : List (Option TransactionDescr))
    (bound : Nat) : Nat → Nat → Option (List (BookRow D))
  | 0, _ => none
  | fuel + 1, i =>
    if ¬ (i < bound) then some []
    else
      match bidsVector[i]? with
      | none => none
      | some none => level3BidsFor ops bidsVector bound fuel (i + 1)
      | some (some tr) =>
        (level3BidsFor ops bidsVector bound fuel (i + 1)).map
          (fun rows => .byId (ops.priceBid (some tr)) tr.toAmount tr.id :: rows)

/-- Loop `for (int32_t i = asks_len - bound; i < asks_len; ++i)` over asks of detail
level 3, from index `i` on. -/
def level3AsksFor (ops : DoubleOps D) (asksVector : List (Option TransactionDescr))
    (asks_len : Int) : Nat → Int → Option (List (BookRow D))
  | 0, _ => none
  | fuel + 1, i =>
    if ¬ (i < asks_len) then some []
    else
      match vecAt asksVector i with
      | none => none
      | some none => level3AsksFor ops asksVector asks_len fuel (i + 1)
      | some (some tr) =>
        (level3AsksFor ops asksVector asks_len fuel (i + 1)).map
          (fun rows => .byId (ops.price (some tr)) tr.fromAmount tr.id :: rows)

/-- Ids that detail level 4 lists after the id of the best order `tr`: those of the
other entries whose price `quote` compares equal to `best`. -/
def otherIdsAtPrice (ops : DoubleOps D) (quote : Option TransactionDescr → D) (best : D)
    (tr : TransactionDescr) (list : List (Nat × Option TransactionDescr)) : List Nat :=
  list.filterMap (fun tp =>
    match tp.2 with
    | none => none
    | some otherTr =>
      if tr.id = otherTr.id then none
      else if !floatCompare ops best (quote (some otherTr)) then none
      else some otherTr.id)

/-- Bids of detail level 4. -/
def level4Bids (ops : DoubleOps D) (bidsList : List (Nat × Option TransactionDescr)) :
    List (BookRow D) :=
  match maxElement (bidLess ops) bidsList with
  | none => []
  | some bidsItem =>
    match bidsItem.2 with
    | none => []
    | some tr =>
      [.price (ops.priceBid (some tr)), .size tr.toAmount,
        .ids (tr.id :: otherIdsAtPrice ops ops.priceBid (ops.priceBid (some tr)) tr bidsList)]

/-- Asks of detail level 4. -/
def level4Asks (ops : DoubleOps D) (asksList : List (Nat × Option TransactionDescr)) :
    List (BookRow D) :=
  match minElement (askLess ops) asksList with
  | none => []
  | some asksItem =>
    match asksItem.2 with
    | none => []
    | some tr =>
      [.price (ops.price (some tr)), .size tr.fromAmount,
        .ids (tr.id :: otherIdsAtPrice ops ops.price (ops.price (some tr)) tr asksList)]

/-- Reply with the given rows, or no defined outcome when a loop had none. -/
def bookOf (detail : Int) (maker taker : String) (asks bids : Option (List (BookRow D))) :
    BookReply D :=
  match asks, bids with
  | some a, some b => .book detail maker taker a b
  | _, _ => .undefined

/-- Part of `dxGetOrderBook` that follows the reading of the parameters. `maxOrders` is
the `size_t` before the adjustment `if (maxOrders < 1)`; `sort` is `std::sort` with the
given "comes before" comparison (it leaves the order of equivalent elements open). -/
def orderBook (ops : DoubleOps D) (app : App σ)
    (sort : (Option TransactionDescr → Option TransactionDescr → Bool) →
      List (Option TransactionDescr) → List (Option TransactionDescr))
    (trList : List (Nat × Option TransactionDescr)) (detailLevel : Int)
    (fromCurrency toCurrency : String) (maxOrders : Nat) : BookReply D :=
  let maxOrders := if maxOrders < 1 then 1 else maxOrders
  if detailLevel < 1 ∨ detailLevel > 4 then .error .INVALID_DETAIL_LEVEL
  else if trList.isEmpty then .book detailLevel fromCurrency toCurrency [] []
  else
    let asksList := trList.filter (isAskEntry app fromCurrency toCurrency)
    let bidsList := trList.filter (isBidEntry app fromCurrency toCurrency)
    let asksVector := sort (fun a b => ops.lt (ops.price b) (ops.price a))
      (asksList.map Prod.snd)
    let bidsVector := sort (fun a b => ops.lt (ops.priceBid b) (ops.priceBid a))
      (bidsList.map Prod.snd)
    if detailLevel = 1 then
      .book detailLevel fromCurrency toCurrency (level1Asks ops asksList)
        (level1Bids ops bidsList)
    else if detailLevel = 2 then
      let bound := min (toInt32 maxOrders) (toInt32 bidsVector.length)
      let bids := level2BidsFor ops bidsList bidsVector (toSizeT bound)
        (bidsVector.length + 1) 0
      let bound := min (toInt32 maxOrders) (toInt32 asksVector.length)
      let asks_len := toInt32 asksVector.length
      let asks := level2AsksFor ops asksList asksVector bound asks_len
        (asksVector.length + 1) (asks_len - bound)
      bookOf detailLevel fromCurrency toCurrency asks bids
    else if detailLevel = 3 then
      let bound := min (toInt32 maxOrders) (toInt32 bidsVector.length)
      let bids := level3BidsFor ops bidsVector (toSizeT bound) (bidsVector.length + 1) 0
      let bound := min (toInt32 maxOrders) (toInt32 asksVector.length)
      let asks_len := toInt32 asksVector.length
      let asks := level3AsksFor ops asksVector asks_len (asksVector.length + 1)
        (asks_len - bound)
      bookOf detailLevel fromCurrency toCurrency asks bids
    else
      .book detailLevel fromCurrency toCurrency (level4Asks ops asksList)
        (level4Bids ops bidsList)

/-- Command `dxGetOrderBook` for a request that does not ask for help. -/
def dxGetOrderBook (ops : DoubleOps D) (app : App σ)
    (sort : (Option TransactionDescr → Option TransactionDescr → Bool) →
      List (Option TransactionDescr) → List (Option TransactionDescr))
    (s : σ) (params : List Value) : BookReply D :=
  match params with
  | [p0, p1, p2] =>
    match p0.get_int, p1.get_str, p2.get_str with
    | some detailLevel, some fromCurrency, some toCurrency =>
      orderBook ops app sort (app.transactions s) detailLevel fromCurrency toCurrency 50
    | _, _, _ => .thrown
  | [p0, p1, p2, p3] =>
    match p0.get_int, p1.get_str, p2.get_str, p3.get_int with
    | some detailLevel, some fromCurrency, some toCurrency, some m =>
      orderBook ops app sort (app.transactions s) detailLevel fromCurrency toCurrency
        (toSizeT m)
    | _, _, _, _ => .thrown
  | _ => .error .INVALID_PARAMETERS

end OrderBook

/-! ## Concrete collaborators of the commands -/

/-- Value of a decimal digit. -/
def digitValue (c : Char) : Option Nat :=
  if '0' ≤ c ∧ c ≤ '9' then some (c.toNat - '0'.toNat) else none

/-- Number written by a list of decimal digits, continuing from `acc`; `none` when a
character is not a digit. -/
def digitsValue : List Char → Nat → Option Nat
  | [], acc => some acc
  | c :: cs, acc =>
    match digitValue c with
    | some d => digitsValue cs (10 * acc + d)
    | none => none

/-- Number of 10^-8 units written by an unsigned decimal string such as "25" or
"0.001"; digits after the eighth fractional digit are dropped. -/
def parseUnits (cs : List Char) : Option Nat :=
  let whole := cs.takeWhile (fun c => c != '.')
  let frac := (cs.dropWhile (fun c => c != '.')).drop 1
  if whole.isEmpty then none
  else
    match digitsValue whole 0, digitsValue ((frac ++ List.replicate 8 '0').take 8) 0,
      digitsValue frac 0 with
    | some w, some f, some _ => some (w * 10 ^ 8 + f)
    | _, _, _ => none

/-- Modelled from the spec: a stand-in for `double` and the functions of xutil.h, in
which a number is held in fixed point with 10^8 units per coin (the amount scale of
the spec). A decimal string is read exactly up to 8 fractional digits; the precision is
valid when at most 8 fractional digits remain after dropping trailing zeros; the price
of an order is toAmount/fromAmount and its bid price fromAmount/toAmount (0 for a null
pointer or a zero divisor); epsilon is below the resolution. -/
def fixedOps : DoubleOps Int where
  lt := fun a b => decide (a < b)
  le := fun a b => decide (a ≤ b)
  sub := fun a b => a - b
  div := fun a b => a * 10 ^ 8 / b
  fabs := fun a => |a|
  epsilon := 0
  ofUInt64 := fun n => n * 10 ^ 8
  lexical_cast := fun s =>
    match s.data with
    | '-' :: cs => (parseUnits cs).map (fun n => - (n : Int))
    | cs => (parseUnits cs).map (fun n => (n : Int))
  price := fun ptr =>
    match ptr with
    | none => 0
    | some d => if d.fromAmount = 0 then 0 else (d.toAmount : Int) * 10 ^ 8 / d.fromAmount
  priceBid := fun ptr =>
    match ptr with
    | none => 0
    | some d => if d.toAmount = 0 then 0 else (d.fromAmount : Int) * 10 ^ 8 / d.toAmount
  xBridgeAmountFromReal := fun x => x.toNat
  xBridgeValidCoin := fun s =>
    decide ((((s.data.dropWhile (fun c => c != '.')).drop 1).reverse.dropWhile
      (fun c => c == '0')).length ≤ 8)

/-- Insertion of `x` into a list in front of the first element it comes before. -/
def insertBy {α : Type} (comp : α → α → Bool) (x : α) : List α → List α
  | [] => [x]
  | y :: ys => if comp x y then x :: y :: ys else y :: insertBy comp x ys

/-- Insertion sort, one of the orders `std::sort` can produce. -/
def sortBy {α : Type} (comp : α → α → Bool) (l : List α) : List α :=
  l.foldr (insertBy comp) []

/-- State of the stand-in application: its orders by id and the currencies with a
connector. -/
structure DemoApp where
  orders : List (Nat × Option TransactionDescr)
  wallets : List String
deriving DecidableEq, Repr

/-- Modelled from the spec: a stand-in for `xbridge::App`. States are numbered in the
order of the spec (New 0, PendingBroadcast 1, Pending 2, Accepting 3, Hold 4,
Initialized 5, Created 6, Signed 7, Committed 8, Finished 9, then the sinks Cancelled
10, Expired 11, RolledBack 12); MAX_COIN is 100,000,000; an address is valid when it is
not empty; cancelling moves the order to Cancelled; accepting succeeds on a Pending
order, which moves to Accepting, and fails with INVALID_STATE otherwise; sending stores
a new Pending order under the next free id. -/
def demoApp : App DemoApp where
  transaction := fun s id => (mapFind id s.orders).join
  transactions := fun s => s.orders
  connectorByCurrency := fun s c => decide (c ∈ s.wallets)
  isValidAddress := fun _ a _ => decide (a ≠ "")
  fromXAddr := fun _ bytes => String.mk (bytes.map Char.ofNat)
  checkCreateParams := fun s fc tc _ _ =>
    if fc ∈ s.wallets ∧ tc ∈ s.wallets then .SUCCESS else .NO_SESSION
  checkAcceptParams := fun s id _ =>
    match (mapFind id s.orders).join with
    | none => (.TRANSACTION_NOT_FOUND, none)
    | some d => (.SUCCESS, some d)
  sendXBridgeTransaction := fun s fa fc famt ta tc tamt =>
    let id := s.orders.length + 1
    let d : TransactionDescr :=
      ⟨id, fc, famt, tc, tamt, 2, 0, 0, fa.data.map Char.toNat, ta.data.map Char.toNat, "", true⟩
    (.SUCCESS, id, 0, ⟨mapSet id (some d) s.orders, s.wallets⟩)
  acceptXBridgeTransaction := fun s id _ _ d =>
    if d.state = 2 then
      (.SUCCESS, { d with state := 3 },
        ⟨mapSet id (some { d with state := 3 }) s.orders, s.wallets⟩)
    else (.INVALID_STATE, d, s)
  cancelXBridgeTransaction := fun s id _ d =>
    (.SUCCESS, { d with state := 10 },
      ⟨mapSet id (some { d with state := 10 }) s.orders, s.wallets⟩)
  strState := fun d => if d.state = 2 then "open" else if d.state = 10 then "canceled" else "other"
  uint256S := fun s => hexValue s.data 0 % 2 ^ 256
  trPending := 2
  trCreated := 6
  MAX_COIN := 100000000

/-- A remote order `id` selling `fromAmount` of `fromCurrency` for `toAmount` of
`toCurrency`, in the given state. -/
def demoOrder (id : Nat) (fromCurrency : String) (fromAmount : Nat) (toCurrency : String)
    (toAmount : Nat) (state : Int) : TransactionDescr :=
  ⟨id, fromCurrency, fromAmount, toCurrency, toAmount, state, 0, 0, [], [], "", false⟩

/-- Application with wallets BLOCK and LTC and three orders: order 1 (Pending) and order
2 (Created) sell 25 LTC for 1000 BLOCK, order 3 (Accepting) sells 10 LTC for 500
BLOCK. -/
def demoBook : DemoApp :=
  ⟨[(1, some (demoOrder 1 "LTC" 2500000000 "BLOCK" 100000000000 2)),
    (2, some (demoOrder 2 "LTC" 2500000000 "BLOCK" 100000000000 6)),
    (3, some (demoOrder 3 "LTC" 1000000000 "BLOCK" 50000000000 3))],
   ["BLOCK", "LTC"]⟩

/-- The bids of the pair: the pending orders with positive amounts that send `taker` and
receive `maker`. -/
def bidOrders {σ : Type} (app : App σ) (trList : List (Nat × Option TransactionDescr))
    (maker taker : String) : List TransactionDescr :=
  (trList.filterMap Prod.snd).filter (fun d =>
    decide (0 < d.fromAmount ∧ 0 < d.toAmount ∧ d.state = app.trPending ∧
      d.fromCurrency = taker ∧ d.toCurrency = maker))

/-- The asks of the pair: the pending orders with positive amounts that send `maker` and
receive `taker`. -/
def askOrders {σ : Type} (app : App σ) (trList : List (Nat × Option TransactionDescr))
    (maker taker : String) : List TransactionDescr :=
  (trList.filterMap Prod.snd).filter (fun d =>
    decide (0 < d.fromAmount ∧ 0 < d.toAmount ∧ d.state = app.trPending ∧
      d.fromCurrency = maker ∧ d.toCurrency = taker))

/-- Application with four pending orders for the pair BLOCK/LTC: asks at the prices
0.0010 (orders 1 and 2) and 0.0012 (order 3), and a bid at 0.0009 (order 4). -/
def scenarioBook : DemoApp :=
  ⟨[(1, some (demoOrder 1 "BLOCK" 100000000000 "LTC" 100000000 2)),
    (2, some (demoOrder 2 "BLOCK" 200000000000 "LTC" 200000000 2)),
    (3, some (demoOrder 3 "BLOCK" 100000000000 "LTC" 120000000 2)),
    (4, some (demoOrder 4 "LTC" 90000000 "BLOCK" 100000000000 2))],
   ["BLOCK", "LTC"]⟩

/-- Sum of the sizes (`size`) of the orders of `l` whose price `quote` is epsilon-equal
to `best`: the total size on offer at that price. -/
def sizeAtPrice {D : Type} (ops : DoubleOps D) (quote : Option TransactionDescr → D)
    (size : TransactionDescr → Nat) (best : D) (l : List TransactionDescr) : Nat :=
  ((l.filter (fun o => floatCompare ops (quote (some o)) best)).map size).sum

/-- Application with five pending orders for the pair BLOCK/LTC, all of size 1000 BLOCK:
asks at the prices 0.0010 (order 1), 0.0011 (order 2) and 0.0012 (order 3), bids at
0.0009 (order 4) and 0.0008 (order 5). -/
def ladderBook : DemoApp :=
  ⟨[(1, some (demoOrder 1 "BLOCK" 100000000000 "LTC" 100000000 2)),
    (2, some (demoOrder 2 "BLOCK" 100000000000 "LTC" 110000000 2)),
    (3, some (demoOrder 3 "BLOCK" 100000000000 "LTC" 120000000 2)),
    (4, some (demoOrder 4 "LTC" 90000000 "BLOCK" 100000000000 2)),
    (5, some (demoOrder 5 "LTC" 80000000 "BLOCK" 100000000000 2))],
   ["BLOCK", "LTC"]⟩

/-- What `std::sort` guarantees when `comp` is a strict weak ordering: `output` is a
rearrangement of `input` in which no element comes after one that it comes before by
`comp`. -/
def IsSortOf {α : Type} (comp : α → α → Bool) (input output : List α) : Prop :=
  output.Perm input ∧ output.Pairwise (fun a b => comp b a = false)

/-- Entry `[price, size, id]` of the bids array of detail level 3 for the order `tr`. -/
def bidRow3 {D : Type} (ops : DoubleOps D) (tr : TransactionDescr) : BookRow D :=
  .byId (ops.priceBid (some tr)) tr.toAmount tr.id

/-- Entry `[price, size, id]` of the asks array of detail level 3 for the order `tr`. -/
def askRow3 {D : Type} (ops : DoubleOps D) (tr : TransactionDescr) : BookRow D :=
  .byId (ops.price (some tr)) tr.fromAmount tr.id

/-- The bids array of a reply, if the reply is an order book. -/
def BookReply.bids {D : Type} : BookReply D → Option (List (BookRow D))
  | .book _ _ _ _ bids => some bids
  | _ => none

/-- The asks array of a reply, if the reply is an order book. -/
def BookReply.asks {D : Type} : BookReply D → Option (List (BookRow D))
  | .book _ _ _ asks _ => some asks
  | _ => none

/-- Application with 51 pending bids for the pair BLOCK/LTC, orders 1 to 51, each for
1000 BLOCK. -/
def crowdedBook : DemoApp :=
  ⟨(List.range 51).map (fun i =>
      (i + 1, some (demoOrder (i + 1) "LTC" (90000000 - i) "BLOCK" 100000000000 2))),
   ["BLOCK", "LTC"]⟩

/-! ## dxGetMyOrders and dxGetOrderFills (rpcxbridge.cpp) -/

/-- Outcome of a command that returns an array of objects: the error object for a code,
an exception, no defined outcome (a null pointer is dereferenced), or the array. -/
inductive ListReply where
  | error (code : Error)
  | thrown
  | undefined
  | array (rows : List (List (String × Field)))
deriving DecidableEq, Repr

/-- Further members of `xbridge::App` and `TransactionDescr` that the listing commands
use: `App::history()` in key order (a `none` is a null pointer) and the enumerators
`trFinished` and `trCancelled`. -/
structure AppHistory (σ : Type) where
  history : σ → List (Nat × Option TransactionDescr)
  trFinished : Int
  trCancelled : Int

/-- Loop over a `TransactionMap` that appends to a vector the descriptors for which `keep`
holds (the loops of `dxGetMyOrders` and `dxGetOrderFills`); `none` when an entry is a
null pointer, which the loop dereferences. -/
def collectOrders (keep : TransactionDescr → Bool) :
    List (Nat × Option TransactionDescr) → Option (List TransactionDescr)
  | [] => some []
  | (_, none) :: _ => none
  | (_, some t) :: rest =>
    (collectOrders keep rest).map (fun orders => if keep t then t :: orders else orders)

/-- Object that the last loop of `dxGetMyOrders` builds for the order `t`. -/
def myOrderObject {σ : Type} (app : App σ) (s : σ) (t : TransactionDescr) :
    List (String × Field) :=
  let makerAddress :=
    if app.connectorByCurrency s t.fromCurrency then app.fromXAddr t.fromCurrency t.from_
    else ""
  let takerAddress :=
    if app.connectorByCurrency s t.toCurrency then app.fromXAddr t.toCurrency t.to_
    else ""
  [("id", .hex t.id), ("maker", .str t.fromCurrency), ("maker_size", .amount t.fromAmount),
    ("maker_address", .str makerAddress), ("taker", .str t.toCurrency),
    ("taker_size", .amount t.toAmount), ("taker_address", .str takerAddress),
    ("updated_at", .time t.txtime), ("created_at", .time t.created),
    ("status", .str (app.strState t))]

/-- Last loop of `dxGetMyOrders` over the sorted orders; `seen` holds the ids that are
keys of the map `seen`. -/
def myOrdersLoop {σ : Type} (app : App σ) (s : σ) :
    List TransactionDescr → List Nat → List (List (String × Field))
  | [], _ => []
  | t :: rest, seen =>
    if t.id ∈ seen then myOrdersLoop app s rest seen
    else myOrderObject app s t :: myOrdersLoop app s rest (t.id :: seen)

/-- Command `dxGetMyOrders` for a request that does not ask for help; `sort` is
`std::sort`. -/
def dxGetMyOrders {σ : Type} (app : App σ) (hist : AppHistory σ)
    (sort : (TransactionDescr → TransactionDescr → Bool) →
      List TransactionDescr → List TransactionDescr)
    (s : σ) (params : List Value) : ListReply :=
  if !params.isEmpty then .error .INVALID_PARAMETERS
  else
    match collectOrders (fun t => t.isLocal) (app.transactions s) with
    | none => .undefined
    | some active =>
      match collectOrders (fun ptr => ptr.isLocal &&
          (decide (ptr.state = hist.trFinished) || decide (ptr.state = hist.trCancelled)))
          (hist.history s) with
      | none => .undefined
      | some past =>
        let orders := active ++ past
        if orders.isEmpty then .array []
        else
          .array (myOrdersLoop app s
            (sort (fun a b => decide (a.txtime < b.txtime)) orders) [])

/-- Object that `dxGetOrderFills` builds for an order. -/
def fillObject (transaction : TransactionDescr) : List (String × Field) :=
  [("id", .hex transaction.id), ("time", .time transaction.txtime),
    ("maker", .str transaction.fromCurrency), ("maker_size", .amount transaction.fromAmount),
    ("taker", .str transaction.toCurrency), ("taker_size", .amount transaction.toAmount)]

/-- Condition under which the loop of `dxGetOrderFills` keeps a descriptor. -/
def isFill {σ : Type} (hist : AppHistory σ) (maker taker : String) (combined : Bool)
    (ptr : TransactionDescr) : Bool :=
  decide (ptr.state = hist.trFinished) &&
    (if combined then
      (decide (ptr.fromCurrency = maker) && decide (ptr.toCurrency = taker)) ||
        (decide (ptr.toCurrency = maker) && decide (ptr.fromCurrency = taker))
    else decide (ptr.fromCurrency = maker) && decide (ptr.toCurrency = taker))

/-- Part of `dxGetOrderFills` that follows the reading of `combined`. -/
def orderFills {σ : Type} (hist : AppHistory σ)
    (sort : (TransactionDescr → TransactionDescr → Bool) →
      List TransactionDescr → List TransactionDescr)
    (s : σ) (combined : Bool) (p0 p1 : Value) : ListReply :=
  match p0.get_str, p1.get_str with
  | some maker, some taker =>
    match collectOrders (isFill hist maker taker combined) (hist.history s) with
    | none => .undefined
    | some result =>
      .array ((sort (fun a b => decide (b.txtime < a.txtime)) result).map fillObject)
  | _, _ => .thrown

/-- Command `dxGetOrderFills` for a request that does not ask for help; `sort` is
`std::sort`. -/
def dxGetOrderFills {σ : Type} (hist : AppHistory σ)
    (sort : (TransactionDescr → TransactionDescr → Bool) →
      List TransactionDescr → List TransactionDescr)
    (s : σ) (params : List Value) : ListReply :=
  match params with
  | [p0, p1] => orderFills hist sort s true p0 p1
  | [p0, p1, p2] =>
    match p2.get_bool with
    | none => .thrown
    | some combined => orderFills hist sort s combined p0 p1
  | _ => .error .INVALID_PARAMETERS

/-- The orders of a list whose id is not in `seen` and not the id of an earlier order of
the list. -/
def dedupeById : List TransactionDescr → List Nat → List TransactionDescr
  | [], _ => []
  | t :: rest, seen =>
    if t.id ∈ seen then dedupeById rest seen else t :: dedupeById rest (t.id :: seen)

/-- The fills of the pair: the historical orders in state Finished from `maker` to
`taker`, and with `combined` also those from `taker` to `maker`. -/
def fillsOf {σ : Type} (hist : AppHistory σ) (s : σ) (maker taker : String)
    (combined : Bool) : List TransactionDescr :=
  ((hist.history s).filterMap Prod.snd).filter (fun d =>
    decide (d.state = hist.trFinished ∧
      ((d.fromCurrency = maker ∧ d.toCurrency = taker) ∨
        (combined = true ∧ d.fromCurrency = taker ∧ d.toCurrency = maker))))

/-- The members "id" of the objects of a reply, if the reply is an array. -/
def ListReply.ids : ListReply → Option (List Field)
  | .array rows => some (rows.filterMap (fun row => row.lookup "id"))
  | _ => none

/-- Modelled from the spec: a stand-in for the history of `xbridge::App`, with the states
numbered as in `demoApp` (Finished 9, Cancelled 10). It holds the finished order 1
(local), the finished order 5 (remote, LTC for BLOCK), the cancelled order 6 (local) and
the finished order 7 (remote), last updated at the times 400, 300, 200 and 500. -/
def demoHistory : AppHistory DemoApp where
  history := fun _ =>
    [(1, some ⟨1, "BLOCK", 100000000000, "LTC", 100000000, 9, 100, 400, [], [], "", true⟩),
     (5, some ⟨5, "LTC", 50000000, "BLOCK", 50000000000, 9, 150, 300, [], [], "", false⟩),
     (6, some ⟨6, "BLOCK", 20000000000, "LTC", 20000000, 10, 160, 200, [], [], "", true⟩),
     (7, some ⟨7, "BLOCK", 30000000000, "LTC", 30000000, 9, 170, 500, [], [], "", false⟩)]
  trFinished := 9
  trCancelled := 10

/-- Application with three pending orders: order 1 (local, updated at 250), order 2
(remote, updated at 120) and order 3 (local, updated at 130). -/
def myBook : DemoApp :=
  ⟨[(1, some ⟨1, "BLOCK", 100000000000, "LTC", 100000000, 2, 100, 250, [], [], "", true⟩),
    (2, some ⟨2, "BLOCK", 200000000000, "LTC", 200000000, 2, 110, 120, [], [], "", false⟩),
    (3, some ⟨3, "LTC", 90000000, "BLOCK", 100000000000, 2, 120, 130, [], [], "", true⟩)],
   ["BLOCK", "LTC"]⟩

/-! ## TxOutToCurrencyPair (rpcxbridge.cpp) -/

/-- Enumeration `txnouttype`; the enumerators that `TxOutToCurrencyPair` does not test
are one case. -/
inductive txnouttype where
  | TX_MULTISIG
  | TX_NULL_DATA
  | other
deriving DecidableEq, Repr

/-- Members of `CTxOut` that `TxOutToCurrencyPair` reads; a script is the list of its
bytes. -/
structure CTxOut where
  nValue : Int
  scriptPubKey : List Nat
deriving DecidableEq, Repr

/-- Value that `json_spirit::read_string` stores: an array with its elements, or a value
of another type. -/
inductive JsonValue where
  | array (elements : List Value)
  | other
deriving DecidableEq, Repr

/-- Modelled from the spec: the record `CurrencyPair`, whose declaration is not among the
sources, with the three tags of the spec: Empty (built by `{}`), Error with a reason
(built from a string) and Valid with the id, the currencies and the amounts (the unit
`TransactionDescr::COIN` given to both currencies is left out). -/
inductive CurrencyPair where
  | Empty
  | Error (reason : String)
  | Valid (xid : String) (fromCurrency : String) (fromAmount : Nat) (toCurrency : String)
      (toAmount : Nat)
deriving DecidableEq, Repr

/-- Functions of the script, key and JSON libraries that `TxOutToCurrencyPair` calls
(they are not among the sources). -/
structure ChainOps where
  /-- Function `Solver`: the type of a script and its solution vector. -/
  Solver : List Nat → txnouttype × List (List Nat)
  /-- Value of `EncodeDestination(CTxDestination(CPubKey(key).GetID()))`. -/
  encodeKeyId : List Nat → String
  /-- Method `CScript::IsUnspendable`. -/
  IsUnspendable : List Nat → Bool
  /-- Method `CScript::GetOp` at a position from which `rest` is left to read: `none` when
  it returns false, otherwise the number of bytes it advances, less one, and the data it
  stores. -/
  GetOp : List Nat → Option (Nat × List Nat)
  /-- Value of `EncodeDestination` for the destination that `ExtractDestination` finds in
  a script; `none` when `ExtractDestination` returns false. -/
  extractDestination : List Nat → Option String
  /-- Function `json_spirit::read_string`; `none` when it returns false. -/
  read_string : List Nat → Option JsonValue

/-- Variables that the loop of `TxOutToCurrencyPair` over the outputs updates. -/
structure ScanState where
  json : List Nat
  foundOpData : Bool
  snode_pubkey : String
deriving DecidableEq, Repr

/-- Loop `for (size_t i = 2; i < solutions.size()-1; ++i)` of `TxOutToCurrencyPair`, from
index `i` on, for the bytes `json` collected so far; `fuel` bounds the number of
iterations. It is entered with at least 4 solutions only, so that `size()-1` does not
wrap. -/
def multisigLoop (solutions : List (List Nat)) : Nat → Nat → List Nat → List Nat
  | 0, _, json => json
  | fuel + 1, i, json =>
    if ¬ (i < solutions.length - 1) then json
    else
      match solutions[i]? with
      | none => json
      | some sol =>
        if sol.length ≠ 65 then json
        else multisigLoop solutions fuel (i + 1) (json ++ sol.drop 1)

/-- Loop `while (pc < out.scriptPubKey.end())` of `TxOutToCurrencyPair`, with `rest` the
bytes from `pc` on: the data of the first operation that has data, `none` when the loop
ends without one. `fuel` bounds the number of iterations. -/
def opDataLoop (ops : ChainOps) : Nat → List Nat → Option (List Nat)
  | 0, _ => none
  | fuel + 1, rest =>
    if rest.isEmpty then none
    else
      match ops.GetOp rest with
      | none => none
      | some (advance, data) =>
        if data.length ≠ 0 then some data
        else opDataLoop ops fuel (rest.drop (advance + 1))

/-- Body of the loop of `TxOutToCurrencyPair` over the outputs. -/
def scanOutput (ops : ChainOps) (st : ScanState) (out : CTxOut) : ScanState :=
  if out.scriptPubKey.isEmpty then st
  else
    match ops.Solver out.scriptPubKey with
    | (.TX_MULTISIG, solutions) =>
      if solutions.length < 4 then st
      else
        { st with snode_pubkey := ops.encodeKeyId (solutions[1]?.getD []),
                  json := multisigLoop solutions solutions.length 2 st.json }
    | (.TX_NULL_DATA, _) =>
      if out.nValue ≠ 0 ∨ !ops.IsUnspendable out.scriptPubKey then st
      else
        match opDataLoop ops (out.scriptPubKey.length + 1) out.scriptPubKey with
        | none => st
        | some data => { st with json := st.json ++ data, foundOpData := true }
    | (.other, _) => st

/-- Part of `TxOutToCurrencyPair` from the call of `json_spirit::read_string` on. Each
`get_str` and `get_uint64` is inside a `try` whose handler returns the error record; the
accessors in the final `return` repeat calls that have succeeded. -/
def validatePayload (ops : ChainOps) (json : List Nat) : CurrencyPair :=
  match ops.read_string json with
  | some (.array xtx) =>
    match xtx with
    | [x0, x1, x2, x3, x4] =>
      match x0.get_str with
      | none => .Error "bad id"
      | some xid =>
        match x1.get_str with
        | none => .Error "bad from currency"
        | some fromCurrency =>
          match x2.get_uint64 with
          | none => .Error "bad from amount"
          | some fromAmount =>
            match x3.get_str with
            | none => .Error "bad to currency"
            | some toCurrency =>
              match x4.get_uint64 with
              | none => .Error "bad to amount"
              | some toAmount => .Valid xid fromCurrency fromAmount toCurrency toAmount
    | _ => .Error "unknown chain data, bad records count"
  | _ => .Error "unknown chain data, json error"

/-- Function `TxOutToCurrencyPair`: the record it returns and the value it leaves in
`snode_pubkey`. -/
def TxOutToCurrencyPair (ops : ChainOps) (vout : List CTxOut) : CurrencyPair × String :=
  if vout.isEmpty then (.Empty, "")
  else
    let st := vout.foldl (scanOutput ops) ⟨[], false, ""⟩
    if st.json.isEmpty then (.Empty, st.snode_pubkey)
    else
      let snode_pubkey :=
        if st.foundOpData ∧ vout.length ≥ 2 then
          match vout[1]? with
          | some out => (ops.extractDestination out.scriptPubKey).getD st.snode_pubkey
          | none => st.snode_pubkey
        else st.snode_pubkey
      (validatePayload ops st.json, snode_pubkey)

/-- Bytes 1 to 64 of the slots 2, 3, ..., n-2 of a solution vector with n slots, in slot
order, up to the first of these slots whose length is not 65. -/
def multisigPayload (solutions : List (List Nat)) : List Nat :=
  ((((solutions.take (solutions.length - 1)).drop 2).takeWhile
    (fun sol => decide (sol.length = 65))).map (fun sol => sol.drop 1)).flatten

/-- The pieces of a byte list in which each piece is preceded by its length. -/
def lengthPrefixed : Nat → List Nat → List (List Nat)
  | 0, _ => []
  | _, [] => []
  | fuel + 1, k :: rest => rest.take k :: lengthPrefixed fuel (rest.drop k)

/-- Modelled from the spec: stand-ins for the library functions. A script that starts
with the byte 174 is a multisig script whose solutions follow, each preceded by its
length; one that starts with 106 is an unspendable null data script whose operations
follow, each a length and that many bytes of data; one that starts with 118 pays to the
destination named by the bytes that follow. The JSON reader knows four payloads: a
valid record, a record whose from amount is a string, an array of one element, and a
value that is not an array. -/
def demoChain : ChainOps where
  Solver := fun script =>
    match script with
    | 174 :: rest => (.TX_MULTISIG, lengthPrefixed rest.length rest)
    | 106 :: _ => (.TX_NULL_DATA, [])
    | _ => (.other, [])
  encodeKeyId := fun key => String.mk (key.map Char.ofNat)
  IsUnspendable := fun script => script.head? == some 106
  GetOp := fun rest =>
    match rest with
    | [] => none
    | 106 :: _ => some (0, [])
    | k :: data => if k ≤ data.length then some (k, data.take k) else none
  extractDestination := fun script =>
    match script with
    | 118 :: key => some (String.mk (key.map Char.ofNat))
    | _ => none
  read_string := fun json =>
    if json = List.replicate 64 7 ++ List.replicate 64 8 then
      some (.array [.str "a1", .str "BLOCK", .int 100000000000, .str "LTC", .int 100000000])
    else if json = [1, 2, 3] then
      some (.array [.str "a2", .str "BLOCK", .str "x", .str "LTC", .int 100000000])
    else if json = [4] then some (.array [.str "a3"])
    else if json = [5] then some .other
    else none

/-- Solution vector with the slots [2], the key "sn", two slots of 65 bytes and [3]. -/
def multisigSlots : List (List Nat) :=
  [[2], [115, 110], 4 :: List.replicate 64 7, 4 :: List.replicate 64 8, [3]]

/-- Multisig output with the five solution slots `multisigSlots`. -/
def multisigOut : CTxOut :=
  ⟨0, [174, 1, 2, 2, 115, 110, 65, 4] ++ List.replicate 64 7 ++ [65, 4] ++ List.replicate 64 8 ++
    [1, 3]⟩

/-! ## dxGetOrderHistory (rpcxbridge.cpp) -/

/-- What `dxGetOrderHistory` uses of `xQuery`, `xAggregate` and the series cache
(xseries.h is not among the sources), over the state `σ` of the application, a type `Q`
of queries and a type `A` of aggregates. -/
structure XSeriesOps (σ Q A : Type) where
  /-- Constructor of `xQuery` from maker, taker, granularity, start time, end time,
  whether `WithTxids` and `WithInverse` are `Included`, the argument of `IntervalLimit`
  and the argument of `IntervalTimestamp` (`none` when it is built without argument). -/
  xQuery : String → String → Int → Int → Int → Bool → Bool → Option Int → Option String → Q
  /-- Method `xQuery::error()`. -/
  error : Q → Bool
  /-- Value of `query.interval_timestamp.at_start()`. -/
  at_start : Q → Bool
  /-- Member `granularity`, in seconds. -/
  granularity : Q → Int
  /-- Whether `query.with_txids` is `Included`. -/
  with_txids : Q → Bool
  /-- Method `getXAggregateSeries` of the series cache; `none` when it throws. -/
  getXAggregateSeries : σ → Q → Option (List A)
  /-- Member `timeEnd` of an aggregate, in seconds. -/
  timeEnd : A → Int
  orderIds : A → List String

/-- Element of the array that `dxGetOrderHistory` returns: the time that is formatted,
the aggregate whose low, high, open, close and volume follow, and the order ids when
they are included. -/
structure HistoryRow (A : Type) where
  time : Int
  aggregate : A
  orderIds : Option (List String)
deriving DecidableEq, Repr

/-- Outcome of `dxGetOrderHistory`: the error object for a code, an exception, or the
array. -/
inductive HistoryReply (A : Type) where
  | error (code : Error)
  | thrown
  | rows (arr : List (HistoryRow A))
deriving DecidableEq, Repr

/-- Reading of the optional parameter `i` with the accessor `get`: `some none` when the
parameter is absent, `none` when the accessor throws. -/
def optionalParam {α : Type} (params : List Value) (i : Nat) (get : Value → Option α) :
    Option (Option α) :=
  match params[i]? with
  | none => some none
  | some v => (get v).map some

/-- Part of `dxGetOrderHistory` that follows the construction of the query. -/
def orderHistoryRows {σ Q A : Type} (ops : XSeriesOps σ Q A) (s : σ) (query : Q) : HistoryReply A :=
  if ops.error query then .error .INVALID_PARAMETERS
  else
    match ops.getXAggregateSeries s query with
    | none => .error .UNKNOWN_ERROR
    | some result =>
      let offset := if ops.at_start query then ops.granularity query else 0
      .rows (result.map (fun x =>
        ⟨ops.timeEnd x - offset, x,
          if ops.with_txids query then some (ops.orderIds x) else none⟩))

/-- Command `dxGetOrderHistory` for a request that does not ask for help. -/
def dxGetOrderHistory {σ Q A : Type} (ops : XSeriesOps σ Q A) (s : σ) (params : List Value) :
    HistoryReply A :=
  if params.length < 5 ∨ params.length > 8 then .error .INVALID_PARAMETERS
  else
    match params[0]?.bind Value.get_str, params[1]?.bind Value.get_str,
      params[4]?.bind Value.get_int, params[2]?.bind Value.get_int64,
      params[3]?.bind Value.get_int64, optionalParam params 5 Value.get_bool,
      optionalParam params 6 Value.get_bool, optionalParam params 7 Value.get_int,
      optionalParam params 8 Value.get_str with
    | some maker, some taker, some granularity, some start, some end_, some with_txids,
      some with_inverse, some limit, some interval_timestamp =>
      orderHistoryRows ops s
        (ops.xQuery maker taker granularity start end_ (with_txids.getD false)
          (with_inverse.getD false) limit interval_timestamp)
    | _, _, _, _, _, _, _, _, _ => .thrown

/-! ## No orphan reservations -/

/-- Every reserved outpoint is in the reservation list of some order. -/
def NoOrphans {Tx : Type} (e : Exchange Tx) : Prop :=
  ∀ o, setCount o e.m_utxoItems = true → ∃ x, ListedFor e x o

/-- State after `lockUtxos(1, [utxoA])`, `lockUtxos(2, [utxoB])`, `unlockUtxos(1)`. -/
def afterLockUnlock : Exchange Descr :=
  (unlockUtxos 1 (lockUtxos 2 [utxoB]
    (lockUtxos 1 [utxoA] (Exchange.empty demoWallets)).2).2).2

/-- State after order 1 was created with `utxoA` and accepted with `utxoB`. -/
def acceptedOrder : Exchange Descr :=
  (acceptTransaction demoEnv (takerParams 1) [utxoB] afterOneOrder).2

/-- State after order 1 was created, accepted, and created again with the same
arguments. -/
def recreatedOrder : Exchange Descr :=
  (createTransaction demoEnv (makerParams 1) [utxoA] acceptedOrder).2.2

/-- Arguments of order 1 again, created at time 990. -/
def laterParams : TxParams :=
  { makerParams 1 with timestamp := 990 }

/-- State after orders 1 and 2 were created with `utxoA` and `utxoB` and order 1 was
accepted without further outpoints. -/
def acceptedAndPending : Exchange Descr :=
  (acceptTransaction demoEnv (takerParams 1) [] afterTwoOrders).2

/-! ## makerUtxosAreStillValid (xbridgeexchange.cpp) -/

/-- What `Exchange::makerUtxosAreStillValid` uses of the clock, the arguments of the
program, `xbridge::Transaction` and the wallet connectors (none of their definitions is
among the sources), over a type `Tx` of transactions. Times are in microseconds. -/
structure CheckEnv (Tx : Type) where
  /-- Value of `microsec_clock::universal_time()` during the call, in microseconds. -/
  current : Int
  /-- Argument `-orderinputscheck`, in seconds; `none` when it is not set. -/
  orderinputscheck : Option Int
  /-- Method `Transaction::utxoCheckTime()`, in microseconds. -/
  utxoCheckTime : Tx → Int
  /-- Method `Transaction::updateUtxoCheckTime(t)`. -/
  updateUtxoCheckTime : Tx → Int → Tx
  /-- Method `Transaction::a_currency()`. -/
  a_currency : Tx → String
  /-- Method `Transaction::a_utxos()`. -/
  a_utxos : Tx → List UtxoEntry
  /-- Whether `App::connectorByCurrency` returns a connector for the currency. -/
  connectorByCurrency : String → Bool
  /-- Method `getTxOut` of the connector of the currency. -/
  getTxOut : String → UtxoEntry → Bool

/-- Method `time_duration::total_seconds()` of a duration in microseconds: the whole
seconds, rounded towards zero. -/
def total_seconds (d : Int) : Int :=
  Int.tdiv d 1000000

/-- Loop of `Exchange::makerUtxosAreStillValid` over the maker outpoints: whether it
ran to the end, and the outpoints handed to `getTxOut`, in order. -/
def makerUtxosLoop {Tx : Type} (env : CheckEnv Tx) (currency : String) :
    List UtxoEntry → Bool × List UtxoEntry
  | [] => (true, [])
  | entry :: rest =>
    if !env.getTxOut currency entry then (false, [entry])
    else
      let r := makerUtxosLoop env currency rest
      (r.1, entry :: r.2)

/-- Method `Exchange::makerUtxosAreStillValid`: the returned flag, the transaction
after the call, and the outpoints handed to `getTxOut`, in order. -/
def makerUtxosAreStillValid {Tx : Type} (env : CheckEnv Tx) (tx : Tx) :
    Bool × Tx × List UtxoEntry :=
  if total_seconds (env.current - env.utxoCheckTime tx) < env.orderinputscheck.getD 900 then
    (true, tx, [])
  else
    let tx := env.updateUtxoCheckTime tx env.current
    if !env.connectorByCurrency (env.a_currency tx) then (true, tx, [])
    else
      let r := makerUtxosLoop env (env.a_currency tx) (env.a_utxos tx)
      (r.1, tx, r.2)

/-- A transaction as far as `makerUtxosAreStillValid` reads it: maker currency, maker
outpoints and time of the last check. -/
structure CheckedOrder where
  currency : String
  utxos : List UtxoEntry
  checked : Int
deriving DecidableEq, Repr

/-- Collaborators at time `current` with wallets BLOCK and LTC, no `-orderinputscheck`
argument, and a chain on which the outpoints of `spent` are spent. -/
def demoCheckEnv (current : Int) (spent : List UtxoEntry) : CheckEnv CheckedOrder where
  current := current
  orderinputscheck := none
  utxoCheckTime := fun tx => tx.checked
  updateUtxoCheckTime := fun tx t => { tx with checked := t }
  a_currency := fun tx => tx.currency
  a_utxos := fun tx => tx.utxos
  connectorByCurrency := fun currency => decide (currency ∈ ["BLOCK", "LTC"])
  getTxOut := fun _ entry => decide (¬ Listed entry spent)

/-! ## gettradingdata (rpcxbridge.cpp) -/

/-- A transaction of a block: its hash and its outputs. -/
structure CTransaction where
  hash : Nat
  vout : List CTxOut
deriving DecidableEq, Repr

/-- A block as read from disk: its time and its transactions. -/
structure CBlock where
  time : Int
  vtx : List CTransaction
deriving DecidableEq, Repr

/-- An entry of the active chain: its block time and the block that
`ReadBlockFromDisk` reads for it (`none` when the read fails). A chain is the list of
its entries from the tip down to the genesis block, each the `pprev` of the one before
it. -/
structure CBlockIndex where
  time : Int
  block : Option CBlock
deriving DecidableEq, Repr

/-- Element of the array that `gettradingdata` returns: the object with timestamp,
txid and xid that is built for an Error, or the object built for a valid currency
pair, whose members are timestamp, txid, to (service node key), xid, from, fromAmount,
to and toAmount; amounts stand for their conversion to double. -/
inductive TradingRecord where
  | error (timestamp : Int) (txid : Nat) (xid : String)
  | trade (timestamp : Int) (txid : Nat) (snode_pubkey : String) (xid : String)
      (fromCurrency : String) (fromAmount : Nat) (toCurrency : String) (toAmount : Nat)
deriving DecidableEq, Repr

/-- Outcome of `gettradingdata`: an exception (the help text or a type error), no
defined outcome (the chain has no tip), or the array. -/
inductive TradingReply where
  | thrown
  | undefined
  | records (l : List TradingRecord)
deriving DecidableEq, Repr

/-- Loop of `gettradingdata` over the transactions of one block. -/
def tradingRecords (ops : ChainOps) (showErrors : Bool) (timestamp : Int) :
    List CTransaction → List TradingRecord
  | [] => []
  | tx :: rest =>
    let r := TxOutToCurrencyPair ops tx.vout
    match r.1 with
    | .Error reason =>
      if showErrors then
        .error timestamp tx.hash reason :: tradingRecords ops showErrors timestamp rest
      else tradingRecords ops showErrors timestamp rest
    | .Valid xid fromCurrency fromAmount toCurrency toAmount =>
      .trade timestamp tx.hash r.2 xid fromCurrency fromAmount toCurrency toAmount ::
        tradingRecords ops showErrors timestamp rest
    | .Empty => tradingRecords ops showErrors timestamp rest

/-- Loop of `gettradingdata` over the chain, from `pindex` down while it has a `pprev`,
its time is later than 30 days before `timeBegin` and `countOfBlocks` is positive. -/
def tradingLoop (ops : ChainOps) (showErrors : Bool) (timeBegin : Int) :
    List CBlockIndex → Nat → List TradingRecord
  | [], _ => []
  | [_], _ => []
  | pindex :: pprev :: rest, countOfBlocks =>
    if pindex.time > timeBegin - 30 * 24 * 60 * 60 ∧ countOfBlocks > 0 then
      (match pindex.block with
        | none => []
        | some block => tradingRecords ops showErrors block.time block.vtx) ++
        tradingLoop ops showErrors timeBegin (pprev :: rest) (countOfBlocks - 1)
    else []

/-- Part of `gettradingdata` from `LOCK(cs_main)` on. -/
def tradingScan (ops : ChainOps) (chain : List CBlockIndex) (countOfBlocks : Nat)
    (showErrors : Bool) : TradingReply :=
  match chain with
  | [] => .undefined
  | tip :: _ => .records (tradingLoop ops showErrors tip.time chain countOfBlocks)

/-- Command `gettradingdata` for a request that does not ask for help. -/
def gettradingdata (ops : ChainOps) (chain : List CBlockIndex) (params : List Value) :
    TradingReply :=
  if params.length > 1 then .thrown
  else
    let countOfBlocks : Option Nat :=
      if params.length ≥ 1 then
        match params[0]? with
        | some (Value.int i) => some (i % 2 ^ 32).toNat
        | _ => none
      else some (2 ^ 32 - 1)
    let showErrors : Option Bool :=
      if params.length = 2 then
        match params[0]?, params[1]? with
        | some (Value.bool _), some (Value.bool b) => some b
        | _, _ => none
      else some false
    match countOfBlocks, showErrors with
    | some n, some b => tradingScan ops chain n b
    | _, _ => .thrown

/-- Chain of two blocks whose tip, at time 100, holds transaction 7 with a data
output whose payload has a bad from amount. -/
def errorChain : List CBlockIndex :=
  [⟨100, some ⟨100, [⟨7, [⟨0, [106, 3, 1, 2, 3]⟩, ⟨5, [118, 115, 110]⟩]⟩]⟩⟩, ⟨50, none⟩]

/-! ## Further inputs of the commands -/

/-- Parameters of `dxMakeOrder` with a ninth parameter after `dryrun`. -/
def extraParams : List Value :=
  [.str "LTC", .str "25", .str "Laddr", .str "BLOCK", .str "1000", .str "Baddr",
    .str "exact", .str "dryrun", .str "extra"]

/-- Application with the wallet LTC only and the pending order 1 that sells 25 LTC for
1000 BLOCK. -/
def walletGone : DemoApp :=
  ⟨[(1, some (demoOrder 1 "LTC" 2500000000 "BLOCK" 100000000000 2))], ["LTC"]⟩

/-! ## Ordering of outpoints -/

namespace UtxoEntry

theorem lt_iff (a r : UtxoEntry) :
    a.lt r = true ↔ a.txId.data < r.txId.data ∨ (a.txId = r.txId ∧ a.vout < r.vout) := by
  simp [lt]

theorem data_injective {a b : String} (h : a.data = b.data) : a = b := by
  cases a; cases b; simp_all

theorem lt_self (a : UtxoEntry) : a.lt a = false := by
  cases h : a.lt a
  · rfl
  · rcases (lt_iff a a).1 h with h1 | ⟨_, h2⟩
    · exact absurd h1 (lt_irrefl _)
    · exact absurd h2 (Nat.lt_irrefl _)

theorem equiv_iff (a r : UtxoEntry) : a.equiv r = true ↔ SameOutpoint a r := by
  unfold SameOutpoint
  have h1 := lt_iff a r
  have h2 := lt_iff r a
  constructor
  · intro h
    simp only [equiv, Bool.and_eq_true, Bool.not_eq_true'] at h
    have na : ¬ a.lt r = true := by simp [h.1]
    have nr : ¬ r.lt a = true := by simp [h.2]
    rw [h1] at na
    rw [h2] at nr
    push_neg at na nr
    have hd : a.txId.data = r.txId.data := le_antisymm nr.1 na.1
    have ht : a.txId = r.txId := data_injective hd
    exact ⟨ht, Nat.le_antisymm (nr.2 ht.symm) (na.2 ht)⟩
  · rintro ⟨ht, hv⟩
    have na : a.lt r = false := by
      cases h : a.lt r
      · rfl
      · rcases h1.1 h with h | ⟨_, h⟩
        · rw [ht] at h; exact absurd h (lt_irrefl _)
        · omega
    have nr : r.lt a = false := by
      cases h : r.lt a
      · rfl
      · rcases h2.1 h with h | ⟨_, h⟩
        · rw [ht] at h; exact absurd h (lt_irrefl _)
        · omega
    simp [equiv, na, nr]

end UtxoEntry

theorem SameOutpoint.refl (a : UtxoEntry) : SameOutpoint a a := ⟨rfl, rfl⟩

theorem SameOutpoint.symm {a b : UtxoEntry} (h : SameOutpoint a b) : SameOutpoint b a :=
  ⟨h.1.symm, h.2.symm⟩

theorem SameOutpoint.trans {a b c : UtxoEntry} (h : SameOutpoint a b) (h' : SameOutpoint b c) :
    SameOutpoint a c :=
  ⟨h.1.trans h'.1, h.2.trans h'.2⟩

theorem sameOutpoint_comm (a b : UtxoEntry) : SameOutpoint a b ↔ SameOutpoint b a :=
  ⟨SameOutpoint.symm, SameOutpoint.symm⟩

namespace UtxoEntry

theorem lt_iff_lex (a r : UtxoEntry) :
    a.lt r = true ↔ toLex (a.txId.data, a.vout) < toLex (r.txId.data, r.vout) := by
  rw [lt_iff, Prod.Lex.lt_iff]
  constructor
  · rintro (h | ⟨h1, h2⟩)
    · exact Or.inl h
    · exact Or.inr ⟨by rw [h1], h2⟩
  · rintro (h | ⟨h1, h2⟩)
    · exact Or.inl h
    · exact Or.inr ⟨data_injective h1, h2⟩

theorem lt_false_iff_lex (a r : UtxoEntry) :
    a.lt r = false ↔ toLex (r.txId.data, r.vout) ≤ toLex (a.txId.data, a.vout) := by
  rw [← not_lt, ← lt_iff_lex]
  simp

theorem equiv_false_iff (a r : UtxoEntry) : a.equiv r = false ↔ ¬ SameOutpoint a r := by
  rw [← equiv_iff]; simp

end UtxoEntry

/-! ## Facts about the set operations -/

theorem listed_nil (o : UtxoEntry) : ¬ Listed o [] := by
  simp [Listed]

theorem listed_cons (o x : UtxoEntry) (l : List UtxoEntry) :
    Listed o (x :: l) ↔ SameOutpoint x o ∨ Listed o l := by
  simp [Listed]

theorem listed_append (o : UtxoEntry) (l l' : List UtxoEntry) :
    Listed o (l ++ l') ↔ Listed o l ∨ Listed o l' := by
  simp only [Listed, List.mem_append]
  constructor
  · rintro ⟨x, hx | hx, h⟩
    · exact Or.inl ⟨x, hx, h⟩
    · exact Or.inr ⟨x, hx, h⟩
  · rintro (⟨x, hx, h⟩ | ⟨x, hx, h⟩)
    · exact ⟨x, Or.inl hx, h⟩
    · exact ⟨x, Or.inr hx, h⟩

theorem listed_of_mem {o : UtxoEntry} {l : List UtxoEntry} (h : o ∈ l) : Listed o l :=
  ⟨o, h, SameOutpoint.refl o⟩

theorem listed_congr {o o' : UtxoEntry} (h : SameOutpoint o o') (l : List UtxoEntry) :
    Listed o l ↔ Listed o' l := by
  constructor
  · rintro ⟨x, hx, hxo⟩; exact ⟨x, hx, hxo.trans h⟩
  · rintro ⟨x, hx, hxo⟩; exact ⟨x, hx, hxo.trans h.symm⟩

theorem setCount_iff (x : UtxoEntry) (s : List UtxoEntry) :
    setCount x s = true ↔ Listed x s := by
  induction s with
  | nil => simp [setCount, Listed]
  | cons y ys ih =>
    rw [listed_cons, ← ih, setCount, Bool.or_eq_true, UtxoEntry.equiv_iff, sameOutpoint_comm]

theorem setCount_false_iff (x : UtxoEntry) (s : List UtxoEntry) :
    setCount x s = false ↔ ¬ Listed x s := by
  rw [← setCount_iff]; simp

theorem listed_setInsert (x y : UtxoEntry) (s : List UtxoEntry) :
    Listed x (setInsert y s) ↔ SameOutpoint y x ∨ Listed x s := by
  induction s with
  | nil => simp [setInsert, Listed]
  | cons z zs ih =>
    simp only [setInsert]
    split_ifs with h1 h2
    · rw [listed_cons]
    · rw [listed_cons, ih, listed_cons]; tauto
    · have hq : SameOutpoint y z := by
        rw [← UtxoEntry.equiv_iff]
        simp only [Bool.not_eq_true] at h1 h2
        simp [UtxoEntry.equiv, h1, h2]
      rw [listed_cons]
      constructor
      · intro h; exact Or.inr h
      · rintro (h | h | h)
        · exact Or.inl (hq.symm.trans h)
        · exact Or.inl h
        · exact Or.inr h

theorem listed_setErase (x y : UtxoEntry) (s : List UtxoEntry) :
    Listed x (setErase y s) ↔ Listed x s ∧ ¬ SameOutpoint y x := by
  simp only [Listed, setErase, List.mem_filter, Bool.not_eq_true', UtxoEntry.equiv_false_iff]
  constructor
  · rintro ⟨z, ⟨hz, hyz⟩, hzx⟩
    exact ⟨⟨z, hz, hzx⟩, fun h => hyz (h.trans hzx.symm)⟩
  · rintro ⟨⟨z, hz, hzx⟩, hn⟩
    exact ⟨z, ⟨hz, fun h => hn (h.trans hzx)⟩, hzx⟩

theorem listed_foldl_setInsert (x : UtxoEntry) (items s : List UtxoEntry) :
    Listed x (items.foldl (fun s item => setInsert item s) s) ↔ Listed x items ∨ Listed x s := by
  induction items generalizing s with
  | nil => simp [listed_nil]
  | cons i rest ih =>
    rw [List.foldl_cons, ih, listed_setInsert, listed_cons]; tauto

theorem listed_foldl_setErase (x : UtxoEntry) (vec s : List UtxoEntry) :
    Listed x (vec.foldl (fun s item => setErase item s) s) ↔ Listed x s ∧ ¬ Listed x vec := by
  induction vec generalizing s with
  | nil => simp [listed_nil]
  | cons i rest ih =>
    rw [List.foldl_cons, ih, listed_setErase, listed_cons]; tauto

/-- Inserting an element whose insertion changes nothing still changes nothing after
another insertion. -/
theorem setInsert_stable (x y : UtxoEntry) (s : List UtxoEntry) (h : setInsert x s = s) :
    setInsert x (setInsert y s) = setInsert y s := by
  induction s with
  | nil => simp [setInsert] at h
  | cons w t ih =>
    have hxw : x.lt w = false := by
      cases hc : x.lt w
      · rfl
      · simp [setInsert, hc] at h
    simp only [setInsert, hxw, Bool.false_eq_true, if_false] at h
    have hxw' := (UtxoEntry.lt_false_iff_lex x w).1 hxw
    by_cases hyw : y.lt w = true
    · have hyx : y.lt x = true := by
        rw [UtxoEntry.lt_iff_lex] at hyw ⊢
        exact lt_of_lt_of_le hyw hxw'
      have hxy : x.lt y = false := by
        rw [UtxoEntry.lt_false_iff_lex]
        exact le_of_lt ((UtxoEntry.lt_iff_lex y x).1 hyx)
      simp only [setInsert, hyw, if_true, hxy, Bool.false_eq_true, if_false, hyx, hxw]
      rw [h]
    · by_cases hwy : w.lt y = true
      · simp only [setInsert, hyw, if_false, hwy, if_true, hxw, Bool.false_eq_true]
        by_cases hwx : w.lt x = true
        · simp only [hwx, if_true] at h ⊢
          rw [ih (List.cons.inj h).2]
        · simp only [hwx, if_false, Bool.false_eq_true]
      · simp only [setInsert, hyw, hwy, if_false]
        simp only [setInsert, hxw, Bool.false_eq_true, if_false]
        exact h

theorem setInsert_idem (x : UtxoEntry) (s : List UtxoEntry) :
    setInsert x (setInsert x s) = setInsert x s := by
  induction s with
  | nil => simp [setInsert, UtxoEntry.lt_self]
  | cons w t ih =>
    simp only [setInsert]
    split_ifs with h1 h2
    · simp [setInsert, UtxoEntry.lt_self]
    · simp [setInsert, h1, h2, ih]
    · simp [setInsert, h1, h2]

theorem foldl_setInsert_stable (x : UtxoEntry) (items s : List UtxoEntry)
    (h : setInsert x s = s) :
    setInsert x (items.foldl (fun s item => setInsert item s) s) =
      items.foldl (fun s item => setInsert item s) s := by
  induction items generalizing s with
  | nil => simpa using h
  | cons i rest ih =>
    rw [List.foldl_cons]
    exact ih _ (setInsert_stable x i s h)

/-- Inserting the same elements a second time changes nothing. -/
theorem foldl_setInsert_twice (items s : List UtxoEntry) :
    items.foldl (fun s item => setInsert item s)
      (items.foldl (fun s item => setInsert item s) s) =
      items.foldl (fun s item => setInsert item s) s := by
  suffices H : ∀ (done todo : List UtxoEntry) (t : List UtxoEntry),
      (∀ x ∈ todo, setInsert x t = t) → todo.foldl (fun s item => setInsert item s) t = t by
    apply H items items
    intro x hx
    clear H
    induction items generalizing s with
    | nil => cases hx
    | cons i rest ih =>
      rw [List.foldl_cons]
      rcases List.mem_cons.1 hx with rfl | hx
      · exact foldl_setInsert_stable x rest _ (setInsert_idem x s)
      · exact ih _ hx
  intro _ todo
  induction todo with
  | nil => intro t _; rfl
  | cons i rest ih =>
    intro t ht
    rw [List.foldl_cons, ht i (List.mem_cons_self _ _)]
    exact ih t (fun x hx => ht x (List.mem_cons_of_mem _ hx))

/-! ## Facts about the map operations -/

section MapFacts
variable {α : Type}

theorem mapCount_eq_isSome (k : Nat) (m : List (Nat × α)) :
    mapCount k m = (mapFind k m).isSome := by
  induction m with
  | nil => rfl
  | cons p m ih =>
    obtain ⟨j, v⟩ := p
    by_cases h : j = k <;> simp [mapCount, mapFind, h, ih]

theorem mapCount_true_iff (k : Nat) (m : List (Nat × α)) :
    mapCount k m = true ↔ ∃ v, mapFind k m = some v := by
  rw [mapCount_eq_isSome, Option.isSome_iff_exists]

theorem mapCount_false_iff (k : Nat) (m : List (Nat × α)) :
    mapCount k m = false ↔ mapFind k m = none := by
  rw [mapCount_eq_isSome]; cases mapFind k m <;> simp

theorem mapFind_mapSet_self (k : Nat) (v : α) (m : List (Nat × α)) :
    mapFind k (mapSet k v m) = some v := by
  induction m with
  | nil => simp [mapSet, mapFind]
  | cons p m ih =>
    obtain ⟨j, w⟩ := p
    simp only [mapSet]
    split_ifs with h1 h2
    · simp [mapFind]
    · simp [mapFind]
    · simp [mapFind, h2, ih]

theorem mapFind_mapSet_ne (j k : Nat) (v : α) (m : List (Nat × α)) (h : j ≠ k) :
    mapFind j (mapSet k v m) = mapFind j m := by
  induction m with
  | nil => simp [mapSet, mapFind, Ne.symm h]
  | cons p m ih =>
    obtain ⟨i, w⟩ := p
    simp only [mapSet]
    split_ifs with h1 h2
    · simp [mapFind, Ne.symm h]
    · subst h2; simp [mapFind, Ne.symm h]
    · by_cases hi : i = j <;> simp [mapFind, hi, ih]

theorem mapFind_mapErase_self (k : Nat) (m : List (Nat × α)) :
    mapFind k (mapErase k m) = none := by
  induction m with
  | nil => rfl
  | cons p m ih =>
    obtain ⟨i, w⟩ := p
    by_cases hi : i = k
    · simpa [mapErase, hi] using ih
    · have : mapErase k ((i, w) :: m) = (i, w) :: mapErase k m := by simp [mapErase, hi]
      rw [this]; simp [mapFind, hi, ih]

theorem mapFind_mapErase_ne (j k : Nat) (m : List (Nat × α)) (h : j ≠ k) :
    mapFind j (mapErase k m) = mapFind j m := by
  induction m with
  | nil => rfl
  | cons p m ih =>
    obtain ⟨i, w⟩ := p
    by_cases hi : i = k
    · have : mapErase k ((i, w) :: m) = mapErase k m := by simp [mapErase, hi]
      rw [this, ih]
      have hij : ¬ i = j := by rw [hi]; exact Ne.symm h
      simp [mapFind, hij]
    · have : mapErase k ((i, w) :: m) = (i, w) :: mapErase k m := by simp [mapErase, hi]
      rw [this]
      by_cases hij : i = j <;> simp [mapFind, hij, ih]

theorem mapCount_mapErase_self (k : Nat) (m : List (Nat × α)) :
    mapCount k (mapErase k m) = false := by
  rw [mapCount_false_iff, mapFind_mapErase_self]

theorem mapCount_mapSet_self (k : Nat) (v : α) (m : List (Nat × α)) :
    mapCount k (mapSet k v m) = true := by
  rw [mapCount_eq_isSome, mapFind_mapSet_self]; rfl

theorem mapSet_idem (k : Nat) (v w : α) (m : List (Nat × α)) :
    mapSet k v (mapSet k w m) = mapSet k v m := by
  induction m with
  | nil => simp [mapSet]
  | cons p m ih =>
    obtain ⟨i, u⟩ := p
    simp only [mapSet]
    split_ifs with h1 h2
    · simp [mapSet]
    · simp [mapSet]
    · simp [mapSet, h1, h2, ih]

end MapFacts

theorem mapTouch_of_count (k : Nat) (m : List (Nat × List UtxoEntry))
    (h : mapCount k m = true) : mapTouch k m = m := by
  simp [mapTouch, h]

theorem mapFind_mapTouch_self (k : Nat) (m : List (Nat × List UtxoEntry)) :
    mapFind k (mapTouch k m) = some ((mapFind k m).getD []) := by
  unfold mapTouch
  split_ifs with h
  · obtain ⟨v, hv⟩ := (mapCount_true_iff k m).1 h
    simp [hv]
  · have : mapFind k m = none := (mapCount_false_iff k m).1 (by simpa using h)
    rw [mapFind_mapSet_self, this]; rfl

theorem mapFind_mapTouch_ne (j k : Nat) (m : List (Nat × List UtxoEntry)) (h : j ≠ k) :
    mapFind j (mapTouch k m) = mapFind j m := by
  unfold mapTouch
  split_ifs
  · rfl
  · exact mapFind_mapSet_ne j k [] m h

theorem mapSet_mapTouch (k : Nat) (v : List UtxoEntry) (m : List (Nat × List UtxoEntry)) :
    mapSet k v (mapTouch k m) = mapSet k v m := by
  unfold mapTouch
  split_ifs
  · rfl
  · exact mapSet_idem k v [] m

/-! ## Facts about `newOutpoints` and the loop of `lockUtxos` -/

theorem newOutpoints_mem (vec items : List UtxoEntry) (x : UtxoEntry)
    (h : x ∈ newOutpoints vec items) : x ∈ items ∧ ¬ Listed x vec := by
  induction items generalizing vec with
  | nil => simp [newOutpoints] at h
  | cons i rest ih =>
    simp only [newOutpoints] at h
    split_ifs at h with hl
    · exact ⟨List.mem_cons_of_mem _ (ih vec h).1, (ih vec h).2⟩
    · rcases List.mem_cons.1 h with rfl | h
      · exact ⟨List.mem_cons_self _ _, hl⟩
      · refine ⟨List.mem_cons_of_mem _ (ih _ h).1, fun hx => (ih _ h).2 ?_⟩
        exact (listed_append _ _ _).2 (Or.inl hx)

theorem newOutpoints_sublist (vec items : List UtxoEntry) :
    (newOutpoints vec items).Sublist items := by
  induction items generalizing vec with
  | nil => simp [newOutpoints]
  | cons i rest ih =>
    simp only [newOutpoints]
    split_ifs
    · exact (ih vec).cons i
    · exact (ih _).cons₂ i

theorem listed_newOutpoints (vec items : List UtxoEntry) (x : UtxoEntry) :
    Listed x (vec ++ newOutpoints vec items) ↔ Listed x vec ∨ Listed x items := by
  induction items generalizing vec with
  | nil => simp [newOutpoints, listed_nil]
  | cons i rest ih =>
    simp only [newOutpoints]
    split_ifs with hl
    · rw [ih, listed_cons]
      constructor
      · rintro (h | h)
        · exact Or.inl h
        · exact Or.inr (Or.inr h)
      · rintro (h | h | h)
        · exact Or.inl h
        · exact Or.inl ((listed_congr h _).1 hl)
        · exact Or.inr h
    · have : vec ++ i :: newOutpoints (vec ++ [i]) rest =
          (vec ++ [i]) ++ newOutpoints (vec ++ [i]) rest := by simp
      rw [this, ih, listed_append, listed_cons, listed_cons]
      simp only [listed_nil, or_false]
      tauto

theorem newOutpoints_pairwise (vec items : List UtxoEntry) :
    (newOutpoints vec items).Pairwise (fun a b => ¬ SameOutpoint a b) := by
  induction items generalizing vec with
  | nil => simp [newOutpoints]
  | cons i rest ih =>
    simp only [newOutpoints]
    split_ifs with hl
    · exact ih vec
    · refine List.Pairwise.cons ?_ (ih _)
      intro b hb hs
      exact (newOutpoints_mem _ _ b hb).2 ((listed_append _ _ _).2 (Or.inr ⟨i, by simp, hs⟩))

theorem newOutpoints_eq_nil (vec items : List UtxoEntry) (h : ∀ i ∈ items, Listed i vec) :
    newOutpoints vec items = [] := by
  induction items with
  | nil => rfl
  | cons i rest ih =>
    simp only [newOutpoints, h i (List.mem_cons_self _ _), if_true]
    exact ih (fun j hj => h j (List.mem_cons_of_mem _ hj))

theorem lockLoop_fst (items ui seen vec : List UtxoEntry) :
    (lockLoop items ui seen vec).1 = items.foldl (fun s item => setInsert item s) ui := by
  induction items generalizing ui seen vec with
  | nil => rfl
  | cons i rest ih =>
    simp only [lockLoop, List.foldl_cons]
    split_ifs <;> exact ih _ _ _

theorem lockLoop_vec (items ui seen vec : List UtxoEntry)
    (hm : ∀ x, Listed x seen ↔ Listed x vec) :
    (lockLoop items ui seen vec).2.2 = vec ++ newOutpoints vec items := by
  induction items generalizing ui seen vec with
  | nil => simp [lockLoop, newOutpoints]
  | cons i rest ih =>
    simp only [lockLoop, newOutpoints]
    by_cases hc : setCount i seen = true
    · have hl : Listed i vec := (hm i).1 ((setCount_iff i seen).1 hc)
      simp only [hc, Bool.not_true, Bool.false_eq_true, if_false, hl, if_true]
      exact ih _ _ _ hm
    · have hl : ¬ Listed i vec := fun h => hc ((setCount_iff i seen).2 ((hm i).2 h))
      simp only [Bool.not_eq_true] at hc
      simp only [hc, Bool.not_false, if_true, hl, if_false]
      rw [ih _ _ _ ?_]
      · simp
      · intro x
        rw [listed_setInsert, listed_append, listed_cons, hm x]
        simp only [listed_nil, or_false]
        tauto

theorem listed_foldl_setInsert_nil (x : UtxoEntry) (vec : List UtxoEntry) :
    Listed x (vec.foldl (fun s item => setInsert item s) []) ↔ Listed x vec := by
  rw [listed_foldl_setInsert]; simp [listed_nil]

section LockFacts
variable {Tx : Type}

/-- Closed form of `lockUtxos` on a non-empty `items`. -/
theorem lockUtxos_eq (id : Nat) (items : List UtxoEntry) (e : Exchange Tx) (h : items ≠ []) :
    lockUtxos id items e = (true, { e with
      m_utxoItems := items.foldl (fun s item => setInsert item s) e.m_utxoItems,
      m_utxoTxMap := mapSet id
        ((mapFind id e.m_utxoTxMap).getD [] ++
          newOutpoints ((mapFind id e.m_utxoTxMap).getD []) items) e.m_utxoTxMap }) := by
  have hne : items.isEmpty = false := by cases items <;> simp_all
  simp only [lockUtxos, hne, Bool.false_eq_true, if_false, lockLoop_fst, mapSet_mapTouch,
    mapFind_mapTouch_self, Option.getD_some]
  rw [lockLoop_vec _ _ _ _ (listed_foldl_setInsert_nil · _)]

theorem lockUtxos_nil (id : Nat) (e : Exchange Tx) : lockUtxos id [] e = (false, e) := by
  simp [lockUtxos]

end LockFacts

/-! ## Effect of `lockUtxos` and `unlockUtxos` on the ledger -/

section LedgerFacts
variable {Tx : Type}

theorem listedFor_congr (e : Exchange Tx) (x : Nat) {o o' : UtxoEntry} (h : SameOutpoint o o') :
    ListedFor e x o ↔ ListedFor e x o' := by
  unfold ListedFor
  constructor
  · rintro ⟨l, hl, ho⟩; exact ⟨l, hl, (listed_congr h l).1 ho⟩
  · rintro ⟨l, hl, ho⟩; exact ⟨l, hl, (listed_congr h l).2 ho⟩

theorem listed_getD_iff (e : Exchange Tx) (x : Nat) (o : UtxoEntry) :
    Listed o ((mapFind x e.m_utxoTxMap).getD []) ↔ ListedFor e x o := by
  unfold ListedFor
  cases h : mapFind x e.m_utxoTxMap with
  | none => simp [listed_nil]
  | some l => simp

theorem listedFor_of_sameLedger {e e' : Exchange Tx} (h : SameLedger e e') (x : Nat)
    (o : UtxoEntry) : ListedFor e' x o ↔ ListedFor e x o := by
  unfold ListedFor; rw [h.2]

theorem listedFor_lockUtxos (id : Nat) (items : List UtxoEntry) (e : Exchange Tx)
    (hne : items ≠ []) (x : Nat) (o : UtxoEntry) :
    ListedFor (lockUtxos id items e).2 x o ↔
      (x = id ∧ (ListedFor e id o ∨ Listed o items)) ∨ (x ≠ id ∧ ListedFor e x o) := by
  rw [lockUtxos_eq id items e hne]
  by_cases hx : x = id
  · subst hx
    simp only [ListedFor, mapFind_mapSet_self, Option.some.injEq, exists_eq_left']
    rw [listed_newOutpoints, listed_getD_iff]
    simp [ListedFor]
  · simp only [ListedFor, mapFind_mapSet_ne x id _ _ hx]
    simp [hx]

theorem reserved_lockUtxos (id : Nat) (items : List UtxoEntry) (e : Exchange Tx)
    (hne : items ≠ []) (o : UtxoEntry) :
    setCount o (lockUtxos id items e).2.m_utxoItems = true ↔
      Listed o items ∨ setCount o e.m_utxoItems = true := by
  rw [lockUtxos_eq id items e hne, setCount_iff, setCount_iff]
  exact listed_foldl_setInsert o items e.m_utxoItems

theorem listedFor_unlockUtxos (id : Nat) (e : Exchange Tx) (x : Nat) (o : UtxoEntry) :
    ListedFor (unlockUtxos id e).2 x o ↔ x ≠ id ∧ ListedFor e x o := by
  unfold unlockUtxos
  by_cases hc : mapCount id e.m_utxoTxMap = true
  · simp only [hc, Bool.not_true, Bool.false_eq_true, if_false]
    by_cases hx : x = id
    · subst hx
      simp [ListedFor, mapFind_mapErase_self]
    · simp [ListedFor, mapFind_mapErase_ne x id _ hx, hx]
  · simp only [Bool.not_eq_true] at hc
    simp only [hc, Bool.not_false, if_true]
    constructor
    · intro h
      refine ⟨?_, h⟩
      rintro rfl
      obtain ⟨l, hl, _⟩ := h
      rw [(mapCount_false_iff _ _).1 hc] at hl
      cases hl
    · exact fun h => h.2

theorem reserved_unlockUtxos (id : Nat) (e : Exchange Tx) (o : UtxoEntry) :
    setCount o (unlockUtxos id e).2.m_utxoItems = true ↔
      setCount o e.m_utxoItems = true ∧ ¬ ListedFor e id o := by
  unfold unlockUtxos
  by_cases hc : mapCount id e.m_utxoTxMap = true
  · simp only [hc, Bool.not_true, Bool.false_eq_true, if_false]
    rw [setCount_iff, setCount_iff, listed_foldl_setErase, listed_getD_iff]
  · simp only [Bool.not_eq_true] at hc
    simp only [hc, Bool.not_false, if_true]
    constructor
    · intro h
      refine ⟨h, ?_⟩
      rintro ⟨l, hl, _⟩
      rw [(mapCount_false_iff _ _).1 hc] at hl
      cases hl
    · exact fun h => h.1

theorem lockUtxos_sameLedger_congr (id : Nat) (items : List UtxoEntry) {e e' : Exchange Tx}
    (h : SameLedger e e') : SameLedger (lockUtxos id items e).2 (lockUtxos id items e').2 := by
  obtain ⟨h1, h2⟩ := h
  unfold SameLedger lockUtxos
  split_ifs
  · exact ⟨h1, h2⟩
  · simp only [h1, h2, and_self]

theorem unlockUtxos_sameLedger_congr (id : Nat) {e e' : Exchange Tx}
    (h : SameLedger e e') : SameLedger (unlockUtxos id e).2 (unlockUtxos id e').2 := by
  obtain ⟨h1, h2⟩ := h
  unfold SameLedger unlockUtxos
  rw [h1, h2]
  split_ifs
  · exact ⟨h1, h2⟩
  · simp only [and_self]

theorem SameLedger.rfl' (e : Exchange Tx) : SameLedger e e := ⟨rfl, rfl⟩

theorem SameLedger.trans' {a b c : Exchange Tx} (h : SameLedger a b) (h' : SameLedger b c) :
    SameLedger a c := ⟨h'.1.trans h.1, h'.2.trans h.2⟩

/-- The ledger after `createTransaction` is the old one or the one `lockUtxos` yields. -/
theorem createTransaction_ledger (env : Env Tx) (p : TxParams) (items : List UtxoEntry)
    (e : Exchange Tx) :
    SameLedger e (createTransaction env p items e).2.2 ∨
      SameLedger (lockUtxos p.id items e).2 (createTransaction env p items e).2.2 := by
  unfold createTransaction
  dsimp only
  split_ifs
  all_goals first
    | exact Or.inl (SameLedger.rfl' e)
    | exact Or.inr (lockUtxos_sameLedger_congr p.id items ⟨rfl, rfl⟩)

/-- The ledger after `acceptTransaction` is the old one or the one `lockUtxos` yields. -/
theorem acceptTransaction_ledger (env : Env Tx) (p : TxParams) (items : List UtxoEntry)
    (e : Exchange Tx) :
    SameLedger e (acceptTransaction env p items e).2 ∨
      SameLedger (lockUtxos p.id items e).2 (acceptTransaction env p items e).2 := by
  unfold acceptTransaction
  dsimp only
  split_ifs
  · exact Or.inl (SameLedger.rfl' e)
  · exact Or.inl (SameLedger.rfl' e)
  · exact Or.inl (SameLedger.rfl' e)
  · split
    · exact Or.inl (SameLedger.rfl' e)
    · split_ifs
      · exact Or.inl ⟨rfl, rfl⟩
      · exact Or.inl ⟨rfl, rfl⟩
      · exact Or.inr (lockUtxos_sameLedger_congr p.id items ⟨rfl, rfl⟩)

theorem deletePendingTransaction_ledger (id : Nat) (e : Exchange Tx) :
    SameLedger (unlockUtxos id e).2 (deletePendingTransaction id e).2 :=
  ⟨rfl, rfl⟩

theorem deleteTransaction_ledger (txid : Nat) (e : Exchange Tx) :
    SameLedger (unlockUtxos txid e).2 (deleteTransaction txid e).2 :=
  unlockUtxos_sameLedger_congr txid ⟨rfl, rfl⟩

end LedgerFacts

/-! ## Invariants of the ledger -/

section InvariantFacts
variable {Tx : Type}

theorem ledgerInv_of_sameLedger {e e' : Exchange Tx} (h : SameLedger e e')
    (hI : ListsReserved e ∧ ListsDisjoint e) : ListsReserved e' ∧ ListsDisjoint e' := by
  constructor
  · intro x o hx
    rw [h.1]
    exact hI.1 x o ((listedFor_of_sameLedger h x o).1 hx)
  · intro x y o hxy hx hy
    exact hI.2 x y o hxy ((listedFor_of_sameLedger h x o).1 hx)
      ((listedFor_of_sameLedger h y o).1 hy)

theorem ledgerInv_empty (wallets : List (String × WalletParam)) :
    ListsReserved (Exchange.empty wallets : Exchange Tx) ∧
      ListsDisjoint (Exchange.empty wallets : Exchange Tx) := by
  constructor
  · rintro x o ⟨l, hl, _⟩; cases hl
  · rintro x y o _ ⟨l, hl, _⟩; cases hl

theorem ledgerInv_lockUtxos (id : Nat) (items : List UtxoEntry) (e : Exchange Tx)
    (hI : ListsReserved e ∧ ListsDisjoint e) (hg : NoForeign e id items) :
    ListsReserved (lockUtxos id items e).2 ∧ ListsDisjoint (lockUtxos id items e).2 := by
  by_cases hne : items = []
  · subst hne; rw [lockUtxos_nil]; exact hI
  have foreign : ∀ o y, Listed o items → y ≠ id → ¬ ListedFor e y o := by
    rintro o y ⟨i, hi, hio⟩ hy h
    exact hg i hi y hy ((listedFor_congr e y hio).2 h)
  constructor
  · intro x o hx
    rw [reserved_lockUtxos id items e hne]
    rcases (listedFor_lockUtxos id items e hne x o).1 hx with ⟨_, h | h⟩ | ⟨_, h⟩
    · exact Or.inr (hI.1 id o h)
    · exact Or.inl h
    · exact Or.inr (hI.1 x o h)
  · intro x y o hxy hx hy
    rcases (listedFor_lockUtxos id items e hne x o).1 hx with ⟨hxi, h | h⟩ | ⟨hxi, h⟩ <;>
      rcases (listedFor_lockUtxos id items e hne y o).1 hy with ⟨hyi, h' | h'⟩ | ⟨hyi, h'⟩
    · exact hxy (hxi.trans hyi.symm)
    · exact hxy (hxi.trans hyi.symm)
    · exact hI.2 id y o (Ne.symm hyi) h h'
    · exact hxy (hxi.trans hyi.symm)
    · exact hxy (hxi.trans hyi.symm)
    · exact foreign o y h hyi h'
    · exact hI.2 x id o hxi h h'
    · exact foreign o x h' hxi h
    · exact hI.2 x y o hxy h h'

theorem ledgerInv_unlockUtxos (id : Nat) (e : Exchange Tx)
    (hI : ListsReserved e ∧ ListsDisjoint e) :
    ListsReserved (unlockUtxos id e).2 ∧ ListsDisjoint (unlockUtxos id e).2 := by
  constructor
  · intro x o hx
    obtain ⟨hxi, h⟩ := (listedFor_unlockUtxos id e x o).1 hx
    rw [reserved_unlockUtxos]
    exact ⟨hI.1 x o h, hI.2 x id o hxi h⟩
  · intro x y o hxy hx hy
    exact hI.2 x y o hxy ((listedFor_unlockUtxos id e x o).1 hx).2
      ((listedFor_unlockUtxos id e y o).1 hy).2

theorem ledgerInv_eraseLoop (env : Env Tx) (nodes : List (Nat × Tx)) (n : Nat) (e : Exchange Tx)
    (hI : ListsReserved e ∧ ListsDisjoint e) :
    ListsReserved (eraseLoop env nodes n e).2.2 ∧ ListsDisjoint (eraseLoop env nodes n e).2.2 := by
  induction nodes generalizing n e with
  | nil => exact hI
  | cons node rest ih =>
    obtain ⟨k, ptr⟩ := node
    simp only [eraseLoop]
    split_ifs
    · exact ih _ _ (ledgerInv_unlockUtxos _ e hI)
    · exact ih _ _ (ledgerInv_unlockUtxos _ e hI)
    · exact ih _ _ hI

theorem ledgerInv_eraseExpiredTransactions (env : Env Tx) (e : Exchange Tx)
    (hI : ListsReserved e ∧ ListsDisjoint e) :
    ListsReserved (eraseExpiredTransactions env e).2 ∧
      ListsDisjoint (eraseExpiredTransactions env e).2 := by
  unfold eraseExpiredTransactions
  split_ifs
  · exact hI
  · exact ledgerInv_of_sameLedger ⟨rfl, rfl⟩ (ledgerInv_eraseLoop env _ 0 e hI)

/-- In states reached by calls that never reserve an outpoint listed for another order,
lists are within the reserved set and pairwise disjoint. -/
theorem ledgerInv_of_guarded (wallets : List (String × WalletParam)) (e : Exchange Tx)
    (h : Reachable (fun op s => op.name ∈ orderAndLedgerOps ∧
      ∀ id items, op.reserves = some (id, items) → NoForeign s id items) wallets e) :
    ListsReserved e ∧ ListsDisjoint e := by
  induction h with
  | empty => exact ledgerInv_empty wallets
  | step op e e' _ hg ha ih =>
    cases op with
    | create env p items =>
      cases ha
      rcases createTransaction_ledger env p items e with hs | hs
      · exact ledgerInv_of_sameLedger hs ih
      · exact ledgerInv_of_sameLedger hs (ledgerInv_lockUtxos _ _ e ih (hg.2 _ _ rfl))
    | accept env p items =>
      cases ha
      rcases acceptTransaction_ledger env p items e with hs | hs
      · exact ledgerInv_of_sameLedger hs ih
      · exact ledgerInv_of_sameLedger hs (ledgerInv_lockUtxos _ _ e ih (hg.2 _ _ rfl))
    | deletePending id =>
      cases ha
      exact ledgerInv_of_sameLedger (deletePendingTransaction_ledger id e)
        (ledgerInv_unlockUtxos id e ih)
    | delete txid =>
      cases ha
      exact ledgerInv_of_sameLedger (deleteTransaction_ledger txid e)
        (ledgerInv_unlockUtxos txid e ih)
    | eraseExpired env =>
      cases ha
      exact ledgerInv_eraseExpiredTransactions env e ih
    | lock id items =>
      cases ha
      exact ledgerInv_lockUtxos id items e ih (hg.2 _ _ rfl)
    | unlock id =>
      cases ha
      exact ledgerInv_unlockUtxos id e ih
    | updateTimestamp env tx =>
      exact absurd hg.1 (by simp [Op.name, orderAndLedgerOps, orderOps])

end InvariantFacts

/-! ## Facts about `checkUtxoItems`, `createTransaction` and `acceptTransaction` -/

section CreateFacts
variable {Tx : Type}

theorem checkUtxoLoop_bad (env : Env Tx) (e : Exchange Tx) (items : List UtxoEntry)
    (h : ∃ o ∈ items, env.IsCoinValid o.txId = false) : checkUtxoLoop env e items = false := by
  induction items with
  | nil => obtain ⟨o, ho, _⟩ := h; cases ho
  | cons i rest ih =>
    obtain ⟨o, ho, hv⟩ := h
    simp only [checkUtxoLoop]
    split_ifs with hc
    · rfl
    · rcases List.mem_cons.1 ho with rfl | ho
      · simp [hv] at hc
      · exact ih ⟨o, ho, hv⟩

theorem checkUtxoLoop_reserved (env : Env Tx) (e : Exchange Tx) (items : List UtxoEntry)
    (h : ∃ o ∈ items, setCount o e.m_utxoItems = true) : checkUtxoLoop env e items = false := by
  induction items with
  | nil => obtain ⟨o, ho, _⟩ := h; cases ho
  | cons i rest ih =>
    obtain ⟨o, ho, hv⟩ := h
    simp only [checkUtxoLoop]
    split_ifs with hc
    · rfl
    · rcases List.mem_cons.1 ho with rfl | ho
      · simp [hv] at hc
      · exact ih ⟨o, ho, hv⟩

theorem createTransaction_of_check_false (env : Env Tx) (p : TxParams) (items : List UtxoEntry)
    (e : Exchange Tx) (h : checkUtxoItems env e p.id items = false) :
    createTransaction env p items e = (false, false, e) := by
  unfold createTransaction
  simp [h]

theorem acceptTransaction_of_check_false (env : Env Tx) (p : TxParams) (items : List UtxoEntry)
    (e : Exchange Tx) (h : checkUtxoItems env e p.id items = false) :
    acceptTransaction env p items e = (false, e) := by
  unfold acceptTransaction
  simp [h]

theorem createTransaction_false (env : Env Tx) (p : TxParams) (items : List UtxoEntry)
    (e : Exchange Tx) (h : (createTransaction env p items e).1 = false) :
    (createTransaction env p items e).2.2 = e := by
  revert h
  unfold createTransaction
  dsimp only
  split_ifs <;> simp

theorem createTransaction_true (env : Env Tx) (p : TxParams) (items : List UtxoEntry)
    (e : Exchange Tx) (h : (createTransaction env p items e).1 = true) :
    (createTransaction env p items e).2.2 = (lockUtxos p.id items { e with
      m_pendingTransactions :=
        (createPending env p.id (env.mkTx p) e.m_pendingTransactions).2 }).2 := by
  revert h
  unfold createTransaction
  dsimp only
  split_ifs <;> simp

end CreateFacts

/-! ## Facts about `acceptTransaction`, `unlockUtxos` and the expiry sweep -/

section AcceptFacts
variable {Tx : Type}

theorem acceptTransaction_true (env : Env Tx) (p : TxParams) (items : List UtxoEntry)
    (e : Exchange Tx) (h : (acceptTransaction env p items e).1 = true) :
    ∃ cur, mapFind p.id e.m_pendingTransactions = some cur ∧
      (acceptTransaction env p items e).2 = (lockUtxos p.id items { e with
        m_transactions := mapSet p.id
          (env.tryJoin cur (env.mkTx { p with timestamp := env.time, blockHash := 0 })).2
          e.m_transactions,
        m_pendingTransactions := mapErase p.id e.m_pendingTransactions }).2 := by
  revert h
  unfold acceptTransaction
  dsimp only
  split_ifs
  · simp
  · simp
  · simp
  · split
    · simp
    · rename_i cur hcur
      split_ifs
      · simp
      · simp
      · intro _
        exact ⟨cur, hcur, rfl⟩

theorem lockUtxos_pending (id : Nat) (items : List UtxoEntry) (e : Exchange Tx) :
    (lockUtxos id items e).2.m_pendingTransactions = e.m_pendingTransactions := by
  unfold lockUtxos; split_ifs <;> rfl

theorem lockUtxos_transactions (id : Nat) (items : List UtxoEntry) (e : Exchange Tx) :
    (lockUtxos id items e).2.m_transactions = e.m_transactions := by
  unfold lockUtxos; split_ifs <;> rfl

theorem lockUtxos_other (id : Nat) (items : List UtxoEntry) (e : Exchange Tx) (x : Nat)
    (hx : x ≠ id) :
    mapFind x (lockUtxos id items e).2.m_utxoTxMap = mapFind x e.m_utxoTxMap := by
  by_cases hne : items = []
  · subst hne; rw [lockUtxos_nil]
  · rw [lockUtxos_eq id items e hne]
    exact mapFind_mapSet_ne x id _ _ hx

theorem lockUtxos_reserved_mono (id : Nat) (items : List UtxoEntry) (e : Exchange Tx)
    (o : UtxoEntry) (h : setCount o e.m_utxoItems = true) :
    setCount o (lockUtxos id items e).2.m_utxoItems = true := by
  by_cases hne : items = []
  · subst hne; rw [lockUtxos_nil]; exact h
  · exact (reserved_lockUtxos id items e hne o).2 (Or.inr h)

theorem unlockUtxos_fst (id : Nat) (e : Exchange Tx) :
    (unlockUtxos id e).1 = mapCount id e.m_utxoTxMap := by
  unfold unlockUtxos
  cases h : mapCount id e.m_utxoTxMap <;> simp

theorem mapCount_unlockUtxos (id x : Nat) (e : Exchange Tx) :
    mapCount x (unlockUtxos id e).2.m_utxoTxMap =
      (if x = id then false else mapCount x e.m_utxoTxMap) := by
  unfold unlockUtxos
  by_cases hc : mapCount id e.m_utxoTxMap = true
  · simp only [hc, Bool.not_true, Bool.false_eq_true, if_false]
    split_ifs with hx
    · subst hx; exact mapCount_mapErase_self _ _
    · rw [mapCount_eq_isSome, mapCount_eq_isSome, mapFind_mapErase_ne x id _ hx]
  · simp only [Bool.not_eq_true] at hc
    simp only [hc, Bool.not_false, if_true]
    split_ifs with hx
    · subst hx; exact hc
    · rfl

theorem eraseLoop_kept (env : Env Tx) (nodes : List (Nat × Tx)) (n : Nat) (e : Exchange Tx) :
    (eraseLoop env nodes n e).2.1 = nodes.filter (fun node => !sweepable env node) := by
  induction nodes generalizing n e with
  | nil => rfl
  | cons node rest ih =>
    obtain ⟨k, ptr⟩ := node
    simp only [eraseLoop]
    split_ifs with h1 h2
    · rw [ih]; simp [sweepable, h1]
    · rw [ih]; simp [sweepable, h2]
    · simp only [Bool.not_eq_true] at h1 h2
      rw [ih]; simp [sweepable, h1, h2]

theorem eraseLoop_count (env : Env Tx) (nodes : List (Nat × Tx)) (n : Nat) (e : Exchange Tx) :
    (eraseLoop env nodes n e).1 = n + (nodes.filter (sweepable env)).length := by
  induction nodes generalizing n e with
  | nil => rfl
  | cons node rest ih =>
    obtain ⟨k, ptr⟩ := node
    simp only [eraseLoop]
    split_ifs with h1 h2
    · rw [ih]; simp [sweepable, h1]; omega
    · rw [ih]; simp [sweepable, h2]; omega
    · simp only [Bool.not_eq_true] at h1 h2
      rw [ih]; simp [sweepable, h1, h2]

theorem eraseLoop_unlisted (env : Env Tx) (nodes : List (Nat × Tx)) (n : Nat) (e : Exchange Tx)
    (x : Nat)
    (h : mapCount x e.m_utxoTxMap = false ∨
      ∃ node ∈ nodes, sweepable env node = true ∧ env.id node.2 = x) :
    mapCount x (eraseLoop env nodes n e).2.2.m_utxoTxMap = false := by
  induction nodes generalizing n e with
  | nil =>
    rcases h with h | ⟨node, hn, _⟩
    · exact h
    · cases hn
  | cons node rest ih =>
    obtain ⟨k, ptr⟩ := node
    have swept : ∀ m, mapCount x
        (eraseLoop env rest m (unlockUtxos (env.id ptr) e).2).2.2.m_utxoTxMap = false := by
      intro m
      rcases h with h | ⟨node, hn, hs, hid⟩
      · refine ih _ _ (Or.inl ?_)
        rw [mapCount_unlockUtxos]; split_ifs
        · rfl
        · exact h
      · rcases List.mem_cons.1 hn with rfl | hn
        · refine ih _ _ (Or.inl ?_)
          rw [mapCount_unlockUtxos]; simp [← hid]
        · exact ih _ _ (Or.inr ⟨node, hn, hs, hid⟩)
    simp only [eraseLoop]
    split_ifs with h1 h2
    · exact swept _
    · exact swept _
    · simp only [Bool.not_eq_true] at h1 h2
      rcases h with h | ⟨node, hn, hs, hid⟩
      · exact ih _ _ (Or.inl h)
      · rcases List.mem_cons.1 hn with rfl | hn
        · simp [sweepable, h1, h2] at hs
        · exact ih _ _ (Or.inr ⟨node, hn, hs, hid⟩)

end AcceptFacts

theorem length_filter_split {α : Type} (p : α → Bool) (l : List α) :
    (l.filter p).length + (l.filter (fun a => !p a)).length = l.length := by
  induction l with
  | nil => rfl
  | cons a l ih =>
    cases h : p a <;> simp [List.filter, h] <;> omega

/-! ## Facts for the ordering of `UtxoEntry` and the later claims -/

theorem mapCount_of_mapFind {κ α : Type} [DecidableEq κ] (k : κ) (m : List (κ × α)) (v : α)
    (h : mapFind k m = some v) : mapCount k m = true := by
  induction m with
  | nil => cases h
  | cons q m ih =>
    obtain ⟨j, w⟩ := q
    by_cases hj : j = k
    · simp [mapCount, hj]
    · simp only [mapFind, hj, if_false] at h
      simp [mapCount, ih h]

theorem UtxoEntry.eq_iff (a r : UtxoEntry) : a.eq r = true ↔ SameOutpoint a r := by
  simp [UtxoEntry.eq, SameOutpoint]

theorem UtxoEntry.lt_trans' {a b c : UtxoEntry} (h : a.lt b = true) (h' : b.lt c = true) :
    a.lt c = true := by
  rw [UtxoEntry.lt_iff_lex] at h h' ⊢
  exact lt_trans h h'

theorem UtxoEntry.lt_congr {a a' r r' : UtxoEntry} (ha : SameOutpoint a a')
    (hr : SameOutpoint r r') : a.lt r = a'.lt r' := by
  unfold UtxoEntry.lt
  rw [ha.1, ha.2, hr.1, hr.2]

theorem UtxoEntry.eq_congr {a a' r r' : UtxoEntry} (ha : SameOutpoint a a')
    (hr : SameOutpoint r r') : a.eq r = a'.eq r' := by
  unfold UtxoEntry.eq
  rw [ha.1, ha.2, hr.1, hr.2]

theorem UtxoEntry.lex_eq_iff (a b : UtxoEntry) :
    toLex (a.txId.data, a.vout) = toLex (b.txId.data, b.vout) ↔ SameOutpoint a b := by
  constructor
  · intro h
    have h' : (a.txId.data, a.vout) = (b.txId.data, b.vout) := h
    exact ⟨UtxoEntry.data_injective (congrArg Prod.fst h'), congrArg Prod.snd h'⟩
  · rintro ⟨h1, h2⟩
    rw [h1, h2]

theorem UtxoEntry.trichotomy (a b : UtxoEntry) :
    a.lt b = true ∨ b.lt a = true ∨ a.eq b = true := by
  rw [UtxoEntry.lt_iff_lex, UtxoEntry.lt_iff_lex, UtxoEntry.eq_iff, ← UtxoEntry.lex_eq_iff]
  rcases lt_trichotomy (toLex (a.txId.data, a.vout)) (toLex (b.txId.data, b.vout)) with h | h | h
  · exact Or.inl h
  · exact Or.inr (Or.inr h)
  · exact Or.inr (Or.inl h)

theorem UtxoEntry.lt_asymm' {a b : UtxoEntry} (h : a.lt b = true) : ¬ b.lt a = true := by
  rw [UtxoEntry.lt_iff_lex] at h ⊢
  exact lt_asymm h

theorem UtxoEntry.not_eq_of_lt {a b : UtxoEntry} (h : a.lt b = true) : ¬ a.eq b = true := by
  rw [UtxoEntry.lt_iff_lex] at h
  rw [UtxoEntry.eq_iff, ← UtxoEntry.lex_eq_iff]
  exact ne_of_lt h

theorem mem_setInsert (x z : UtxoEntry) (s : List UtxoEntry) (h : z ∈ setInsert x s) :
    z = x ∨ z ∈ s := by
  induction s with
  | nil => simpa [setInsert] using h
  | cons y ys ih =>
    simp only [setInsert] at h
    split_ifs at h
    · rcases List.mem_cons.1 h with h | h
      · exact Or.inl h
      · exact Or.inr h
    · rcases List.mem_cons.1 h with h | h
      · exact Or.inr (h ▸ List.mem_cons_self _ _)
      · rcases ih h with h | h
        · exact Or.inl h
        · exact Or.inr (List.mem_cons_of_mem _ h)
    · exact Or.inr h

theorem isSet_setInsert (x : UtxoEntry) (s : List UtxoEntry) (h : IsSet s) :
    IsSet (setInsert x s) := by
  unfold IsSet at h ⊢
  induction s with
  | nil => simp [setInsert]
  | cons y ys ih =>
    obtain ⟨hy, hys⟩ := List.pairwise_cons.1 h
    simp only [setInsert]
    split_ifs with h1 h2
    · refine List.Pairwise.cons ?_ h
      intro z hz
      rcases List.mem_cons.1 hz with rfl | hz
      · exact h1
      · exact UtxoEntry.lt_trans' h1 (hy z hz)
    · refine List.Pairwise.cons ?_ (ih hys)
      intro z hz
      rcases mem_setInsert x z ys hz with rfl | hz
      · exact h2
      · exact hy z hz
    · exact h

theorem isSet_setErase (x : UtxoEntry) (s : List UtxoEntry) (h : IsSet s) :
    IsSet (setErase x s) :=
  List.Pairwise.filter _ h

theorem isSet_distinct (s : List UtxoEntry) (h : IsSet s) :
    s.Pairwise (fun a b => ¬ SameOutpoint a b) := by
  refine List.Pairwise.imp ?_ h
  intro a b hab hs
  exact UtxoEntry.not_eq_of_lt hab ((UtxoEntry.eq_iff a b).2 hs)

/-! ## Facts about the order commands -/

section CommandFacts
variable {σ D : Type}

theorem Value.get_str_eq_some (v : Value) (s : String) (h : v.get_str = some s) :
    v = .str s := by
  cases v <;> simp [Value.get_str] at h
  rw [h]

theorem takeOrderChecked_calls (app : App σ) (s : σ) (id : Nat) (fromAddress toAddress : String)
    (dryrun : Bool) (statusCode : Error) (txDescr : Option TransactionDescr)
    (h : (takeOrderChecked app s id fromAddress toAddress dryrun statusCode txDescr).calls
      ≠ []) :
    ∃ d, statusCode = .SUCCESS ∧ txDescr = some d ∧ dryrun = false ∧
      (takeOrderChecked app s id fromAddress toAddress dryrun statusCode txDescr).calls =
        [AppCall.acceptXBridgeTransaction id fromAddress toAddress] ∧
      (takeOrderChecked app s id fromAddress toAddress dryrun statusCode txDescr).descr =
        some (if (app.acceptXBridgeTransaction s id fromAddress toAddress (swapPair d)).1 =
            .SUCCESS
          then (app.acceptXBridgeTransaction s id fromAddress toAddress (swapPair d)).2.1
          else swapPair
            (app.acceptXBridgeTransaction s id fromAddress toAddress (swapPair d)).2.1) := by
  unfold takeOrderChecked at h ⊢
  split at h
  · split at h
    · simp at h
    · rename_i d
      dsimp only at h ⊢
      split_ifs at h with h1 h2 h3 h4 h5 h6 h7
      all_goals first
        | (exfalso; simp at h; done)
        | skip
      · refine ⟨d, rfl, rfl, by simpa using h6, ?_⟩
        simp [h1, h2, h3, h4, h5, h6, h7]
      · refine ⟨d, rfl, rfl, by simpa using h6, ?_⟩
        simp [h1, h2, h3, h4, h5, h6, h7]
  · simp at h
  · split at h <;> simp at h
  · simp at h
  · simp at h

theorem takeOrderParams_calls (app : App σ) (s : σ) (p0 p1 p2 : Value) (p3 : Option Value)
    (h : (takeOrderParams app s p0 p1 p2 p3).calls ≠ []) :
    ∃ idStr fromAddress toAddress, p0 = .str idStr ∧ p1 = .str fromAddress ∧
      p2 = .str toAddress ∧ p3 = none ∧
      takeOrderParams app s p0 p1 p2 p3 =
        takeOrderChecked app s (app.uint256S idStr) fromAddress toAddress false
          (app.checkAcceptParams s (app.uint256S idStr) fromAddress).1
          (app.checkAcceptParams s (app.uint256S idStr) fromAddress).2 := by
  unfold takeOrderParams at h ⊢
  split at h
  · rename_i idStr fromAddress toAddress h0 h1 h2
    have e0 := Value.get_str_eq_some _ _ h0
    have e1 := Value.get_str_eq_some _ _ h1
    have e2 := Value.get_str_eq_some _ _ h2
    subst e0 e1 e2
    dsimp only at h ⊢
    split_ifs at h with ha
    · simp at h
    · cases p3 with
      | none =>
        refine ⟨idStr, fromAddress, toAddress, rfl, rfl, rfl, rfl, ?_⟩
        simp [Value.get_str, ha]
      | some v =>
        exfalso
        dsimp only at h
        split at h
        · simp at h
        · split_ifs at h
          · simp at h
          · obtain ⟨_, _, _, hdry, _⟩ := takeOrderChecked_calls _ _ _ _ _ _ _ _ h
            cases hdry
  · simp at h

theorem dxTakeOrder_calls (app : App σ) (s : σ) (params : List Value)
    (h : (dxTakeOrder app s params).calls ≠ []) :
    ∃ idStr fromAddress toAddress, params = [.str idStr, .str fromAddress, .str toAddress] ∧
      dxTakeOrder app s params =
        takeOrderChecked app s (app.uint256S idStr) fromAddress toAddress false
          (app.checkAcceptParams s (app.uint256S idStr) fromAddress).1
          (app.checkAcceptParams s (app.uint256S idStr) fromAddress).2 := by
  unfold dxTakeOrder at h ⊢
  split at h
  · obtain ⟨i, f, t, rfl, rfl, rfl, _, he⟩ := takeOrderParams_calls _ _ _ _ _ _ h
    exact ⟨i, f, t, rfl, he⟩
  · obtain ⟨i, f, t, _, _, _, hn, _⟩ := takeOrderParams_calls _ _ _ _ _ _ h
    cases hn
  · simp at h

end CommandFacts

/-! ## Facts about `std::max_element`, `std::min_element` and detail level 1 -/

theorem foldl_max_spec {α : Type} (comp : α → α → Bool) (P : α → Prop)
    (hirr : ∀ a, P a → comp a a = false)
    (htr : ∀ a b c, P a → P b → P c → comp a b = true → comp b c = true → comp a c = true)
    (xs : List α) :
    ∀ (x : α) (seen : List α), P x → (∀ y ∈ xs, P y) → (∀ y ∈ seen, P y) → x ∈ seen →
      (∀ y ∈ seen, comp x y = false) →
      (xs.foldl (fun largest it => if comp largest it then it else largest) x ∈ seen ++ xs) ∧
      ∀ y ∈ seen ++ xs,
        comp (xs.foldl (fun largest it => if comp largest it then it else largest) x) y
          = false := by
  induction xs with
  | nil =>
    intro x seen _ _ _ hx hmax
    simpa using ⟨hx, hmax⟩
  | cons z zs ih =>
    intro x seen hPx hPxs hPseen hx hmax
    have hPz : P z := hPxs z (List.mem_cons_self _ _)
    have hPzs : ∀ y ∈ zs, P y := fun y hy => hPxs y (List.mem_cons_of_mem _ hy)
    have hPseen' : ∀ y ∈ seen ++ [z], P y := by
      intro y hy
      rcases List.mem_append.1 hy with hy | hy
      · exact hPseen y hy
      · rw [List.mem_singleton.1 hy]; exact hPz
    rw [List.foldl_cons]
    have key : ∀ x', P x' → x' ∈ seen ++ [z] → (∀ y ∈ seen ++ [z], comp x' y = false) →
        (zs.foldl (fun largest it => if comp largest it then it else largest) x' ∈
          seen ++ z :: zs) ∧
        ∀ y ∈ seen ++ z :: zs,
          comp (zs.foldl (fun largest it => if comp largest it then it else largest) x') y
            = false := by
      intro x' hPx' hx' hmax'
      have := ih x' (seen ++ [z]) hPx' hPzs hPseen' hx' hmax'
      simpa [List.append_assoc] using this
    by_cases hc : comp x z = true
    · rw [if_pos hc]
      refine key z hPz (by simp) ?_
      intro y hy
      rcases List.mem_append.1 hy with hy | hy
      · cases hzy : comp z y
        · rfl
        · have := htr x z y hPx hPz (hPseen y hy) hc hzy
          rw [hmax y hy] at this
          cases this
      · rw [List.mem_singleton.1 hy]; exact hirr z hPz
    · rw [if_neg hc]
      refine key x hPx (List.mem_append_left _ hx) ?_
      intro y hy
      rcases List.mem_append.1 hy with hy | hy
      · exact hmax y hy
      · rw [List.mem_singleton.1 hy]; simpa using hc

theorem foldl_min_spec {α : Type} (comp : α → α → Bool) (P : α → Prop)
    (hirr : ∀ a, P a → comp a a = false)
    (htr : ∀ a b c, P a → P b → P c → comp a b = true → comp b c = true → comp a c = true)
    (xs : List α) :
    ∀ (x : α) (seen : List α), P x → (∀ y ∈ xs, P y) → (∀ y ∈ seen, P y) → x ∈ seen →
      (∀ y ∈ seen, comp y x = false) →
      (xs.foldl (fun smallest it => if comp it smallest then it else smallest) x ∈
        seen ++ xs) ∧
      ∀ y ∈ seen ++ xs,
        comp y (xs.foldl (fun smallest it => if comp it smallest then it else smallest) x)
          = false := by
  induction xs with
  | nil =>
    intro x seen _ _ _ hx hmin
    simpa using ⟨hx, hmin⟩
  | cons z zs ih =>
    intro x seen hPx hPxs hPseen hx hmin
    have hPz : P z := hPxs z (List.mem_cons_self _ _)
    have hPzs : ∀ y ∈ zs, P y := fun y hy => hPxs y (List.mem_cons_of_mem _ hy)
    have hPseen' : ∀ y ∈ seen ++ [z], P y := by
      intro y hy
      rcases List.mem_append.1 hy with hy | hy
      · exact hPseen y hy
      · rw [List.mem_singleton.1 hy]; exact hPz
    rw [List.foldl_cons]
    have key : ∀ x', P x' → x' ∈ seen ++ [z] → (∀ y ∈ seen ++ [z], comp y x' = false) →
        (zs.foldl (fun smallest it => if comp it smallest then it else smallest) x' ∈
          seen ++ z :: zs) ∧
        ∀ y ∈ seen ++ z :: zs,
          comp y (zs.foldl (fun smallest it => if comp it smallest then it else smallest) x')
            = false := by
      intro x' hPx' hx' hmin'
      have := ih x' (seen ++ [z]) hPx' hPzs hPseen' hx' hmin'
      simpa [List.append_assoc] using this
    by_cases hc : comp z x = true
    · rw [if_pos hc]
      refine key z hPz (by simp) ?_
      intro y hy
      rcases List.mem_append.1 hy with hy | hy
      · cases hyz : comp y z
        · rfl
        · have := htr y z x (hPseen y hy) hPz hPx hyz hc
          rw [hmin y hy] at this
          cases this
      · rw [List.mem_singleton.1 hy]; exact hirr z hPz
    · rw [if_neg hc]
      refine key x hPx (List.mem_append_left _ hx) ?_
      intro y hy
      rcases List.mem_append.1 hy with hy | hy
      · exact hmin y hy
      · rw [List.mem_singleton.1 hy]; simpa using hc

theorem maxElement_spec {α : Type} (comp : α → α → Bool) (P : α → Prop)
    (hirr : ∀ a, P a → comp a a = false)
    (htr : ∀ a b c, P a → P b → P c → comp a b = true → comp b c = true → comp a c = true)
    (l : List α) (hP : ∀ y ∈ l, P y) (hne : l ≠ []) :
    ∃ m, maxElement comp l = some m ∧ m ∈ l ∧ ∀ y ∈ l, comp m y = false := by
  cases l with
  | nil => exact absurd rfl hne
  | cons x xs =>
    have h := foldl_max_spec comp P hirr htr xs x [x] (hP x (List.mem_cons_self _ _))
      (fun y hy => hP y (List.mem_cons_of_mem _ hy))
      (fun y hy => by rw [List.mem_singleton.1 hy]; exact hP x (List.mem_cons_self _ _))
      (List.mem_singleton_self x)
      (fun y hy => by
        rw [List.mem_singleton.1 hy]; exact hirr x (hP x (List.mem_cons_self _ _)))
    exact ⟨_, rfl, by simpa using h.1, by simpa using h.2⟩

theorem minElement_spec {α : Type} (comp : α → α → Bool) (P : α → Prop)
    (hirr : ∀ a, P a → comp a a = false)
    (htr : ∀ a b c, P a → P b → P c → comp a b = true → comp b c = true → comp a c = true)
    (l : List α) (hP : ∀ y ∈ l, P y) (hne : l ≠ []) :
    ∃ m, minElement comp l = some m ∧ m ∈ l ∧ ∀ y ∈ l, comp y m = false := by
  cases l with
  | nil => exact absurd rfl hne
  | cons x xs =>
    have h := foldl_min_spec comp P hirr htr xs x [x] (hP x (List.mem_cons_self _ _))
      (fun y hy => hP y (List.mem_cons_of_mem _ hy))
      (fun y hy => by rw [List.mem_singleton.1 hy]; exact hP x (List.mem_cons_self _ _))
      (List.mem_singleton_self x)
      (fun y hy => by
        rw [List.mem_singleton.1 hy]; exact hirr x (hP x (List.mem_cons_self _ _)))
    exact ⟨_, rfl, by simpa using h.1, by simpa using h.2⟩

section BookFacts
variable {σ D : Type}

theorem isBidEntry_some (app : App σ) (maker taker : String) (k : Nat) (d : TransactionDescr) :
    isBidEntry app maker taker (k, some d) =
      decide (0 < d.fromAmount ∧ 0 < d.toAmount ∧ d.state = app.trPending ∧
        d.fromCurrency = taker ∧ d.toCurrency = maker) := by
  unfold isBidEntry
  by_cases h1 : d.fromAmount ≤ 0 ∨ d.toAmount ≤ 0
  · have : ¬ (0 < d.fromAmount ∧ 0 < d.toAmount) := by omega
    simp only [h1, if_true]
    symm
    rw [decide_eq_false_iff_not]
    exact fun h => this ⟨h.1, h.2.1⟩
  · have hpos : 0 < d.fromAmount ∧ 0 < d.toAmount := by omega
    have hf : ¬ d.fromAmount = 0 := by omega
    have ht : ¬ d.toAmount = 0 := by omega
    by_cases h2 : d.state = app.trPending
    · simp [h1, h2, hpos.1, hpos.2, hf, ht, Bool.and_comm]
    · simp [h1, h2]

theorem isAskEntry_some (app : App σ) (maker taker : String) (k : Nat) (d : TransactionDescr) :
    isAskEntry app maker taker (k, some d) =
      decide (0 < d.fromAmount ∧ 0 < d.toAmount ∧ d.state = app.trPending ∧
        d.fromCurrency = maker ∧ d.toCurrency = taker) := by
  unfold isAskEntry
  by_cases h1 : d.fromAmount ≤ 0 ∨ d.toAmount ≤ 0
  · have : ¬ (0 < d.fromAmount ∧ 0 < d.toAmount) := by omega
    simp only [h1, if_true]
    symm
    rw [decide_eq_false_iff_not]
    exact fun h => this ⟨h.1, h.2.1⟩
  · have hpos : 0 < d.fromAmount ∧ 0 < d.toAmount := by omega
    have hf : ¬ d.fromAmount = 0 := by omega
    have ht : ¬ d.toAmount = 0 := by omega
    by_cases h2 : d.state = app.trPending
    · simp [h1, h2, hpos.1, hpos.2, hf, ht, Bool.and_comm]
    · simp [h1, h2]

theorem bidsList_filterMap (app : App σ) (trList : List (Nat × Option TransactionDescr))
    (maker taker : String) :
    (trList.filter (isBidEntry app maker taker)).filterMap Prod.snd =
      bidOrders app trList maker taker := by
  unfold bidOrders
  induction trList with
  | nil => rfl
  | cons a l ih =>
    obtain ⟨k, ptr⟩ := a
    cases ptr with
    | none =>
      have : isBidEntry app maker taker (k, none) = false := rfl
      simp only [List.filter_cons, this, Bool.false_eq_true, if_false, List.filterMap_cons, ih]
    | some d =>
      rw [List.filter_cons, isBidEntry_some]
      simp only [List.filterMap_cons]
      by_cases hc : 0 < d.fromAmount ∧ 0 < d.toAmount ∧ d.state = app.trPending ∧
          d.fromCurrency = taker ∧ d.toCurrency = maker
      · simp only [hc, and_self, decide_True, if_true, List.filterMap_cons, List.filter_cons, ih]
      · simp only [hc, decide_False, Bool.false_eq_true, if_false, List.filter_cons, ih]

theorem asksList_filterMap (app : App σ) (trList : List (Nat × Option TransactionDescr))
    (maker taker : String) :
    (trList.filter (isAskEntry app maker taker)).filterMap Prod.snd =
      askOrders app trList maker taker := by
  unfold askOrders
  induction trList with
  | nil => rfl
  | cons a l ih =>
    obtain ⟨k, ptr⟩ := a
    cases ptr with
    | none =>
      have : isAskEntry app maker taker (k, none) = false := rfl
      simp only [List.filter_cons, this, Bool.false_eq_true, if_false, List.filterMap_cons, ih]
    | some d =>
      rw [List.filter_cons, isAskEntry_some]
      simp only [List.filterMap_cons]
      by_cases hc : 0 < d.fromAmount ∧ 0 < d.toAmount ∧ d.state = app.trPending ∧
          d.fromCurrency = maker ∧ d.toCurrency = taker
      · simp only [hc, and_self, decide_True, if_true, List.filterMap_cons, List.filter_cons, ih]
      · simp only [hc, decide_False, Bool.false_eq_true, if_false, List.filter_cons, ih]

theorem bidsList_some (app : App σ) (trList : List (Nat × Option TransactionDescr))
    (maker taker : String) (a : Nat × Option TransactionDescr)
    (h : a ∈ trList.filter (isBidEntry app maker taker)) : ∃ d, a.2 = some d := by
  obtain ⟨k, ptr⟩ := a
  cases ptr with
  | none =>
    have := (List.mem_filter.1 h).2
    simp [isBidEntry] at this
  | some d => exact ⟨d, rfl⟩

theorem asksList_some (app : App σ) (trList : List (Nat × Option TransactionDescr))
    (maker taker : String) (a : Nat × Option TransactionDescr)
    (h : a ∈ trList.filter (isAskEntry app maker taker)) : ∃ d, a.2 = some d := by
  obtain ⟨k, ptr⟩ := a
  cases ptr with
  | none =>
    have := (List.mem_filter.1 h).2
    simp [isAskEntry] at this
  | some d => exact ⟨d, rfl⟩

theorem bidLess_some (ops : DoubleOps D) (a b : Nat × Option TransactionDescr)
    (ha : ∃ d, a.2 = some d) (hb : ∃ d, b.2 = some d) :
    bidLess ops a b = ops.lt (ops.priceBid a.2) (ops.priceBid b.2) := by
  obtain ⟨d, hd⟩ := ha
  obtain ⟨d', hd'⟩ := hb
  simp [bidLess, hd, hd']

theorem askLess_some (ops : DoubleOps D) (a b : Nat × Option TransactionDescr)
    (ha : ∃ d, a.2 = some d) (hb : ∃ d, b.2 = some d) :
    askLess ops a b = ops.lt (ops.price a.2) (ops.price b.2) := by
  obtain ⟨d, hd⟩ := ha
  obtain ⟨d', hd'⟩ := hb
  simp [askLess, hd, hd']

theorem countAtPrice_eq (ops : DoubleOps D) (quote : Option TransactionDescr → D) (best : D)
    (list : List (Nat × Option TransactionDescr)) :
    countAtPrice ops quote best list =
      ((list.filterMap Prod.snd).filter
        (fun o => floatCompare ops (quote (some o)) best)).length := by
  unfold countAtPrice
  induction list with
  | nil => rfl
  | cons a l ih =>
    obtain ⟨k, ptr⟩ := a
    cases ptr with
    | none => simpa [List.filter_cons] using ih
    | some d =>
      simp only [List.filter_cons, List.filterMap_cons]
      by_cases hc : floatCompare ops (quote (some d)) best = true
      · simp only [hc, if_true, List.length_cons, ih]
      · simp only [hc, Bool.false_eq_true, if_false, ih]

/-- Detail level 1 on the bid side, in terms of the bids of the pair. -/
theorem level1Bids_spec (ops : DoubleOps D) (app : App σ)
    (hirr : ∀ a, ops.lt a a = false)
    (htr : ∀ a b c, ops.lt a b = true → ops.lt b c = true → ops.lt a c = true)
    (trList : List (Nat × Option TransactionDescr)) (maker taker : String) :
    (bidOrders app trList maker taker = [] →
      level1Bids ops (trList.filter (isBidEntry app maker taker)) = []) ∧
    (bidOrders app trList maker taker ≠ [] →
      ∃ best ∈ bidOrders app trList maker taker,
        (∀ o ∈ bidOrders app trList maker taker,
          ops.lt (ops.priceBid (some best)) (ops.priceBid (some o)) = false) ∧
        level1Bids ops (trList.filter (isBidEntry app maker taker)) =
          [.counted (ops.priceBid (some best)) best.toAmount
            ((bidOrders app trList maker taker).filter (fun o =>
              floatCompare ops (ops.priceBid (some o)) (ops.priceBid (some best)))).length]) := by
  have hfm := bidsList_filterMap app trList maker taker
  have hsome := bidsList_some app trList maker taker
  generalize trList.filter (isBidEntry app maker taker) = bidsList at hfm hsome
  by_cases hne : bidsList = []
  · subst hne
    have hbo : bidOrders app trList maker taker = [] := by rw [← hfm]; rfl
    exact ⟨fun _ => rfl, fun h => absurd hbo h⟩
  · obtain ⟨m, hmax, hmem, hbest⟩ := maxElement_spec (bidLess ops) (fun a => ∃ d, a.2 = some d)
      (fun a ha => by rw [bidLess_some ops a a ha ha]; exact hirr _)
      (fun a b c ha hb hc => by
        rw [bidLess_some ops a b ha hb, bidLess_some ops b c hb hc, bidLess_some ops a c ha hc]
        exact htr _ _ _)
      bidsList hsome hne
    obtain ⟨tr, htr'⟩ := hsome m hmem
    have hin : tr ∈ bidOrders app trList maker taker := by
      rw [← hfm]
      exact List.mem_filterMap.2 ⟨m, hmem, htr'⟩
    have hlevel : level1Bids ops bidsList =
        [.counted (ops.priceBid (some tr)) tr.toAmount
          ((bidOrders app trList maker taker).filter (fun o =>
            floatCompare ops (ops.priceBid (some o)) (ops.priceBid (some tr)))).length] := by
      unfold level1Bids
      rw [hmax]
      simp only [htr']
      rw [countAtPrice_eq, hfm]
    refine ⟨fun h => ?_, fun _ => ⟨tr, hin, ?_, hlevel⟩⟩
    · rw [h] at hin; cases hin
    · intro o ho
      rw [← hfm] at ho
      obtain ⟨a, ha, hao⟩ := List.mem_filterMap.1 ho
      have := hbest a ha
      rw [bidLess_some ops m a ⟨tr, htr'⟩ ⟨o, hao⟩, htr'] at this
      rw [← hao]
      simpa using this

/-- Detail level 1 on the ask side, in terms of the asks of the pair. -/
theorem level1Asks_spec (ops : DoubleOps D) (app : App σ)
    (hirr : ∀ a, ops.lt a a = false)
    (htr : ∀ a b c, ops.lt a b = true → ops.lt b c = true → ops.lt a c = true)
    (trList : List (Nat × Option TransactionDescr)) (maker taker : String) :
    (askOrders app trList maker taker = [] →
      level1Asks ops (trList.filter (isAskEntry app maker taker)) = []) ∧
    (askOrders app trList maker taker ≠ [] →
      ∃ best ∈ askOrders app trList maker taker,
        (∀ o ∈ askOrders app trList maker taker,
          ops.lt (ops.price (some o)) (ops.price (some best)) = false) ∧
        level1Asks ops (trList.filter (isAskEntry app maker taker)) =
          [.counted (ops.price (some best)) best.fromAmount
            ((askOrders app trList maker taker).filter (fun o =>
              floatCompare ops (ops.price (some o)) (ops.price (some best)))).length]) := by
  have hfm := asksList_filterMap app trList maker taker
  have hsome := asksList_some app trList maker taker
  generalize trList.filter (isAskEntry app maker taker) = asksList at hfm hsome
  by_cases hne : asksList = []
  · subst hne
    have hbo : askOrders app trList maker taker = [] := by rw [← hfm]; rfl
    exact ⟨fun _ => rfl, fun h => absurd hbo h⟩
  · obtain ⟨m, hmin, hmem, hbest⟩ := minElement_spec (askLess ops) (fun a => ∃ d, a.2 = some d)
      (fun a ha => by rw [askLess_some ops a a ha ha]; exact hirr _)
      (fun a b c ha hb hc => by
        rw [askLess_some ops a b ha hb, askLess_some ops b c hb hc, askLess_some ops a c ha hc]
        exact htr _ _ _)
      asksList hsome hne
    obtain ⟨tr, htr'⟩ := hsome m hmem
    have hin : tr ∈ askOrders app trList maker taker := by
      rw [← hfm]
      exact List.mem_filterMap.2 ⟨m, hmem, htr'⟩
    have hlevel : level1Asks ops asksList =
        [.counted (ops.price (some tr)) tr.fromAmount
          ((askOrders app trList maker taker).filter (fun o =>
            floatCompare ops (ops.price (some o)) (ops.price (some tr)))).length] := by
      unfold level1Asks
      rw [hmin]
      simp only [htr']
      rw [countAtPrice_eq, hfm]
    refine ⟨fun h => ?_, fun _ => ⟨tr, hin, ?_, hlevel⟩⟩
    · rw [h] at hin; cases hin
    · intro o ho
      rw [← hfm] at ho
      obtain ⟨a, ha, hao⟩ := List.mem_filterMap.1 ho
      have := hbest a ha
      rw [askLess_some ops a m ⟨o, hao⟩ ⟨tr, htr'⟩, htr'] at this
      rw [← hao]
      simpa using this

end BookFacts

theorem orderBook_level1 {σ D : Type} (ops : DoubleOps D) (app : App σ)
    (sort : (Option TransactionDescr → Option TransactionDescr → Bool) →
      List (Option TransactionDescr) → List (Option TransactionDescr))
    (trList : List (Nat × Option TransactionDescr)) (maker taker : String) (maxOrders : Nat) :
    orderBook ops app sort trList 1 maker taker maxOrders =
      .book 1 maker taker (level1Asks ops (trList.filter (isAskEntry app maker taker)))
        (level1Bids ops (trList.filter (isBidEntry app maker taker))) := by
  unfold orderBook
  cases trList with
  | nil => simp [level1Asks, level1Bids, maxElement, minElement]
  | cons a l => simp

theorem le_sizeAtPrice {D : Type} (ops : DoubleOps D) (quote : Option TransactionDescr → D)
    (size : TransactionDescr → Nat) (l : List TransactionDescr) (best : TransactionDescr)
    (hmem : best ∈ l) (hrefl : floatCompare ops (quote (some best)) (quote (some best)) = true) :
    size best ≤ sizeAtPrice ops quote size (quote (some best)) l := by
  unfold sizeAtPrice
  apply List.single_le_sum (fun _ _ => Nat.zero_le _)
  exact List.mem_map.2 ⟨best, List.mem_filter.2 ⟨hmem, hrefl⟩, rfl⟩

/-! ## Facts about `std::sort` and detail levels 2 and 3 -/

theorem toInt32_of_lt (n : Int) (h0 : 0 ≤ n) (h1 : n < 2 ^ 31) : toInt32 n = n := by
  unfold toInt32
  norm_num at h1 ⊢
  omega

theorem toSizeT_of_lt (n : Int) (h0 : 0 ≤ n) (h1 : n < 2 ^ 31) : toSizeT n = n.toNat := by
  unfold toSizeT
  norm_num at h1 ⊢
  congr 1
  omega

theorem eq_map_some_of_forall_some {α : Type} (v : List (Option α))
    (h : ∀ x ∈ v, ∃ d, x = some d) : v = (v.filterMap id).map some := by
  induction v with
  | nil => rfl
  | cons x xs ih =>
    obtain ⟨d, rfl⟩ := h _ (List.mem_cons_self _ _)
    have := ih (fun y hy => h y (List.mem_cons_of_mem _ hy))
    simp only [List.filterMap_cons, id, List.map_cons]
    rw [← this]

theorem level3BidsFor_map_some {D : Type} (ops : DoubleOps D) (ds : List TransactionDescr)
    (bound : Nat) (hb : bound ≤ ds.length) :
    ∀ (fuel i : Nat), bound - i < fuel →
      level3BidsFor ops (ds.map some) bound fuel i =
        some (((ds.take bound).drop i).map (bidRow3 ops)) := by
  intro fuel
  induction fuel with
  | zero => intro i h; omega
  | succ fuel ih =>
    intro i h
    unfold level3BidsFor
    by_cases hi : i < bound
    · have hlt : i < ds.length := by omega
      have hget : (ds.map some)[i]? = some (some ds[i]) := by
        simp [List.getElem?_map, List.getElem?_eq_getElem hlt]
      have hlt' : i < (ds.take bound).length := by simp; omega
      have hdrop : (ds.take bound).drop i = ds[i] :: (ds.take bound).drop (i + 1) := by
        rw [List.drop_eq_getElem_cons hlt']
        simp [List.getElem_take]
      simp only [hi, not_true_eq_false, if_false, hget]
      rw [ih (i + 1) (by omega), hdrop]
      simp only [Option.map_some', List.map_cons, bidRow3]
    · have : (ds.take bound).drop i = [] := by
        apply List.drop_eq_nil_of_le
        simp; omega
      simp [hi, this]

theorem level3AsksFor_map_some {D : Type} (ops : DoubleOps D) (ds : List TransactionDescr) :
    ∀ (fuel j : Nat), ds.length - j < fuel →
      level3AsksFor ops (ds.map some) (ds.length : Int) fuel (j : Int) =
        some ((ds.drop j).map (askRow3 ops)) := by
  intro fuel
  induction fuel with
  | zero => intro j h; omega
  | succ fuel ih =>
    intro j h
    unfold level3AsksFor
    by_cases hj : j < ds.length
    · have hget : vecAt (ds.map some) (j : Int) = some (some ds[j]) := by
        simp [vecAt, List.getElem?_map, List.getElem?_eq_getElem hj]
      have hdrop : ds.drop j = ds[j] :: ds.drop (j + 1) := List.drop_eq_getElem_cons hj
      have hc : ((j : Int) < (ds.length : Int)) := by exact_mod_cast hj
      simp only [hc, not_true_eq_false, if_false, hget]
      have := ih (j + 1) (by omega)
      rw [Nat.cast_add, Nat.cast_one] at this
      rw [this, hdrop]
      simp only [Option.map_some', List.map_cons, askRow3]
    · have hc : ¬ ((j : Int) < (ds.length : Int)) := by
        intro hh; exact hj (by exact_mod_cast hh)
      have : ds.drop j = [] := List.drop_eq_nil_of_le (by omega)
      simp [hc, this]

theorem permVector_descr (l : List (Nat × Option TransactionDescr))
    (hsome : ∀ a ∈ l, ∃ d, a.2 = some d) (vec : List (Option TransactionDescr))
    (hperm : vec.Perm (l.map Prod.snd)) :
    ∃ ds : List TransactionDescr, vec = ds.map some ∧ ds.Perm (l.filterMap Prod.snd) := by
  have hall : ∀ x ∈ vec, ∃ d, x = some d := by
    intro x hx
    obtain ⟨a, ha, hax⟩ := List.mem_map.1 (hperm.mem_iff.1 hx)
    obtain ⟨d, hd⟩ := hsome a ha
    exact ⟨d, by rw [← hax, hd]⟩
  refine ⟨vec.filterMap id, eq_map_some_of_forall_some vec hall, ?_⟩
  have h1 := hperm.filterMap id
  rw [List.filterMap_map] at h1
  exact h1

theorem sortedVector_descr {D : Type} (quote : Option TransactionDescr → D)
    (lt : D → D → Bool) (l : List (Nat × Option TransactionDescr))
    (hsome : ∀ a ∈ l, ∃ d, a.2 = some d) (vec : List (Option TransactionDescr))
    (hs : IsSortOf (fun a b => lt (quote b) (quote a)) (l.map Prod.snd) vec) :
    ∃ ds : List TransactionDescr, vec = ds.map some ∧ ds.Perm (l.filterMap Prod.snd) ∧
      ds.Pairwise (fun a b => lt (quote (some a)) (quote (some b)) = false) := by
  obtain ⟨hperm, hpw⟩ := hs
  have hall : ∀ x ∈ vec, ∃ d, x = some d := by
    intro x hx
    obtain ⟨a, ha, hax⟩ := List.mem_map.1 (hperm.mem_iff.1 hx)
    obtain ⟨d, hd⟩ := hsome a ha
    exact ⟨d, by rw [← hax, hd]⟩
  have hvec := eq_map_some_of_forall_some vec hall
  refine ⟨vec.filterMap id, hvec, ?_, ?_⟩
  · have h1 := hperm.filterMap id
    rw [List.filterMap_map] at h1
    exact h1
  · rw [hvec, List.pairwise_map] at hpw
    exact hpw

theorem orderBook_level3 {σ D : Type} (ops : DoubleOps D) (app : App σ)
    (sort : (Option TransactionDescr → Option TransactionDescr → Bool) →
      List (Option TransactionDescr) → List (Option TransactionDescr))
    (trList : List (Nat × Option TransactionDescr)) (maker taker : String) (maxOrders : Nat)
    (hm : maxOrders < 2 ^ 31) (hlen : trList.length < 2 ^ 31)
    (sa sb : List TransactionDescr)
    (hpa : sa.Perm (askOrders app trList maker taker))
    (hpb : sb.Perm (bidOrders app trList maker taker))
    (hva : sort (fun a b => ops.lt (ops.price b) (ops.price a))
      ((trList.filter (isAskEntry app maker taker)).map Prod.snd) = sa.map some)
    (hvb : sort (fun a b => ops.lt (ops.priceBid b) (ops.priceBid a))
      ((trList.filter (isBidEntry app maker taker)).map Prod.snd) = sb.map some) :
    orderBook ops app sort trList 3 maker taker maxOrders =
      .book 3 maker taker
        ((sa.drop (sa.length - min (max maxOrders 1) sa.length)).map (askRow3 ops))
        ((sb.take (min (max maxOrders 1) sb.length)).map (bidRow3 ops)) := by
  have hla : sa.length ≤ trList.length := by
    rw [hpa.length_eq, ← asksList_filterMap]
    exact le_trans (List.length_filterMap_le _ _) (List.length_filter_le _ _)
  have hlb : sb.length ≤ trList.length := by
    rw [hpb.length_eq, ← bidsList_filterMap]
    exact le_trans (List.length_filterMap_le _ _) (List.length_filter_le _ _)
  unfold orderBook
  by_cases hnil : trList = []
  · subst hnil
    have ha : sa = [] := by simpa [askOrders] using hpa
    have hb : sb = [] := by simpa [bidOrders] using hpb
    subst ha; subst hb
    simp
  · have hne : trList.isEmpty = false := by
      cases trList with
      | nil => exact absurd rfl hnil
      | cons _ _ => rfl
    have hM : (if maxOrders < 1 then 1 else maxOrders) = max maxOrders 1 := by
      split_ifs <;> omega
    have h31 : (2 : Int) ^ 31 = 2147483648 := by norm_num
    have h31n : (2 : Nat) ^ 31 = 2147483648 := by norm_num
    have hMi : toInt32 ((max maxOrders 1 : Nat) : Int) = ((max maxOrders 1 : Nat) : Int) :=
      toInt32_of_lt _ (by omega) (by omega)
    have hai : toInt32 ((sa.length : Nat) : Int) = (sa.length : Int) :=
      toInt32_of_lt _ (by omega) (by omega)
    have hbi : toInt32 ((sb.length : Nat) : Int) = (sb.length : Int) :=
      toInt32_of_lt _ (by omega) (by omega)
    have hminb : min ((max maxOrders 1 : Nat) : Int) (sb.length : Int) =
        ((min (max maxOrders 1) sb.length : Nat) : Int) := by omega
    have hmina : min ((max maxOrders 1 : Nat) : Int) (sa.length : Int) =
        ((min (max maxOrders 1) sa.length : Nat) : Int) := by omega
    have hsz : toSizeT ((min (max maxOrders 1) sb.length : Nat) : Int) =
        min (max maxOrders 1) sb.length := by
      rw [toSizeT_of_lt _ (by omega) (by omega)]; omega
    have hstart : (sa.length : Int) - ((min (max maxOrders 1) sa.length : Nat) : Int) =
        ((sa.length - min (max maxOrders 1) sa.length : Nat) : Int) := by omega
    have hbids := level3BidsFor_map_some ops sb (min (max maxOrders 1) sb.length)
      (Nat.min_le_right _ _) (sb.length + 1) 0 (by omega)
    have hasks := level3AsksFor_map_some ops sa (sa.length + 1)
      (sa.length - min (max maxOrders 1) sa.length) (by omega)
    have h3 : ¬ ((3 : Int) < 1 ∨ (3 : Int) > 4) := by omega
    have h3a : ¬ ((3 : Int) = 1) := by omega
    have h3b : ¬ ((3 : Int) = 2) := by omega
    simp only [hne, h3, h3a, h3b, if_false, Bool.false_eq_true]
    rw [if_pos trivial, hva, hvb, hM]
    simp only [List.length_map]
    rw [hMi, hai, hbi, hminb, hmina, hsz, hstart, hbids, hasks]
    rfl

theorem level2BidsWhile_map_some {D : Type} (ops : DoubleOps D) (ds : List TransactionDescr)
    (bound : Nat) (hb : bound ≤ ds.length) (bidPrice : D) :
    ∀ (fuel i bidSize : Nat), bound - i < fuel →
      ∃ j size, level2BidsWhile ops (ds.map some) bound bidPrice fuel i bidSize =
        some (j, size) ∧ i < j := by
  intro fuel
  induction fuel with
  | zero => intro i _ h; omega
  | succ fuel ih =>
    intro i bidSize h
    unfold level2BidsWhile
    by_cases hi : i + 1 < bound
    · have hlt : i + 1 < ds.length := by omega
      have hget : (ds.map some)[i + 1]? = some (some ds[i + 1]) := by
        simp [List.getElem?_map, List.getElem?_eq_getElem hlt]
      simp only [hi, not_true_eq_false, if_false, hget]
      by_cases hc : floatCompare ops (ops.priceBid (some ds[i + 1])) bidPrice = true
      · simp only [hc, if_true]
        obtain ⟨j, size, hj, hij⟩ := ih (i + 1) ((bidSize + ds[i + 1].toAmount) % 2 ^ 64)
          (by omega)
        exact ⟨j, size, hj, by omega⟩
      · simp only [hc, Bool.false_eq_true, if_false]
        exact ⟨i + 1, bidSize, rfl, by omega⟩
    · simp only [hi, not_false_eq_true, if_true]
      exact ⟨i + 1, bidSize, rfl, by omega⟩

theorem level2BidsFor_map_some {D : Type} (ops : DoubleOps D)
    (bidsList : List (Nat × Option TransactionDescr)) (ds : List TransactionDescr)
    (bound : Nat) (hb : bound ≤ ds.length) :
    ∀ (fuel i : Nat), bound - i < fuel →
      ∃ rows, level2BidsFor ops bidsList (ds.map some) bound fuel i = some rows ∧
        rows.length ≤ bound - i := by
  intro fuel
  induction fuel with
  | zero => intro i h; omega
  | succ fuel ih =>
    intro i h
    unfold level2BidsFor
    by_cases hi : i < bound
    · have hlt : i < ds.length := by omega
      have hget : (ds.map some)[i]? = some (some ds[i]) := by
        simp [List.getElem?_map, List.getElem?_eq_getElem hlt]
      obtain ⟨j, size, hw, hij⟩ := level2BidsWhile_map_some ops ds bound hb
        (ops.priceBid (some ds[i])) ((ds.map some).length + 1) i ds[i].toAmount
        (by simp; omega)
      obtain ⟨rows, hrows, hlen⟩ := ih (j + 1) (by omega)
      simp only [hi, not_true_eq_false, if_false, hget, hw, hrows, Option.map_some']
      exact ⟨_, rfl, by simp; omega⟩
    · simp only [hi, not_false_eq_true, if_true]
      exact ⟨[], rfl, by simp⟩

theorem level2AsksWhile_map_some {D : Type} (ops : DoubleOps D) (ds : List TransactionDescr)
    (bound : Nat) (hb : bound ≤ ds.length) (askPrice : D) :
    ∀ (fuel i askSize : Nat), bound - i < fuel →
      ∃ (j : Nat) (size : Nat),
        level2AsksWhile ops (ds.map some) (bound : Int) askPrice fuel (i : Int) askSize =
          some ((j : Int), size) ∧ i < j := by
  intro fuel
  induction fuel with
  | zero => intro i _ h; omega
  | succ fuel ih =>
    intro i askSize h
    unfold level2AsksWhile
    by_cases hi : i + 1 < bound
    · have hlt : i + 1 < ds.length := by omega
      have hget : vecAt (ds.map some) ((i : Int) + 1) = some (some ds[i + 1]) := by
        have h0 : (0 : Int) ≤ (i : Int) + 1 := by omega
        have h1 : ((i : Int) + 1).toNat = i + 1 := by omega
        unfold vecAt
        rw [if_pos h0, h1]
        simp [List.getElem?_map, List.getElem?_eq_getElem hlt]
      have hc0 : ((i : Int) + 1 < (bound : Int)) := by exact_mod_cast hi
      simp only [hc0, not_true_eq_false, if_false, hget]
      by_cases hc : floatCompare ops (ops.price (some ds[i + 1])) askPrice = true
      · simp only [hc, if_true]
        have := ih (i + 1) ((askSize + ds[i + 1].fromAmount) % 2 ^ 64) (by omega)
        rw [Nat.cast_add, Nat.cast_one] at this
        obtain ⟨j, size, hj, hij⟩ := this
        exact ⟨j, size, hj, by omega⟩
      · simp only [hc, Bool.false_eq_true, if_false]
        exact ⟨i + 1, askSize, by push_cast; rfl, by omega⟩
    · have hc0 : ¬ ((i : Int) + 1 < (bound : Int)) := by
        intro hh; exact hi (by exact_mod_cast hh)
      simp only [hc0, not_false_eq_true, if_true]
      exact ⟨i + 1, askSize, by push_cast; rfl, by omega⟩

theorem level2AsksFor_map_some {D : Type} (ops : DoubleOps D)
    (asksList : List (Nat × Option TransactionDescr)) (ds : List TransactionDescr)
    (bound : Nat) (hb : bound ≤ ds.length) :
    ∀ (fuel i : Nat), ds.length - i < fuel →
      ∃ rows, level2AsksFor ops asksList (ds.map some) (bound : Int) (ds.length : Int) fuel
          (i : Int) = some rows ∧ rows.length ≤ ds.length - i := by
  intro fuel
  induction fuel with
  | zero => intro i h; omega
  | succ fuel ih =>
    intro i h
    unfold level2AsksFor
    by_cases hi : i < ds.length
    · have hget : vecAt (ds.map some) (i : Int) = some (some ds[i]) := by
        simp [vecAt, List.getElem?_map, List.getElem?_eq_getElem hi]
      have hc0 : ((i : Int) < (ds.length : Int)) := by exact_mod_cast hi
      obtain ⟨j, size, hw, hij⟩ := level2AsksWhile_map_some ops ds bound hb
        (ops.price (some ds[i])) ((ds.map some).length + 1) i ds[i].fromAmount
        (by simp; omega)
      have := ih (j + 1) (by omega)
      rw [Nat.cast_add, Nat.cast_one] at this
      obtain ⟨rows, hrows, hlen⟩ := this
      simp only [hc0, not_true_eq_false, if_false, hget, hw, hrows, Option.map_some']
      exact ⟨_, rfl, by simp; omega⟩
    · have hc0 : ¬ ((i : Int) < (ds.length : Int)) := by
        intro hh; exact hi (by exact_mod_cast hh)
      simp only [hc0, not_false_eq_true, if_true]
      exact ⟨[], rfl, by simp⟩

theorem orderBook_level2 {σ D : Type} (ops : DoubleOps D) (app : App σ)
    (sort : (Option TransactionDescr → Option TransactionDescr → Bool) →
      List (Option TransactionDescr) → List (Option TransactionDescr))
    (trList : List (Nat × Option TransactionDescr)) (maker taker : String) (maxOrders : Nat)
    (hm : maxOrders < 2 ^ 31) (hlen : trList.length < 2 ^ 31)
    (sa sb : List TransactionDescr)
    (hpa : sa.Perm (askOrders app trList maker taker))
    (hpb : sb.Perm (bidOrders app trList maker taker))
    (hva : sort (fun a b => ops.lt (ops.price b) (ops.price a))
      ((trList.filter (isAskEntry app maker taker)).map Prod.snd) = sa.map some)
    (hvb : sort (fun a b => ops.lt (ops.priceBid b) (ops.priceBid a))
      ((trList.filter (isBidEntry app maker taker)).map Prod.snd) = sb.map some) :
    ∃ asks bids, orderBook ops app sort trList 2 maker taker maxOrders =
        .book 2 maker taker asks bids ∧
      asks.length ≤ min (max maxOrders 1) sa.length ∧
      bids.length ≤ min (max maxOrders 1) sb.length := by
  have hla : sa.length ≤ trList.length := by
    rw [hpa.length_eq, ← asksList_filterMap]
    exact le_trans (List.length_filterMap_le _ _) (List.length_filter_le _ _)
  have hlb : sb.length ≤ trList.length := by
    rw [hpb.length_eq, ← bidsList_filterMap]
    exact le_trans (List.length_filterMap_le _ _) (List.length_filter_le _ _)
  unfold orderBook
  by_cases hnil : trList = []
  · subst hnil
    exact ⟨[], [], by simp, by simp, by simp⟩
  · have hne : trList.isEmpty = false := by
      cases trList with
      | nil => exact absurd rfl hnil
      | cons _ _ => rfl
    have hM : (if maxOrders < 1 then 1 else maxOrders) = max maxOrders 1 := by
      split_ifs <;> omega
    have h31 : (2 : Int) ^ 31 = 2147483648 := by norm_num
    have h31n : (2 : Nat) ^ 31 = 2147483648 := by norm_num
    have hMi : toInt32 ((max maxOrders 1 : Nat) : Int) = ((max maxOrders 1 : Nat) : Int) :=
      toInt32_of_lt _ (by omega) (by omega)
    have hai : toInt32 ((sa.length : Nat) : Int) = (sa.length : Int) :=
      toInt32_of_lt _ (by omega) (by omega)
    have hbi : toInt32 ((sb.length : Nat) : Int) = (sb.length : Int) :=
      toInt32_of_lt _ (by omega) (by omega)
    have hminb : min ((max maxOrders 1 : Nat) : Int) (sb.length : Int) =
        ((min (max maxOrders 1) sb.length : Nat) : Int) := by omega
    have hmina : min ((max maxOrders 1 : Nat) : Int) (sa.length : Int) =
        ((min (max maxOrders 1) sa.length : Nat) : Int) := by omega
    have hsz : toSizeT ((min (max maxOrders 1) sb.length : Nat) : Int) =
        min (max maxOrders 1) sb.length := by
      rw [toSizeT_of_lt _ (by omega) (by omega)]; omega
    have hstart : (sa.length : Int) - ((min (max maxOrders 1) sa.length : Nat) : Int) =
        ((sa.length - min (max maxOrders 1) sa.length : Nat) : Int) := by omega
    obtain ⟨bids, hbids, hbl⟩ := level2BidsFor_map_some ops
      (trList.filter (isBidEntry app maker taker)) sb (min (max maxOrders 1) sb.length)
      (Nat.min_le_right _ _) (sb.length + 1) 0 (by omega)
    obtain ⟨asks, hasks, hal⟩ := level2AsksFor_map_some ops
      (trList.filter (isAskEntry app maker taker)) sa (min (max maxOrders 1) sa.length)
      (Nat.min_le_right _ _) (sa.length + 1)
      (sa.length - min (max maxOrders 1) sa.length) (by omega)
    have h2 : ¬ ((2 : Int) < 1 ∨ (2 : Int) > 4) := by omega
    have h2a : ¬ ((2 : Int) = 1) := by omega
    refine ⟨asks, bids, ?_, by omega, by omega⟩
    simp only [hne, h2, h2a, if_false, Bool.false_eq_true]
    rw [if_pos trivial, hva, hvb, hM]
    simp only [List.length_map]
    rw [hMi, hai, hbi, hminb, hmina, hsz, hstart, hbids, hasks]
    rfl

theorem insertBy_perm {α : Type} (comp : α → α → Bool) (x : α) (l : List α) :
    (insertBy comp x l).Perm (x :: l) := by
  induction l with
  | nil => exact List.Perm.refl _
  | cons y ys ih =>
    unfold insertBy
    split_ifs
    · exact List.Perm.refl _
    · exact ((List.Perm.cons y ih).trans (List.Perm.swap x y ys))

theorem sortBy_perm {α : Type} (comp : α → α → Bool) (l : List α) :
    (sortBy comp l).Perm l := by
  induction l with
  | nil => exact List.Perm.refl _
  | cons x xs ih =>
    exact (insertBy_perm comp x (sortBy comp xs)).trans (List.Perm.cons x ih)

theorem insertBy_pairwise {α : Type} (comp : α → α → Bool)
    (hasym : ∀ a b, comp a b = true → comp b a = false)
    (htr : ∀ a b c, comp a b = true → comp b c = true → comp a c = true)
    (x : α) (l : List α) (hl : l.Pairwise (fun a b => comp b a = false)) :
    (insertBy comp x l).Pairwise (fun a b => comp b a = false) := by
  induction l with
  | nil => simp [insertBy]
  | cons y ys ih =>
    rw [List.pairwise_cons] at hl
    unfold insertBy
    by_cases hc : comp x y = true
    · rw [if_pos hc]
      refine List.pairwise_cons.2 ⟨?_, List.pairwise_cons.2 hl⟩
      intro z hz
      rcases List.mem_cons.1 hz with rfl | hz
      · exact hasym _ _ hc
      · cases hzx : comp z x
        · rfl
        · have := htr z x y hzx hc
          rw [hl.1 z hz] at this
          cases this
    · rw [if_neg hc]
      refine List.pairwise_cons.2 ⟨?_, ih hl.2⟩
      intro z hz
      rcases List.mem_cons.1 ((insertBy_perm comp x ys).mem_iff.1 hz) with rfl | hz
      · simpa using hc
      · exact hl.1 z hz

theorem sortBy_isSortOf {α : Type} (comp : α → α → Bool)
    (hasym : ∀ a b, comp a b = true → comp b a = false)
    (htr : ∀ a b c, comp a b = true → comp b c = true → comp a c = true)
    (l : List α) : IsSortOf comp l (sortBy comp l) := by
  refine ⟨sortBy_perm comp l, ?_⟩
  induction l with
  | nil => exact List.Pairwise.nil
  | cons x xs ih => exact insertBy_pairwise comp hasym htr x _ ih

theorem fixedOps_sorts (quote : Option TransactionDescr → Int)
    (l : List (Option TransactionDescr)) :
    IsSortOf (fun a b => fixedOps.lt (quote b) (quote a)) l
      (sortBy (fun a b => fixedOps.lt (quote b) (quote a)) l) := by
  apply sortBy_isSortOf
  · intro a b h
    simp only [fixedOps, decide_eq_true_eq, decide_eq_false_iff_not] at h ⊢
    omega
  · intro a b c h1 h2
    simp only [fixedOps, decide_eq_true_eq] at h1 h2 ⊢
    omega

/-! ## Facts about detail level 4 -/

theorem foldl_sel_mem {α : Type} (f : α → α → Bool) (xs : List α) :
    ∀ x : α, xs.foldl (fun acc it => if f acc it then it else acc) x ∈ x :: xs := by
  induction xs with
  | nil => intro x; simp
  | cons z zs ih =>
    intro x
    rw [List.foldl_cons]
    by_cases hc : f x z = true
    · rw [if_pos hc]
      exact List.mem_cons_of_mem _ (ih z)
    · rw [if_neg hc]
      rcases List.mem_cons.1 (ih x) with h | h
      · rw [h]; exact List.mem_cons_self _ _
      · exact List.mem_cons_of_mem _ (List.mem_cons_of_mem _ h)

theorem maxElement_mem {α : Type} (comp : α → α → Bool) (l : List α) (hne : l ≠ []) :
    ∃ m, maxElement comp l = some m ∧ m ∈ l := by
  cases l with
  | nil => exact absurd rfl hne
  | cons x xs => exact ⟨_, rfl, foldl_sel_mem comp xs x⟩

theorem minElement_mem {α : Type} (comp : α → α → Bool) (l : List α) (hne : l ≠ []) :
    ∃ m, minElement comp l = some m ∧ m ∈ l := by
  cases l with
  | nil => exact absurd rfl hne
  | cons x xs => exact ⟨_, rfl, foldl_sel_mem (fun a b => comp b a) xs x⟩

theorem floatCompare_comm {D : Type} (ops : DoubleOps D)
    (hsym : ∀ a b, ops.fabs (ops.sub a b) = ops.fabs (ops.sub b a)) (a b : D) :
    floatCompare ops a b = floatCompare ops b a := by
  unfold floatCompare
  rw [hsym a b, Bool.and_comm]

theorem otherIdsAtPrice_eq {D : Type} (ops : DoubleOps D)
    (hsym : ∀ a b, ops.fabs (ops.sub a b) = ops.fabs (ops.sub b a))
    (quote : Option TransactionDescr → D) (best : D) (tr : TransactionDescr)
    (list : List (Nat × Option TransactionDescr)) :
    otherIdsAtPrice ops quote best tr list =
      ((((list.filterMap Prod.snd).filter
        (fun o => floatCompare ops (quote (some o)) best)).map TransactionDescr.id).filter
          (fun i => decide (i ≠ tr.id))) := by
  unfold otherIdsAtPrice
  induction list with
  | nil => rfl
  | cons a l ih =>
    obtain ⟨k, ptr⟩ := a
    cases ptr with
    | none => simpa using ih
    | some d =>
      rw [List.filterMap_cons, ih]
      simp only [List.filterMap_cons, List.filter_cons, floatCompare_comm ops hsym best]
      by_cases hid : tr.id = d.id
      · by_cases hc : floatCompare ops (quote (some d)) best = true
        · simp [hid, hc]
        · simp [hid, hc]
      · have hid' : ¬ d.id = tr.id := fun h => hid h.symm
        by_cases hc : floatCompare ops (quote (some d)) best = true
        · simp [hid, hid', hc]
        · simp [hid, hid', hc]

theorem length_filter_ne_of_nodup (l : List Nat) (a : Nat) (hnd : l.Nodup) (ha : a ∈ l) :
    (l.filter (fun i => decide (i ≠ a))).length + 1 = l.length := by
  have hf : (fun i : Nat => decide (i ≠ a)) = (fun x => x != a) := by
    funext i
    by_cases h : i = a <;> simp [h]
  rw [hf, ← hnd.erase_eq_filter a, List.length_erase_of_mem ha]
  have : 0 < l.length := List.length_pos_of_mem ha
  omega

theorem level4_ids_spec {D : Type} (ops : DoubleOps D)
    (hsym : ∀ a b, ops.fabs (ops.sub a b) = ops.fabs (ops.sub b a))
    (quote : Option TransactionDescr → D) (tr : TransactionDescr)
    (list : List (Nat × Option TransactionDescr))
    (hnd : ((list.filterMap Prod.snd).map TransactionDescr.id).Nodup)
    (hmem : tr ∈ list.filterMap Prod.snd)
    (hrefl : floatCompare ops (quote (some tr)) (quote (some tr)) = true) :
    (tr.id :: otherIdsAtPrice ops quote (quote (some tr)) tr list).Nodup ∧
    (∀ i, i ∈ tr.id :: otherIdsAtPrice ops quote (quote (some tr)) tr list ↔
      ∃ o ∈ list.filterMap Prod.snd,
        floatCompare ops (quote (some o)) (quote (some tr)) = true ∧ o.id = i) ∧
    (tr.id :: otherIdsAtPrice ops quote (quote (some tr)) tr list).length =
      countAtPrice ops quote (quote (some tr)) list := by
  rw [otherIdsAtPrice_eq ops hsym, countAtPrice_eq]
  have hsub : (((list.filterMap Prod.snd).filter
      (fun o => floatCompare ops (quote (some o)) (quote (some tr)))).map
        TransactionDescr.id).Nodup :=
    hnd.sublist ((List.filter_sublist _).map _)
  have hin : tr.id ∈ ((list.filterMap Prod.snd).filter
      (fun o => floatCompare ops (quote (some o)) (quote (some tr)))).map
        TransactionDescr.id :=
    List.mem_map.2 ⟨tr, List.mem_filter.2 ⟨hmem, hrefl⟩, rfl⟩
  have hiff : ∀ i, i ∈ ((list.filterMap Prod.snd).filter
      (fun o => floatCompare ops (quote (some o)) (quote (some tr)))).map
        TransactionDescr.id ↔
      ∃ o ∈ list.filterMap Prod.snd,
        floatCompare ops (quote (some o)) (quote (some tr)) = true ∧ o.id = i := by
    intro i
    simp only [List.mem_map, List.mem_filter]
    constructor
    · rintro ⟨o, ⟨ho, hc⟩, hi⟩
      exact ⟨o, ho, hc, hi⟩
    · rintro ⟨o, ho, hc, hi⟩
      exact ⟨o, ⟨ho, hc⟩, hi⟩
  generalize ((list.filterMap Prod.snd).filter
      (fun o => floatCompare ops (quote (some o)) (quote (some tr)))) = atBest
    at hsub hin hiff ⊢
  refine ⟨?_, ?_, ?_⟩
  · refine List.nodup_cons.2 ⟨?_, hsub.sublist (List.filter_sublist _)⟩
    intro h
    have := (List.mem_filter.1 h).2
    simp at this
  · intro i
    constructor
    · intro h
      rcases List.mem_cons.1 h with rfl | h
      · exact (hiff _).1 hin
      · exact (hiff _).1 (List.mem_filter.1 h).1
    · intro h
      by_cases hi : i = tr.id
      · rw [hi]; exact List.mem_cons_self _ _
      · exact List.mem_cons_of_mem _ (List.mem_filter.2 ⟨(hiff _).2 h, by simpa using hi⟩)
  · rw [List.length_cons, length_filter_ne_of_nodup _ _ hsub hin, List.length_map]

theorem orderBook_level4 {σ D : Type} (ops : DoubleOps D) (app : App σ)
    (sort : (Option TransactionDescr → Option TransactionDescr → Bool) →
      List (Option TransactionDescr) → List (Option TransactionDescr))
    (trList : List (Nat × Option TransactionDescr)) (maker taker : String) (maxOrders : Nat) :
    orderBook ops app sort trList 4 maker taker maxOrders =
      .book 4 maker taker (level4Asks ops (trList.filter (isAskEntry app maker taker)))
        (level4Bids ops (trList.filter (isBidEntry app maker taker))) := by
  unfold orderBook
  cases trList with
  | nil => simp [level4Asks, level4Bids, maxElement, minElement]
  | cons a l => simp

theorem level4Bids_spec {σ D : Type} (ops : DoubleOps D) (app : App σ)
    (hsym : ∀ a b, ops.fabs (ops.sub a b) = ops.fabs (ops.sub b a))
    (trList : List (Nat × Option TransactionDescr)) (maker taker : String)
    (hnd : ((trList.filterMap Prod.snd).map TransactionDescr.id).Nodup)
    (hrefl : ∀ o ∈ bidOrders app trList maker taker,
      floatCompare ops (ops.priceBid (some o)) (ops.priceBid (some o)) = true) :
    (bidOrders app trList maker taker = [] →
      level1Bids ops (trList.filter (isBidEntry app maker taker)) = [] ∧
      level4Bids ops (trList.filter (isBidEntry app maker taker)) = []) ∧
    (bidOrders app trList maker taker ≠ [] →
      ∃ p size count ids,
        level1Bids ops (trList.filter (isBidEntry app maker taker)) = [.counted p size count] ∧
        level4Bids ops (trList.filter (isBidEntry app maker taker)) =
          [.price p, .size size, .ids ids] ∧
        ids.Nodup ∧
        (∀ i, i ∈ ids ↔ ∃ o ∈ bidOrders app trList maker taker,
          floatCompare ops (ops.priceBid (some o)) p = true ∧ o.id = i) ∧
        ids.length = count) := by
  have hfm := bidsList_filterMap app trList maker taker
  have hsome := bidsList_some app trList maker taker
  have hnd' : ((bidOrders app trList maker taker).map TransactionDescr.id).Nodup :=
    hnd.sublist ((List.filter_sublist _).map _)
  generalize trList.filter (isBidEntry app maker taker) = bidsList at hfm hsome
  by_cases hne : bidsList = []
  · subst hne
    have hbo : bidOrders app trList maker taker = [] := by rw [← hfm]; rfl
    exact ⟨fun _ => ⟨rfl, rfl⟩, fun h => absurd hbo h⟩
  · obtain ⟨m, hmax, hmem⟩ := maxElement_mem (bidLess ops) bidsList hne
    obtain ⟨tr, htr'⟩ := hsome m hmem
    have hin : tr ∈ bidsList.filterMap Prod.snd := List.mem_filterMap.2 ⟨m, hmem, htr'⟩
    have hin' : tr ∈ bidOrders app trList maker taker := by rw [← hfm]; exact hin
    constructor
    · intro h
      rw [h] at hin'
      cases hin'
    · intro _
      rw [← hfm] at hnd' hrefl
      obtain ⟨h1, h2, h3⟩ := level4_ids_spec ops hsym ops.priceBid tr bidsList hnd' hin
        (hrefl tr hin)
      refine ⟨ops.priceBid (some tr), tr.toAmount,
        countAtPrice ops ops.priceBid (ops.priceBid (some tr)) bidsList,
        tr.id :: otherIdsAtPrice ops ops.priceBid (ops.priceBid (some tr)) tr bidsList,
        ?_, ?_, h1, ?_, h3⟩
      · unfold level1Bids
        rw [hmax]
        simp only [htr']
      · unfold level4Bids
        rw [hmax]
        simp only [htr']
      · rw [← hfm]
        exact h2

theorem level4Asks_spec {σ D : Type} (ops : DoubleOps D) (app : App σ)
    (hsym : ∀ a b, ops.fabs (ops.sub a b) = ops.fabs (ops.sub b a))
    (trList : List (Nat × Option TransactionDescr)) (maker taker : String)
    (hnd : ((trList.filterMap Prod.snd).map TransactionDescr.id).Nodup)
    (hrefl : ∀ o ∈ askOrders app trList maker taker,
      floatCompare ops (ops.price (some o)) (ops.price (some o)) = true) :
    (askOrders app trList maker taker = [] →
      level1Asks ops (trList.filter (isAskEntry app maker taker)) = [] ∧
      level4Asks ops (trList.filter (isAskEntry app maker taker)) = []) ∧
    (askOrders app trList maker taker ≠ [] →
      ∃ p size count ids,
        level1Asks ops (trList.filter (isAskEntry app maker taker)) = [.counted p size count] ∧
        level4Asks ops (trList.filter (isAskEntry app maker taker)) =
          [.price p, .size size, .ids ids] ∧
        ids.Nodup ∧
        (∀ i, i ∈ ids ↔ ∃ o ∈ askOrders app trList maker taker,
          floatCompare ops (ops.price (some o)) p = true ∧ o.id = i) ∧
        ids.length = count) := by
  have hfm := asksList_filterMap app trList maker taker
  have hsome := asksList_some app trList maker taker
  have hnd' : ((askOrders app trList maker taker).map TransactionDescr.id).Nodup :=
    hnd.sublist ((List.filter_sublist _).map _)
  generalize trList.filter (isAskEntry app maker taker) = asksList at hfm hsome
  by_cases hne : asksList = []
  · subst hne
    have hbo : askOrders app trList maker taker = [] := by rw [← hfm]; rfl
    exact ⟨fun _ => ⟨rfl, rfl⟩, fun h => absurd hbo h⟩
  · obtain ⟨m, hmin, hmem⟩ := minElement_mem (askLess ops) asksList hne
    obtain ⟨tr, htr'⟩ := hsome m hmem
    have hin : tr ∈ asksList.filterMap Prod.snd := List.mem_filterMap.2 ⟨m, hmem, htr'⟩
    have hin' : tr ∈ askOrders app trList maker taker := by rw [← hfm]; exact hin
    constructor
    · intro h
      rw [h] at hin'
      cases hin'
    · intro _
      rw [← hfm] at hnd' hrefl
      obtain ⟨h1, h2, h3⟩ := level4_ids_spec ops hsym ops.price tr asksList hnd' hin
        (hrefl tr hin)
      refine ⟨ops.price (some tr), tr.fromAmount,
        countAtPrice ops ops.price (ops.price (some tr)) asksList,
        tr.id :: otherIdsAtPrice ops ops.price (ops.price (some tr)) tr asksList,
        ?_, ?_, h1, ?_, h3⟩
      · unfold level1Asks
        rw [hmin]
        simp only [htr']
      · unfold level4Asks
        rw [hmin]
        simp only [htr']
      · rw [← hfm]
        exact h2

/-! ## Facts about the listing commands -/

theorem collectOrders_eq (keep : TransactionDescr → Bool)
    (l : List (Nat × Option TransactionDescr)) (h : ∀ tp ∈ l, tp.2 ≠ none) :
    collectOrders keep l = some ((l.filterMap Prod.snd).filter keep) := by
  induction l with
  | nil => rfl
  | cons a l ih =>
    obtain ⟨k, ptr⟩ := a
    cases ptr with
    | none => exact absurd rfl (h (k, none) (List.mem_cons_self _ _))
    | some t =>
      have := ih (fun tp htp => h tp (List.mem_cons_of_mem _ htp))
      unfold collectOrders
      rw [this]
      by_cases hk : keep t = true
      · simp [hk, List.filter_cons]
      · simp [hk, List.filter_cons]

theorem myOrdersLoop_eq {σ : Type} (app : App σ) (s : σ) (l : List TransactionDescr) :
    ∀ seen, myOrdersLoop app s l seen = (dedupeById l seen).map (myOrderObject app s) := by
  induction l with
  | nil => intro seen; rfl
  | cons t rest ih =>
    intro seen
    unfold myOrdersLoop dedupeById
    by_cases h : t.id ∈ seen
    · simp only [h, if_true, ih]
    · simp only [h, if_false, ih, List.map_cons]

theorem dedupeById_sublist (l : List TransactionDescr) :
    ∀ seen, (dedupeById l seen).Sublist l := by
  induction l with
  | nil => intro seen; exact List.Sublist.refl _
  | cons t rest ih =>
    intro seen
    unfold dedupeById
    by_cases h : t.id ∈ seen
    · simp only [h, if_true]
      exact (ih seen).cons _
    · simp only [h, if_false]
      exact (ih _).cons₂ _

theorem mem_dedupeById (l : List TransactionDescr) :
    ∀ seen i, i ∈ (dedupeById l seen).map TransactionDescr.id ↔
      i ∈ l.map TransactionDescr.id ∧ i ∉ seen := by
  induction l with
  | nil => intro seen i; simp [dedupeById]
  | cons t rest ih =>
    intro seen i
    unfold dedupeById
    by_cases h : t.id ∈ seen
    · simp only [h, if_true, ih, List.map_cons, List.mem_cons]
      constructor
      · rintro ⟨h1, h2⟩
        exact ⟨Or.inr h1, h2⟩
      · rintro ⟨h1 | h1, h2⟩
        · rw [h1] at h2; exact absurd h h2
        · exact ⟨h1, h2⟩
    · simp only [h, if_false, List.map_cons, List.mem_cons, ih, not_or]
      constructor
      · rintro (h1 | ⟨h1, h2, h3⟩)
        · exact ⟨Or.inl h1, by rw [h1]; exact h⟩
        · exact ⟨Or.inr h1, h3⟩
      · rintro ⟨h1 | h1, h2⟩
        · exact Or.inl h1
        · by_cases hi : i = t.id
          · exact Or.inl hi
          · exact Or.inr ⟨h1, hi, h2⟩

theorem nodup_dedupeById (l : List TransactionDescr) :
    ∀ seen, ((dedupeById l seen).map TransactionDescr.id).Nodup := by
  induction l with
  | nil => intro seen; simp [dedupeById]
  | cons t rest ih =>
    intro seen
    unfold dedupeById
    by_cases h : t.id ∈ seen
    · simp only [h, if_true]
      exact ih seen
    · simp only [h, if_false, List.map_cons]
      refine List.nodup_cons.2 ⟨?_, ih _⟩
      intro hmem
      have := ((mem_dedupeById rest (t.id :: seen) t.id).1 hmem).2
      exact this (List.mem_cons_self _ _)

theorem isFill_eq {σ : Type} (hist : AppHistory σ) (maker taker : String) (combined : Bool)
    (d : TransactionDescr) :
    isFill hist maker taker combined d =
      decide (d.state = hist.trFinished ∧
        ((d.fromCurrency = maker ∧ d.toCurrency = taker) ∨
          (combined = true ∧ d.fromCurrency = taker ∧ d.toCurrency = maker))) := by
  unfold isFill
  cases combined
  · simp
  · simp only [if_true, true_and]
    by_cases h1 : d.state = hist.trFinished <;> by_cases h2 : d.fromCurrency = maker <;>
      by_cases h3 : d.toCurrency = taker <;> by_cases h4 : d.toCurrency = maker <;>
      by_cases h5 : d.fromCurrency = taker <;> simp [h1, h2, h3, h4, h5]

theorem sortBy_txtime_asc (l : List TransactionDescr) :
    IsSortOf (fun a b => decide (a.txtime < b.txtime)) l
      (sortBy (fun a b => decide (a.txtime < b.txtime)) l) := by
  apply sortBy_isSortOf
  · intro a b h
    simp only [decide_eq_true_eq, decide_eq_false_iff_not] at h ⊢
    omega
  · intro a b c h1 h2
    simp only [decide_eq_true_eq] at h1 h2 ⊢
    omega

theorem sortBy_txtime_desc (l : List TransactionDescr) :
    IsSortOf (fun a b => decide (b.txtime < a.txtime)) l
      (sortBy (fun a b => decide (b.txtime < a.txtime)) l) := by
  apply sortBy_isSortOf
  · intro a b h
    simp only [decide_eq_true_eq, decide_eq_false_iff_not] at h ⊢
    omega
  · intro a b c h1 h2
    simp only [decide_eq_true_eq] at h1 h2 ⊢
    omega

/-! ## Facts about `TxOutToCurrencyPair` -/

theorem multisigLoop_eq (solutions : List (List Nat)) :
    ∀ (fuel i : Nat) (json : List Nat), solutions.length - 1 - i < fuel →
      multisigLoop solutions fuel i json =
        json ++ ((((solutions.take (solutions.length - 1)).drop i).takeWhile
          (fun sol => decide (sol.length = 65))).map (fun sol => sol.drop 1)).flatten := by
  intro fuel
  induction fuel with
  | zero => intro i json h; omega
  | succ fuel ih =>
    intro i json h
    unfold multisigLoop
    by_cases hi : i < solutions.length - 1
    · have hlt : i < solutions.length := by omega
      have hlt' : i < (solutions.take (solutions.length - 1)).length := by simp; omega
      have hdrop : (solutions.take (solutions.length - 1)).drop i =
          solutions[i] :: (solutions.take (solutions.length - 1)).drop (i + 1) := by
        rw [List.drop_eq_getElem_cons hlt']
        simp [List.getElem_take]
      simp only [hi, not_true_eq_false, if_false, List.getElem?_eq_getElem hlt, hdrop]
      by_cases h65 : solutions[i].length = 65
      · rw [if_neg (by simpa using h65), ih (i + 1) _ (by omega)]
        simp [List.takeWhile_cons, h65]
      · rw [if_pos (by simpa using h65)]
        simp [List.takeWhile_cons, h65]
    · have : (solutions.take (solutions.length - 1)).drop i = [] := by
        apply List.drop_eq_nil_of_le
        simp; omega
      simp [hi, this]

/-- States with the same ledger agree on `NoOrphans`. -/
theorem noOrphans_of_sameLedger {Tx : Type} {e e' : Exchange Tx} (h : SameLedger e e')
    (hI : NoOrphans e) : NoOrphans e' := by
  intro o ho
  rw [h.1] at ho
  obtain ⟨x, hx⟩ := hI o ho
  exact ⟨x, (listedFor_of_sameLedger h x o).2 hx⟩

/-- The empty state has no orphan reservation. -/
theorem noOrphans_empty {Tx : Type} (wallets : List (String × WalletParam)) :
    NoOrphans (Exchange.empty wallets : Exchange Tx) := by
  intro o ho
  simp [Exchange.empty, setCount] at ho

/-- `lockUtxos` keeps `NoOrphans`. -/
theorem noOrphans_lockUtxos {Tx : Type} (id : Nat) (items : List UtxoEntry) (e : Exchange Tx)
    (hI : NoOrphans e) : NoOrphans (lockUtxos id items e).2 := by
  by_cases hne : items = []
  · subst hne; rw [lockUtxos_nil]; exact hI
  intro o ho
  rcases (reserved_lockUtxos id items e hne o).1 ho with h | h
  · exact ⟨id, (listedFor_lockUtxos id items e hne id o).2 (Or.inl ⟨rfl, Or.inr h⟩)⟩
  · obtain ⟨x, hx⟩ := hI o h
    by_cases hxi : x = id
    · subst hxi
      exact ⟨x, (listedFor_lockUtxos x items e hne x o).2 (Or.inl ⟨rfl, Or.inl hx⟩)⟩
    · exact ⟨x, (listedFor_lockUtxos id items e hne x o).2 (Or.inr ⟨hxi, hx⟩)⟩

/-- `unlockUtxos` keeps `NoOrphans`. -/
theorem noOrphans_unlockUtxos {Tx : Type} (id : Nat) (e : Exchange Tx) (hI : NoOrphans e) :
    NoOrphans (unlockUtxos id e).2 := by
  intro o ho
  obtain ⟨hres, hnot⟩ := (reserved_unlockUtxos id e o).1 ho
  obtain ⟨x, hx⟩ := hI o hres
  have hxi : x ≠ id := by
    rintro rfl
    exact hnot hx
  exact ⟨x, (listedFor_unlockUtxos id e x o).2 ⟨hxi, hx⟩⟩

/-- The loop of `eraseExpiredTransactions` keeps `NoOrphans`. -/
theorem noOrphans_eraseLoop {Tx : Type} (env : Env Tx) (nodes : List (Nat × Tx)) (n : Nat) (e : Exchange Tx)
    (hI : NoOrphans e) : NoOrphans (eraseLoop env nodes n e).2.2 := by
  induction nodes generalizing n e with
  | nil => exact hI
  | cons node rest ih =>
    obtain ⟨k, ptr⟩ := node
    simp only [eraseLoop]
    split_ifs
    · exact ih _ _ (noOrphans_unlockUtxos _ e hI)
    · exact ih _ _ (noOrphans_unlockUtxos _ e hI)
    · exact ih _ _ hI

/-- `eraseExpiredTransactions` keeps `NoOrphans`. -/
theorem noOrphans_eraseExpiredTransactions {Tx : Type} (env : Env Tx) (e : Exchange Tx)
    (hI : NoOrphans e) : NoOrphans (eraseExpiredTransactions env e).2 := by
  unfold eraseExpiredTransactions
  split_ifs
  · exact hI
  · exact noOrphans_of_sameLedger ⟨rfl, rfl⟩ (noOrphans_eraseLoop env _ 0 e hI)

/-- `updateTimestampOrRemoveExpired`, when it has a defined result, leaves the ledger
as it is. -/
theorem updateTimestampOrRemoveExpired_ledger {Tx : Type} (env : Env Tx) (tx : Tx) (e : Exchange Tx)
    (r : Bool × Exchange Tx) (h : updateTimestampOrRemoveExpired env tx e = some r) :
    SameLedger e r.2 := by
  unfold updateTimestampOrRemoveExpired at h
  dsimp only at h
  split at h
  · cases h
  · split_ifs at h <;> cases h <;> exact ⟨rfl, rfl⟩

/-- Every call keeps `NoOrphans`. -/
theorem noOrphans_apply {Tx : Type} (op : Op Tx) (e e' : Exchange Tx) (ha : op.apply e = some e')
    (hI : NoOrphans e) : NoOrphans e' := by
  cases op with
  | create env p items =>
    cases ha
    rcases createTransaction_ledger env p items e with hs | hs
    · exact noOrphans_of_sameLedger hs hI
    · exact noOrphans_of_sameLedger hs (noOrphans_lockUtxos _ _ e hI)
  | accept env p items =>
    cases ha
    rcases acceptTransaction_ledger env p items e with hs | hs
    · exact noOrphans_of_sameLedger hs hI
    · exact noOrphans_of_sameLedger hs (noOrphans_lockUtxos _ _ e hI)
  | deletePending id =>
    cases ha
    exact noOrphans_of_sameLedger (deletePendingTransaction_ledger id e)
      (noOrphans_unlockUtxos id e hI)
  | delete txid =>
    cases ha
    exact noOrphans_of_sameLedger (deleteTransaction_ledger txid e)
      (noOrphans_unlockUtxos txid e hI)
  | eraseExpired env =>
    cases ha
    exact noOrphans_eraseExpiredTransactions env e hI
  | lock id items =>
    cases ha
    exact noOrphans_lockUtxos id items e hI
  | unlock id =>
    cases ha
    exact noOrphans_unlockUtxos id e hI
  | updateTimestamp env tx =>
    simp only [Op.apply, Option.map_eq_some'] at ha
    obtain ⟨r, hr, rfl⟩ := ha
    exact noOrphans_of_sameLedger (updateTimestampOrRemoveExpired_ledger env tx e r hr) hI

/-- `deletePendingTransaction(id)` leaves the accepted map and the reservation lists
of the other orders unchanged, and an outpoint outside the reservation list of `id`
keeps its reserved status. -/
theorem deletePendingTransaction_frame {Tx : Type} (id : Nat) (e : Exchange Tx) :
    (deletePendingTransaction id e).2.m_transactions = e.m_transactions ∧
    (∀ y, y ≠ id →
      mapFind y (deletePendingTransaction id e).2.m_utxoTxMap = mapFind y e.m_utxoTxMap) ∧
    (∀ o, ¬ ListedFor e id o →
      setCount o (deletePendingTransaction id e).2.m_utxoItems = setCount o e.m_utxoItems) := by
  refine ⟨?_, ?_, ?_⟩
  · unfold deletePendingTransaction unlockUtxos
    dsimp only
    split_ifs <;> rfl
  · intro y hy
    unfold deletePendingTransaction unlockUtxos
    dsimp only
    split_ifs
    · rfl
    · exact mapFind_mapErase_ne y id _ hy
  · intro o ho
    have h := reserved_unlockUtxos id e o
    have hs : (deletePendingTransaction id e).2.m_utxoItems = (unlockUtxos id e).2.m_utxoItems :=
      rfl
    rw [hs]
    cases h1 : setCount o (unlockUtxos id e).2.m_utxoItems <;>
      cases h2 : setCount o e.m_utxoItems
    · rfl
    · exact absurd (h.2 ⟨h2, ho⟩) (by simp [h1])
    · exact absurd (h.1 h1).1 (by simp [h2])
    · rfl

/-- The loop over the maker outpoints fails exactly when `getTxOut` fails for one of
them. -/
theorem makerUtxosLoop_false_iff {Tx : Type} (env : CheckEnv Tx) (currency : String)
    (l : List UtxoEntry) :
    (makerUtxosLoop env currency l).1 = false ↔
      ∃ entry ∈ l, env.getTxOut currency entry = false := by
  induction l with
  | nil => simp [makerUtxosLoop]
  | cons entry rest ih =>
    unfold makerUtxosLoop
    by_cases h : env.getTxOut currency entry = true
    · simp only [h, Bool.not_true, Bool.false_eq_true, if_false, ih, List.mem_cons]
      constructor
      · rintro ⟨x, hx, hf⟩
        exact ⟨x, Or.inr hx, hf⟩
      · rintro ⟨x, rfl | hx, hf⟩
        · rw [h] at hf; cases hf
        · exact ⟨x, hx, hf⟩
    · simp only [Bool.not_eq_true] at h
      simp only [h, Bool.not_false, if_true, true_iff]
      exact ⟨entry, List.mem_cons_self _ _, h⟩

/-- The outpoints handed to `getTxOut` are a prefix of the maker outpoints. -/
theorem makerUtxosLoop_queries {Tx : Type} (env : CheckEnv Tx) (currency : String)
    (l : List UtxoEntry) : (makerUtxosLoop env currency l).2 <+: l := by
  induction l with
  | nil => simp [makerUtxosLoop]
  | cons entry rest ih =>
    unfold makerUtxosLoop
    by_cases h : env.getTxOut currency entry = true
    · simp only [h, Bool.not_true, Bool.false_eq_true, if_false]
      exact (List.prefix_cons_inj entry).2 ih
    · simp only [Bool.not_eq_true] at h
      simp only [h, Bool.not_false, if_true]
      exact ⟨rest, rfl⟩

/-- For a duration that is not negative, fewer than `n` whole seconds means fewer
than `n` million microseconds. -/
theorem total_seconds_lt_iff (d n : Int) (hd : 0 ≤ d) :
    total_seconds d < n ↔ d < n * 1000000 := by
  unfold total_seconds
  rw [Int.tdiv_eq_ediv hd (by norm_num)]
  constructor
  · intro h
    have := Int.lt_mul_of_ediv_lt (by norm_num : (0 : Int) < 1000000) h
    exact this
  · intro h
    exact Int.ediv_lt_of_lt_mul (by norm_num) h

/-- With `showErrors` false the loop over the transactions builds no error object. -/
theorem tradingRecords_no_error (ops : ChainOps) (timestamp : Int) (vtx : List CTransaction) :
    ∀ r ∈ tradingRecords ops false timestamp vtx, ∀ t txid xid, r ≠ .error t txid xid := by
  induction vtx with
  | nil => intro r hr; cases hr
  | cons tx rest ih =>
    intro r hr t txid xid
    unfold tradingRecords at hr
    dsimp only at hr
    split at hr
    · simp only [Bool.false_eq_true, if_false] at hr
      exact ih r hr t txid xid
    · rcases List.mem_cons.1 hr with rfl | hr
      · intro h; cases h
      · exact ih r hr t txid xid
    · exact ih r hr t txid xid

/-- With `showErrors` false the loop over the chain builds no error object. -/
theorem tradingLoop_no_error (ops : ChainOps) (timeBegin : Int) :
    ∀ (chain : List CBlockIndex) (n : Nat),
      ∀ r ∈ tradingLoop ops false timeBegin chain n, ∀ t txid xid, r ≠ .error t txid xid := by
  intro chain
  induction chain with
  | nil => intro n r hr; simp [tradingLoop] at hr
  | cons pindex rest ih =>
    intro n r hr t txid xid
    cases rest with
    | nil => simp [tradingLoop] at hr
    | cons pprev rest' =>
      unfold tradingLoop at hr
      split_ifs at hr
      · rcases List.mem_append.1 hr with h | h
        · cases hb : pindex.block with
          | none => rw [hb] at h; cases h
          | some block =>
            rw [hb] at h
            exact tradingRecords_no_error ops _ _ r h t txid xid
        · exact ih _ r h t txid xid
      · cases hr

/-- `gettradingdata` throws for two parameters, and no array it returns holds an
error object. -/
theorem gettradingdata_records_no_error (ops : ChainOps) (chain : List CBlockIndex) :
    (∀ p0 p1 : Value, gettradingdata ops chain [p0, p1] = .thrown) ∧
    (∀ params l, gettradingdata ops chain params = .records l →
      ∀ r ∈ l, ∀ t txid xid, r ≠ .error t txid xid) := by
  constructor
  · intro p0 p1
    simp [gettradingdata]
  · intro params l h r hr t txid xid
    by_cases hlen : params.length > 1
    · simp [gettradingdata, hlen] at h
    have h2 : ¬ params.length = 2 := by omega
    unfold gettradingdata at h
    rw [if_neg hlen] at h
    dsimp only at h
    rw [if_neg h2] at h
    split at h
    · rename_i n b hn hb
      cases hb
      unfold tradingScan at h
      split at h
      · cases h
      · cases h
        exact tradingLoop_no_error ops _ _ _ r hr t txid xid
    · cases h

/-- With `dryrun` set, the last part of `dxMakeOrder` makes no call. -/
theorem makeOrderSend_dryrun_calls {σ D : Type} (ops : DoubleOps D) (app : App σ) (s : σ)
    (fc : String) (fa : D) (fad tc : String) (ta : D) (tad : String) :
    (makeOrderSend ops app s fc fa fad tc ta tad true).calls = [] := by
  unfold makeOrderSend
  dsimp only
  by_cases h : app.checkCreateParams s fc tc (ops.xBridgeAmountFromReal fa) fad ≠ .SUCCESS
  · rw [if_pos h]
  · rw [if_neg h, if_pos rfl]

/-- With one parameter after the seventh, `dxMakeOrder` makes no call from the
validation of the addresses on. -/
theorem makeOrderSubmit_one_calls {σ D : Type} (ops : DoubleOps D) (app : App σ) (s : σ)
    (fc : String) (fa : D) (fad tc : String) (ta : D) (tad : String) (p7 : Value) :
    (makeOrderSubmit ops app s fc fa fad tc ta tad [p7]).calls = [] := by
  unfold makeOrderSubmit
  split_ifs <;> try rfl
  dsimp only
  cases p7.get_str with
  | none => rfl
  | some d =>
    dsimp only
    split_ifs
    · rfl
    · exact makeOrderSend_dryrun_calls ops app s fc fa fad tc ta tad

/-- `dxMakeOrder` with eight parameters makes no state-changing call. -/
theorem dxMakeOrder_eight_calls {σ D : Type} (ops : DoubleOps D) (app : App σ) (s : σ)
    (p0 p1 p2 p3 p4 p5 p6 p7 : Value) :
    (dxMakeOrder ops app s [p0, p1, p2, p3, p4, p5, p6, p7]).calls = [] := by
  unfold dxMakeOrder
  dsimp only
  cases p1.get_str with
  | none => rfl
  | some makerSize =>
    dsimp only
    split_ifs
    · rfl
    cases p4.get_str with
    | none => rfl
    | some takerSize =>
      dsimp only
      split_ifs
      · rfl
      split
      · unfold makeOrderValidated
        split_ifs <;> try rfl
        exact makeOrderSubmit_one_calls ops app s _ _ _ _ _ _ p7
      · rfl

/-- When `createTransaction` sets `isCreated`, it returns true, the pending map holds
the descriptor built from the arguments under the id, and the id was not pending
before. -/
theorem createTransaction_isCreated {Tx : Type} (env : Env Tx) (p : TxParams)
    (items : List UtxoEntry) (e : Exchange Tx)
    (h : (createTransaction env p items e).2.1 = true) :
    (createTransaction env p items e).1 = true ∧
    mapFind p.id (createTransaction env p items e).2.2.m_pendingTransactions =
      some (env.mkTx p) ∧
    mapCount p.id e.m_pendingTransactions = false := by
  unfold createTransaction at h ⊢
  dsimp only at h ⊢
  split_ifs at h ⊢
  rw [lockUtxos_pending]
  dsimp only at h ⊢
  unfold createPending at h ⊢
  cases hf : mapFind p.id e.m_pendingTransactions with
  | none =>
    exact ⟨rfl, mapFind_mapSet_self _ _ _, by rw [mapCount_eq_isSome, hf]; rfl⟩
  | some cur =>
    rw [hf] at h
    dsimp only at h
    split_ifs at h

/-- For an order without a reservation list and items with an outpoint whose txid the
coin validator reports as not valid, `checkUtxoItems` returns false, and
`createTransaction` and `acceptTransaction` return false and leave the state as it
is. -/
theorem bad_funds_rejected_for_new_order {Tx : Type} (env : Env Tx) (e : Exchange Tx)
    (p : TxParams) (items : List UtxoEntry)
    (hnew : mapCount p.id e.m_utxoTxMap = false)
    (hbad : ∃ o ∈ items, env.IsCoinValid o.txId = false) :
    checkUtxoItems env e p.id items = false ∧
    createTransaction env p items e = (false, false, e) ∧
    acceptTransaction env p items e = (false, e) := by
  have hc : checkUtxoItems env e p.id items = false := by
    unfold checkUtxoItems
    rw [hnew]
    simpa using checkUtxoLoop_bad env e items hbad
  exact ⟨hc, createTransaction_of_check_false env p items e hc,
    acceptTransaction_of_check_false env p items e hc⟩

/-! ## Claims -/

/-- C1 (the code breaks the claim): after order 1 is created with `utxoA` and order 2
with `utxoB`, `acceptTransaction` for order 1 with the taker items `[utxoB]` returns
true, because `checkUtxoItems` returns early for an order that already has a
reservation list; afterwards `utxoB` is in the reservation lists of both orders, in a
state reached by `createTransaction` and `acceptTransaction` calls only. -/
theorem accept_makes_reservations_overlap :
    (acceptTransaction demoEnv (takerParams 1) [utxoB] afterTwoOrders).1 = true ∧
    mapFind 1 (acceptTransaction demoEnv (takerParams 1) [utxoB] afterTwoOrders).2.m_utxoTxMap
      = some [utxoA, utxoB] ∧
    mapFind 2 (acceptTransaction demoEnv (takerParams 1) [utxoB] afterTwoOrders).2.m_utxoTxMap
      = some [utxoB] ∧
    Reachable (fun op _ => op.name ∈ orderOps) demoWallets
      (acceptTransaction demoEnv (takerParams 1) [utxoB] afterTwoOrders).2 ∧
    ¬ ListsDisjoint (acceptTransaction demoEnv (takerParams 1) [utxoB] afterTwoOrders).2 := by
  refine ⟨by decide, by decide, by decide, ?_, ?_⟩
  · refine Reachable.step (.accept demoEnv (takerParams 1) [utxoB]) afterTwoOrders _ ?_
      (by decide) rfl
    refine Reachable.step (.create demoEnv (makerParams 2) [utxoB])
      (createTransaction demoEnv (makerParams 1) [utxoA] (Exchange.empty demoWallets)).2.2 _ ?_
      (by decide) rfl
    exact Reachable.step (.create demoEnv (makerParams 1) [utxoA]) _ _ Reachable.empty
      (by decide) rfl
  · intro h
    exact h 1 2 utxoB (by decide) ⟨[utxoA, utxoB], by decide, by decide⟩
      ⟨[utxoB], by decide, by decide⟩

/-- C2 (counterexample): the state reached by `lockUtxos(1, [utxoA])`,
`lockUtxos(2, [utxoA])`, `unlockUtxos(1)` lists `utxoA` for order 2 while the reserved
set is empty. -/
theorem release_of_shared_outpoint_breaks_inclusion :
    Reachable (fun op _ => op.name ∈ orderAndLedgerOps) demoWallets sharedThenReleased ∧
    mapFind 2 sharedThenReleased.m_utxoTxMap = some [utxoA] ∧
    sharedThenReleased.m_utxoItems = [] ∧
    ¬ ListsReserved sharedThenReleased := by
  refine ⟨?_, by decide, by decide, ?_⟩
  · refine Reachable.step (.unlock 1) _ _ ?_ (by decide) rfl
    refine Reachable.step (.lock 2 [utxoA]) _ _ ?_ (by decide) rfl
    exact Reachable.step (.lock 1 [utxoA]) _ _ Reachable.empty (by decide) rfl
  · intro h
    exact absurd (h 2 utxoA ⟨[utxoA], by decide, by decide⟩) (by decide)

/-- C2 (amended): in every state reached from the empty state by createTransaction,
acceptTransaction, deletePendingTransaction, deleteTransaction,
eraseExpiredTransactions, lockUtxos and unlockUtxos calls, where each call that reserves
outpoints for an order is made when none of them is listed for a different order, every
outpoint listed in `m_utxoTxMap[x]` is a member of `m_utxoItems`. -/
theorem lists_reserved_of_guarded {Tx : Type} (wallets : List (String × WalletParam))
    (e : Exchange Tx)
    (h : Reachable (fun op s => op.name ∈ orderAndLedgerOps ∧
      ∀ id items, op.reserves = some (id, items) → NoForeign s id items) wallets e)
    (x : Nat) (l : List UtxoEntry) (o : UtxoEntry)
    (hl : mapFind x e.m_utxoTxMap = some l) (ho : Listed o l) :
    setCount o e.m_utxoItems = true :=
  (ledgerInv_of_guarded wallets e h).1 x o ⟨l, hl, ho⟩

/-- C2 (amended), at a concrete input: the state with order 1 holding `utxoA` and
order 2 holding `utxoB` is reached by two guarded createTransaction calls, and `utxoB`,
listed for order 2, is in the reserved set. -/
theorem lists_reserved_of_guarded_witness :
    Reachable (fun (op : Op Descr) s => op.name ∈ orderAndLedgerOps ∧
      ∀ id items, op.reserves = some (id, items) → NoForeign s id items)
      demoWallets afterTwoOrders ∧
    setCount utxoB afterTwoOrders.m_utxoItems = true := by
  have h : Reachable (fun (op : Op Descr) s => op.name ∈ orderAndLedgerOps ∧
      ∀ id items, op.reserves = some (id, items) → NoForeign s id items)
      demoWallets afterTwoOrders := by
    refine Reachable.step (.create demoEnv (makerParams 2) [utxoB]) afterOneOrder _ ?_ ?_ rfl
    · refine Reachable.step (.create demoEnv (makerParams 1) [utxoA]) _ _ Reachable.empty ?_ rfl
      refine ⟨by decide, ?_⟩
      rintro id items _ o _ y _ ⟨l, hl, _⟩
      cases hl
    · refine ⟨by decide, ?_⟩
      rintro id items hr o ho y hy ⟨l, hl, hol⟩
      cases hr
      have hm : afterOneOrder.m_utxoTxMap = [(1, [utxoA])] := by decide
      rw [hm] at hl
      simp only [List.mem_singleton] at ho
      subst ho
      by_cases h1 : 1 = y
      · simp only [mapFind, h1, if_true, Option.some.injEq] at hl
        subst hl
        exact absurd hol (by decide)
      · simp [mapFind, h1] at hl
  exact ⟨h, lists_reserved_of_guarded demoWallets afterTwoOrders h 2 [utxoB] utxoB
    (by decide) (by decide)⟩

/-- C3: if createTransaction returns false the whole state (reserved set, per-order
index, pending map, accepted map) is as before the call; if it returns true with a
non-empty `items`, every outpoint of `items` is in the reserved set and in the
reservation list of `txid` afterwards. -/
theorem createTransaction_all_or_nothing {Tx : Type} (env : Env Tx) (p : TxParams)
    (items : List UtxoEntry) (e : Exchange Tx) :
    ((createTransaction env p items e).1 = false →
      (createTransaction env p items e).2.2 = e) ∧
    ((createTransaction env p items e).1 = true → items ≠ [] →
      ∀ o ∈ items,
        setCount o (createTransaction env p items e).2.2.m_utxoItems = true ∧
        ∃ l, mapFind p.id (createTransaction env p items e).2.2.m_utxoTxMap = some l ∧
          Listed o l) := by
  refine ⟨createTransaction_false env p items e, ?_⟩
  intro ht hne o ho
  rw [createTransaction_true env p items e ht]
  constructor
  · rw [reserved_lockUtxos _ _ _ hne]
    exact Or.inl (listed_of_mem ho)
  · exact (listedFor_lockUtxos _ _ _ hne p.id o).2 (Or.inl ⟨rfl, Or.inr (listed_of_mem ho)⟩)

/-- C3, at concrete inputs: creating order 1 with `utxoA` in the empty state returns true
and reserves `utxoA`; a second order offering the reserved `utxoA` is refused and the
state stays as it was. -/
theorem createTransaction_all_or_nothing_witness :
    (setCount utxoA afterOneOrder.m_utxoItems = true ∧
      ∃ l, mapFind 1 afterOneOrder.m_utxoTxMap = some l ∧ Listed utxoA l) ∧
    (createTransaction demoEnv (makerParams 2) [utxoA] afterOneOrder).2.2 = afterOneOrder :=
  ⟨(createTransaction_all_or_nothing demoEnv (makerParams 1) [utxoA]
      (Exchange.empty demoWallets)).2 (by decide) (by decide) utxoA (by decide),
    (createTransaction_all_or_nothing demoEnv (makerParams 2) [utxoA] afterOneOrder).1
      (by decide)⟩

/-- C4: a second `lockUtxos(id, items)` right after the first leaves the whole state,
hence the reserved set and every reservation list, as the first call left it; the first
call (on a non-empty `items`) keeps the previous list of `id` as it is and appends only
entries of `items` whose outpoint was not listed yet, each once. -/
theorem lockUtxos_idempotent {Tx : Type} (id : Nat) (items : List UtxoEntry) (e : Exchange Tx) :
    (lockUtxos id items (lockUtxos id items e).2).2 = (lockUtxos id items e).2 ∧
    (items ≠ [] →
      mapFind id (lockUtxos id items e).2.m_utxoTxMap =
        some ((mapFind id e.m_utxoTxMap).getD [] ++
          newOutpoints ((mapFind id e.m_utxoTxMap).getD []) items)) ∧
    (∀ x ∈ newOutpoints ((mapFind id e.m_utxoTxMap).getD []) items,
      ¬ Listed x ((mapFind id e.m_utxoTxMap).getD [])) ∧
    (newOutpoints ((mapFind id e.m_utxoTxMap).getD []) items).Pairwise
      (fun a b => ¬ SameOutpoint a b) := by
  refine ⟨?_, ?_, fun x hx => (newOutpoints_mem _ _ x hx).2, newOutpoints_pairwise _ _⟩
  · by_cases hne : items = []
    · subst hne; simp [lockUtxos_nil]
    · have hnil : newOutpoints ((mapFind id e.m_utxoTxMap).getD [] ++
          newOutpoints ((mapFind id e.m_utxoTxMap).getD []) items) items = [] :=
        newOutpoints_eq_nil _ _ (fun i hi =>
          (listed_newOutpoints _ _ i).2 (Or.inr (listed_of_mem hi)))
      rw [lockUtxos_eq id items e hne]
      rw [lockUtxos_eq id items _ hne]
      simp only [mapFind_mapSet_self, Option.getD_some, foldl_setInsert_twice, mapSet_idem,
        hnil, List.append_nil]
  · intro hne
    rw [lockUtxos_eq id items e hne]
    exact mapFind_mapSet_self _ _ _

/-- C4, at a concrete input: locking `[utxoB, utxoA, utxoB]` for order 1, which already
holds `utxoA`, gives the list `[utxoA, utxoB]`. -/
theorem lockUtxos_idempotent_witness :
    mapFind 1 (lockUtxos 1 [utxoB, utxoA, utxoB] afterOneOrder).2.m_utxoTxMap =
      some [utxoA, utxoB] := by
  have h := (lockUtxos_idempotent 1 [utxoB, utxoA, utxoB] afterOneOrder).2.1 (by decide)
  rw [h]
  decide

/-- C5 (the code breaks the claim): with txid "bad" on the blocklist and order 1 pending
with the reservation list `[utxoA]`, `checkUtxoItems(1, [utxoBad])` returns true;
createTransaction for order 1 with `[utxoBad]` returns true and reserves `utxoBad`, and
acceptTransaction for order 1 with `[utxoBad]` returns true, moves the order to the
accepted map and reserves `utxoBad`, so that its list is `[utxoA, utxoBad]`. For order
2, which has no reservation list, the same items are refused and createTransaction
leaves the state as it is. -/
theorem bad_funds_pass_for_known_order :
    blocklistEnv.IsCoinValid utxoBad.txId = false ∧
    mapCount 1 afterOneOrder.m_pendingTransactions = true ∧
    mapFind 1 afterOneOrder.m_utxoTxMap = some [utxoA] ∧
    checkUtxoItems blocklistEnv afterOneOrder 1 [utxoBad] = true ∧
    (createTransaction blocklistEnv (makerParams 1) [utxoBad] afterOneOrder).1 = true ∧
    setCount utxoBad
      (createTransaction blocklistEnv (makerParams 1) [utxoBad] afterOneOrder).2.2.m_utxoItems
      = true ∧
    (acceptTransaction blocklistEnv (takerParams 1) [utxoBad] afterOneOrder).1 = true ∧
    mapCount 1
      (acceptTransaction blocklistEnv (takerParams 1) [utxoBad] afterOneOrder).2.m_transactions
      = true ∧
    mapFind 1
      (acceptTransaction blocklistEnv (takerParams 1) [utxoBad] afterOneOrder).2.m_utxoTxMap
      = some [utxoA, utxoBad] ∧
    setCount utxoBad
      (acceptTransaction blocklistEnv (takerParams 1) [utxoBad] afterOneOrder).2.m_utxoItems
      = true ∧
    checkUtxoItems blocklistEnv afterOneOrder 2 [utxoBad] = false ∧
    createTransaction blocklistEnv (makerParams 2) [utxoBad] afterOneOrder =
      (false, false, afterOneOrder) := by
  refine ⟨?_, ?_, ?_, ?_, ?_, ?_, ?_, ?_, ?_, ?_, ?_, ?_⟩ <;> decide

/-- C6 (the code breaks the claim): in `afterTwoOrders` order 1 is pending with the
maker's reservation `[utxoA]`, and `utxoB` is reserved for order 2; `checkUtxoItems` for
order 1 with the taker items `[utxoB]` returns true and acceptTransaction returns true,
moving order 1 to the accepted map. -/
theorem accept_with_conflicting_utxo_succeeds :
    mapCount 1 afterTwoOrders.m_pendingTransactions = true ∧
    mapFind 1 afterTwoOrders.m_utxoTxMap = some [utxoA] ∧
    mapFind 2 afterTwoOrders.m_utxoTxMap = some [utxoB] ∧
    setCount utxoB afterTwoOrders.m_utxoItems = true ∧
    checkUtxoItems demoEnv afterTwoOrders 1 [utxoB] = true ∧
    (acceptTransaction demoEnv (takerParams 1) [utxoB] afterTwoOrders).1 = true ∧
    mapCount 1
      (acceptTransaction demoEnv (takerParams 1) [utxoB] afterTwoOrders).2.m_transactions
      = true := by
  decide

/-- C7: when acceptTransaction returns true, `txid` is no longer a key of the pending map;
the accepted map holds under `txid` the descriptor that was pending (as `tryJoin` left
it); with an empty `items` the reservation list of `txid` is untouched, otherwise it is
the previous list followed by `newOutpoints`, which are entries of `items`, in their
order, none of them with an outpoint of the previous list, no outpoint twice, and
together with the previous list they cover `items`; the lists of other orders are
unchanged and the reserved set loses nothing. -/
theorem acceptTransaction_success {Tx : Type} (env : Env Tx) (p : TxParams)
    (items : List UtxoEntry) (e : Exchange Tx)
    (h : (acceptTransaction env p items e).1 = true) :
    mapCount p.id (acceptTransaction env p items e).2.m_pendingTransactions = false ∧
    (∃ cur, mapFind p.id e.m_pendingTransactions = some cur ∧
      mapFind p.id (acceptTransaction env p items e).2.m_transactions =
        some (env.tryJoin cur (env.mkTx { p with timestamp := env.time, blockHash := 0 })).2) ∧
    (items = [] →
      mapFind p.id (acceptTransaction env p items e).2.m_utxoTxMap =
        mapFind p.id e.m_utxoTxMap) ∧
    (items ≠ [] →
      mapFind p.id (acceptTransaction env p items e).2.m_utxoTxMap =
        some ((mapFind p.id e.m_utxoTxMap).getD [] ++
          newOutpoints ((mapFind p.id e.m_utxoTxMap).getD []) items)) ∧
    (newOutpoints ((mapFind p.id e.m_utxoTxMap).getD []) items).Sublist items ∧
    (∀ x ∈ newOutpoints ((mapFind p.id e.m_utxoTxMap).getD []) items,
      ¬ Listed x ((mapFind p.id e.m_utxoTxMap).getD [])) ∧
    (newOutpoints ((mapFind p.id e.m_utxoTxMap).getD []) items).Pairwise
      (fun a b => ¬ SameOutpoint a b) ∧
    (∀ i ∈ items, Listed i ((mapFind p.id e.m_utxoTxMap).getD [] ++
      newOutpoints ((mapFind p.id e.m_utxoTxMap).getD []) items)) ∧
    (∀ x, x ≠ p.id → mapFind x (acceptTransaction env p items e).2.m_utxoTxMap =
      mapFind x e.m_utxoTxMap) ∧
    (∀ o, setCount o e.m_utxoItems = true →
      setCount o (acceptTransaction env p items e).2.m_utxoItems = true) := by
  obtain ⟨cur, hcur, heq⟩ := acceptTransaction_true env p items e h
  rw [heq]
  refine ⟨?_, ⟨cur, hcur, ?_⟩, ?_, ?_, newOutpoints_sublist _ _,
    fun x hx => (newOutpoints_mem _ _ x hx).2, newOutpoints_pairwise _ _,
    fun i hi => (listed_newOutpoints _ _ i).2 (Or.inr (listed_of_mem hi)), ?_, ?_⟩
  · rw [lockUtxos_pending]
    exact mapCount_mapErase_self _ _
  · rw [lockUtxos_transactions]
    exact mapFind_mapSet_self _ _ _
  · intro hnil
    subst hnil
    rw [lockUtxos_nil]
  · intro hne
    rw [lockUtxos_eq _ _ _ hne]
    exact mapFind_mapSet_self _ _ _
  · intro x hx
    exact lockUtxos_other _ _ _ x hx
  · intro o ho
    exact lockUtxos_reserved_mono _ _ _ o ho

/-- C7, at a concrete input: accepting order 1 of `afterOneOrder` with the taker items
`[utxoB]` returns true, removes it from the pending map and extends its reservation list
to `[utxoA, utxoB]`. -/
theorem acceptTransaction_success_witness :
    (acceptTransaction demoEnv (takerParams 1) [utxoB] afterOneOrder).1 = true ∧
    mapCount 1
      (acceptTransaction demoEnv (takerParams 1) [utxoB] afterOneOrder).2.m_pendingTransactions
      = false ∧
    mapFind 1 (acceptTransaction demoEnv (takerParams 1) [utxoB] afterOneOrder).2.m_utxoTxMap =
      some ((mapFind 1 afterOneOrder.m_utxoTxMap).getD [] ++
        newOutpoints ((mapFind 1 afterOneOrder.m_utxoTxMap).getD []) [utxoB]) ∧
    (mapFind 1 afterOneOrder.m_utxoTxMap).getD [] ++
        newOutpoints ((mapFind 1 afterOneOrder.m_utxoTxMap).getD []) [utxoB] =
      [utxoA, utxoB] :=
  ⟨by decide,
    (acceptTransaction_success demoEnv (takerParams 1) [utxoB] afterOneOrder (by decide)).1,
    (acceptTransaction_success demoEnv (takerParams 1) [utxoB] afterOneOrder
      (by decide)).2.2.2.1 (by decide),
    by decide⟩

/-- C8: for a non-null `id`, unlockUtxos returns true iff `id` had a reservation list;
afterwards `id` has no reservation list, no outpoint that was listed for `id` is in the
reserved set, getUtxoItems for `id` returns false and leaves the output vector as it was,
and dxGetLockedUtxos called with that id (on a started exchange, where it gets to call
getUtxoItems) replies TRANSACTION_NOT_FOUND. -/
theorem unlockUtxos_releases {Tx : Type} (env : Env Tx) (e : Exchange Tx) (id : Nat)
    (out : List UtxoEntry) (s : String) (hid : id ≠ 0) :
    ((unlockUtxos id e).1 = true ↔ mapCount id e.m_utxoTxMap = true) ∧
    mapCount id (unlockUtxos id e).2.m_utxoTxMap = false ∧
    (∀ l o, mapFind id e.m_utxoTxMap = some l → Listed o l →
      setCount o (unlockUtxos id e).2.m_utxoItems = false) ∧
    getUtxoItems (unlockUtxos id e).2 id out = (false, out) ∧
    (env.uint256S s = id → isStarted env (unlockUtxos id e).2 = true →
      dxGetLockedUtxos env (unlockUtxos id e).2 [s] = .error .TRANSACTION_NOT_FOUND) := by
  have hcount : mapCount id (unlockUtxos id e).2.m_utxoTxMap = false := by
    rw [mapCount_unlockUtxos]; simp
  have hget : ∀ v, getUtxoItems (unlockUtxos id e).2 id v = (false, v) := by
    intro v
    unfold getUtxoItems
    rw [hcount]
    simp [hid]
  refine ⟨by rw [unlockUtxos_fst], hcount, ?_, hget out, ?_⟩
  · intro l o hl ho
    cases hc : setCount o (unlockUtxos id e).2.m_utxoItems
    · rfl
    · exact absurd ⟨l, hl, ho⟩ ((reserved_unlockUtxos id e o).1 hc).2
  · intro hs hst
    unfold dxGetLockedUtxos
    simp [hst, hs, hget]

/-- C8, at a concrete input: releasing order 1 of `afterOneOrder`, which holds `utxoA`. -/
theorem unlockUtxos_releases_witness :
    (1 : Nat) ≠ 0 ∧
    (unlockUtxos 1 afterOneOrder).1 = true ∧
    setCount utxoA (unlockUtxos 1 afterOneOrder).2.m_utxoItems = false ∧
    getUtxoItems (unlockUtxos 1 afterOneOrder).2 1 [utxoB] = (false, [utxoB]) ∧
    dxGetLockedUtxos demoEnv (unlockUtxos 1 afterOneOrder).2 ["01"] =
      .error .TRANSACTION_NOT_FOUND :=
  ⟨by decide,
    (unlockUtxos_releases demoEnv afterOneOrder 1 [utxoB] "01" (by decide)).1.2 (by decide),
    (unlockUtxos_releases demoEnv afterOneOrder 1 [utxoB] "01" (by decide)).2.2.1
      [utxoA] utxoA (by decide) (by decide),
    (unlockUtxos_releases demoEnv afterOneOrder 1 [utxoB] "01" (by decide)).2.2.2.1,
    (unlockUtxos_releases demoEnv afterOneOrder 1 [utxoB] "01" (by decide)).2.2.2.2
      (by decide) (by decide)⟩

/-- C9 (the code breaks the claim): order 1 is created with `utxoA` at time 0; at time
1000 it has expired. acceptTransaction for it then returns false after erasing it from
the pending map, and so does updateTimestampOrRemoveExpired; neither calls unlockUtxos,
so order 1 keeps its reservation list `[utxoA]` while it is a key of neither the pending
nor the accepted map. -/
theorem expired_order_keeps_reservation :
    (acceptTransaction lateEnv (takerParams 1) [] afterOneOrder).1 = false ∧
    mapCount 1 (acceptTransaction lateEnv (takerParams 1) [] afterOneOrder).2.m_pendingTransactions
      = false ∧
    mapCount 1 (acceptTransaction lateEnv (takerParams 1) [] afterOneOrder).2.m_transactions
      = false ∧
    mapFind 1 (acceptTransaction lateEnv (takerParams 1) [] afterOneOrder).2.m_utxoTxMap
      = some [utxoA] ∧
    Reachable (fun op _ => op.name ∈ orderAndRefreshOps) demoWallets
      (acceptTransaction lateEnv (takerParams 1) [] afterOneOrder).2 ∧
    (updateTimestampOrRemoveExpired lateEnv (lateEnv.mkTx (makerParams 1)) afterOneOrder).map
      (fun r => (r.1, mapCount 1 r.2.m_pendingTransactions, mapCount 1 r.2.m_transactions,
        mapFind 1 r.2.m_utxoTxMap)) = some (false, false, false, some [utxoA]) := by
  refine ⟨by decide, by decide, by decide, by decide, ?_, by decide⟩
  refine Reachable.step (.accept lateEnv (takerParams 1) []) afterOneOrder _ ?_ (by decide) rfl
  exact Reachable.step (.create demoEnv (makerParams 1) [utxoA]) _ _ Reachable.empty
    (by decide) rfl

/-- C10: on a started exchange, after eraseExpiredTransactions the pending map holds
exactly the previous entries that are neither expired by block number nor by time to
live, unchanged and in their order; the returned number is the number of entries
removed; no removed order (identified by its `id()`) has a reservation list; on an
exchange that is not started the call returns 0 and changes nothing. -/
theorem eraseExpiredTransactions_post {Tx : Type} (env : Env Tx) (e : Exchange Tx) :
    (isStarted env e = true →
      (eraseExpiredTransactions env e).2.m_pendingTransactions =
        e.m_pendingTransactions.filter
          (fun node => !(env.isExpiredByBlockNumber node.2 || env.isExpired node.2)) ∧
      (eraseExpiredTransactions env e).1 =
        (e.m_pendingTransactions.filter
          (fun node => env.isExpiredByBlockNumber node.2 || env.isExpired node.2)).length ∧
      (eraseExpiredTransactions env e).1 +
        (eraseExpiredTransactions env e).2.m_pendingTransactions.length =
          e.m_pendingTransactions.length ∧
      ∀ node ∈ e.m_pendingTransactions,
        (env.isExpiredByBlockNumber node.2 || env.isExpired node.2) = true →
        mapCount (env.id node.2) (eraseExpiredTransactions env e).2.m_utxoTxMap = false) ∧
    (isStarted env e = false → eraseExpiredTransactions env e = (0, e)) := by
  constructor
  · intro hst
    have hk : (eraseExpiredTransactions env e).2.m_pendingTransactions =
        e.m_pendingTransactions.filter (fun node => !sweepable env node) := by
      simp only [eraseExpiredTransactions, hst, Bool.not_true, Bool.false_eq_true, if_false]
      exact eraseLoop_kept env _ 0 e
    have hn : (eraseExpiredTransactions env e).1 =
        (e.m_pendingTransactions.filter (sweepable env)).length := by
      simp only [eraseExpiredTransactions, hst, Bool.not_true, Bool.false_eq_true, if_false]
      rw [eraseLoop_count]; simp
    refine ⟨hk, hn, ?_, ?_⟩
    · rw [hk, hn]
      exact length_filter_split (sweepable env) e.m_pendingTransactions
    · intro node hnode hs
      simp only [eraseExpiredTransactions, hst, Bool.not_true, Bool.false_eq_true, if_false]
      exact eraseLoop_unlisted env _ 0 e _ (Or.inr ⟨node, hnode, hs, rfl⟩)
  · intro hst
    simp [eraseExpiredTransactions, hst]

/-- C10, at a concrete input: at time 1000, of the two pending orders of `mixedAges`
order 1 (last updated at 0) is swept and order 2 (last updated at 950) stays; the call
returns 1 and order 1 has no reservation list afterwards. -/
theorem eraseExpiredTransactions_post_witness :
    isStarted lateEnv mixedAges = true ∧
    (eraseExpiredTransactions lateEnv mixedAges).1 = 1 ∧
    (eraseExpiredTransactions lateEnv mixedAges).2.m_pendingTransactions.map Prod.fst = [2] ∧
    mapCount 1 (eraseExpiredTransactions lateEnv mixedAges).2.m_utxoTxMap = false := by
  have h := (eraseExpiredTransactions_post lateEnv mixedAges).1 (by decide)
  refine ⟨by decide, ?_, ?_, ?_⟩
  · rw [h.2.1]; decide
  · rw [h.1]; decide
  · exact h.2.2.2 (1, lateEnv.mkTx (makerParams 1)) (by decide) (by decide)

/-- C11: for a transaction whose id is a key of the pending map, with `cur` the pending
descriptor, updateTimestampOrRemoveExpired returns true iff `cur` is not expired and its
update is not too soon; in that case, and only then, the pending map holds the refreshed
descriptor (on a false return every descriptor still pending is the one that was there);
a not expired order whose update is too soon leaves the whole state unchanged; an
expired order is erased from the pending map and false is returned. -/
theorem updateTimestampOrRemoveExpired_rate_limited {Tx : Type} (env : Env Tx) (tx : Tx)
    (e : Exchange Tx) (cur : Tx)
    (h : mapFind (env.id tx) e.m_pendingTransactions = some cur) :
    ∃ r, updateTimestampOrRemoveExpired env tx e = some r ∧
      (r.1 = true ↔ env.isExpired cur = false ∧ env.updateTooSoon cur = false) ∧
      (r.1 = true → r.2 = { e with
        m_pendingTransactions :=
          mapSet (env.id tx) (env.updateTimestamp cur) e.m_pendingTransactions }) ∧
      (r.1 = false → ∀ k t, mapFind k r.2.m_pendingTransactions = some t →
        mapFind k e.m_pendingTransactions = some t) ∧
      (env.isExpired cur = false → env.updateTooSoon cur = true → r = (false, e)) ∧
      (env.isExpired cur = true → r.1 = false ∧
        mapCount (env.id tx) r.2.m_pendingTransactions = false ∧
        r.2 = { e with
          m_pendingTransactions := mapErase (env.id tx) e.m_pendingTransactions }) := by
  unfold updateTimestampOrRemoveExpired
  simp only [h]
  cases hx : env.isExpired cur <;> cases hs : env.updateTooSoon cur
  · exact ⟨_, rfl, by simp, fun _ => rfl, by simp, by simp, by simp⟩
  · exact ⟨_, rfl, by simp, by simp, fun _ k t hk => hk, fun _ _ => rfl, by simp⟩
  · refine ⟨_, rfl, by simp, by simp, ?_, by simp, fun _ => ⟨rfl, mapCount_mapErase_self _ _, rfl⟩⟩
    intro _ k t hk
    by_cases hkt : k = env.id tx
    · subst hkt
      simp [mapFind_mapErase_self] at hk
    · simpa [mapFind_mapErase_ne k _ _ hkt] using hk
  · refine ⟨_, rfl, by simp, by simp, ?_, by simp, fun _ => ⟨rfl, mapCount_mapErase_self _ _, rfl⟩⟩
    intro _ k t hk
    by_cases hkt : k = env.id tx
    · subst hkt
      simp [mapFind_mapErase_self] at hk
    · simpa [mapFind_mapErase_ne k _ _ hkt] using hk

/-- C11, at concrete inputs: for order 1 of `afterOneOrder`, last updated at time 0, a
refresh at time 10 (spacing 5, time to live 100) returns true, a refresh at time 3 is
too soon and changes nothing, and a refresh at time 1000 removes the order. -/
theorem updateTimestampOrRemoveExpired_rate_limited_witness :
    mapFind (demoEnv.id (demoEnv.mkTx (makerParams 1))) afterOneOrder.m_pendingTransactions =
      some (demoEnv.mkTx (makerParams 1)) ∧
    (updateTimestampOrRemoveExpired demoEnv (demoEnv.mkTx (makerParams 1)) afterOneOrder).map
      Prod.fst = some true ∧
    updateTimestampOrRemoveExpired (descrEnv 3 100 5 [] []) (demoEnv.mkTx (makerParams 1))
      afterOneOrder = some (false, afterOneOrder) ∧
    (updateTimestampOrRemoveExpired lateEnv (demoEnv.mkTx (makerParams 1)) afterOneOrder).map
      (fun r => (r.1, mapCount 1 r.2.m_pendingTransactions)) = some (false, false) := by
  obtain ⟨r, hr, h1, -, -, -, -⟩ := updateTimestampOrRemoveExpired_rate_limited demoEnv
    (demoEnv.mkTx (makerParams 1)) afterOneOrder (demoEnv.mkTx (makerParams 1)) (by decide)
  obtain ⟨r2, hr2, -, -, -, h2, -⟩ := updateTimestampOrRemoveExpired_rate_limited
    (descrEnv 3 100 5 [] []) (demoEnv.mkTx (makerParams 1)) afterOneOrder
    (demoEnv.mkTx (makerParams 1)) (by decide)
  obtain ⟨r3, hr3, -, -, -, -, h3⟩ := updateTimestampOrRemoveExpired_rate_limited lateEnv
    (demoEnv.mkTx (makerParams 1)) afterOneOrder (demoEnv.mkTx (makerParams 1)) (by decide)
  refine ⟨by decide, ?_, ?_, ?_⟩
  · rw [hr]; simp [h1.2 ⟨by decide, by decide⟩]
  · rw [hr2, h2 (by decide) (by decide)]
  · rw [hr3]
    have := h3 (by decide)
    simp only [Option.map_some']
    rw [this.1]
    exact congrArg (fun b => some (false, b)) this.2.1

/-- C12: when both currencies are connected wallets, createTransaction returns false and
leaves the state unchanged if the source wallet's dustAmount is non-zero and greater
than sourceAmount, or the destination wallet's dustAmount is non-zero and greater than
destAmount; when neither amount is below its wallet's dustAmount (in particular when it
is equal to it) the outcome is that of the other checks alone. -/
theorem createTransaction_dust {Tx : Type} (env : Env Tx) (p : TxParams)
    (items : List UtxoEntry) (e : Exchange Tx) (wp wp2 : WalletParam)
    (hs : mapFind p.sourceCurrency e.m_wallets = some wp)
    (hd : mapFind p.destCurrency e.m_wallets = some wp2) :
    ((wp.dustAmount ≠ 0 ∧ wp.dustAmount > p.sourceAmount) ∨
        (wp2.dustAmount ≠ 0 ∧ wp2.dustAmount > p.destAmount) →
      createTransaction env p items e = (false, false, e)) ∧
    (wp.dustAmount ≤ p.sourceAmount → wp2.dustAmount ≤ p.destAmount →
      (createTransaction env p items e).1 =
        (checkUtxoItems env e p.id items && env.isValid (env.mkTx p) &&
          !env.isExpiredByBlockNumber (env.mkTx p))) := by
  have hcs : haveConnectedWallet e p.sourceCurrency = true := mapCount_of_mapFind _ _ _ hs
  have hcd : haveConnectedWallet e p.destCurrency = true := mapCount_of_mapFind _ _ _ hd
  constructor
  · intro hdust
    unfold createTransaction
    simp only [hcs, hcd, hs, hd, Option.getD_some]
    cases hc : checkUtxoItems env e p.id items
    · simp
    · rcases hdust with ⟨h0, hgt⟩ | ⟨h0, hgt⟩
      · simp [h0, hgt]
      · by_cases hsrc : wp.dustAmount ≠ 0 ∧ wp.dustAmount > p.sourceAmount
        · simp [hsrc.1, hsrc.2]
        · have h1 : (wp.dustAmount != 0 && decide (wp.dustAmount > p.sourceAmount)) = false := by
            cases hb : (wp.dustAmount != 0 && decide (wp.dustAmount > p.sourceAmount))
            · rfl
            · simp only [Bool.and_eq_true, bne_iff_ne, decide_eq_true_eq] at hb
              exact absurd hb hsrc
          simp [h1, h0, hgt]
  · intro hle hle2
    have h1 : (wp.dustAmount != 0 && decide (wp.dustAmount > p.sourceAmount)) = false := by
      have : ¬ wp.dustAmount > p.sourceAmount := by omega
      simp [this]
    have h2 : (wp2.dustAmount != 0 && decide (wp2.dustAmount > p.destAmount)) = false := by
      have : ¬ wp2.dustAmount > p.destAmount := by omega
      simp [this]
    unfold createTransaction
    simp only [hcs, hcd, hs, hd, Option.getD_some, h1, h2]
    cases checkUtxoItems env e p.id items <;> cases env.isValid (env.mkTx p) <;>
      cases env.isExpiredByBlockNumber (env.mkTx p) <;> simp

/-- C12, at concrete inputs: an order sending 25 LTC for 1000 BLOCK is refused when the
LTC wallet's dustAmount is 30, and is created when the dustAmounts are exactly 25 and
1000. -/
theorem createTransaction_dust_witness :
    mapFind "LTC" (Exchange.empty (walletsWithDust 1000 30) : Exchange Descr).m_wallets =
      some { WalletParam.new with currency := "LTC", dustAmount := 30 } ∧
    createTransaction demoEnv (makerParams 1) [utxoA] (Exchange.empty (walletsWithDust 1000 30)) =
      (false, false, Exchange.empty (walletsWithDust 1000 30)) ∧
    (createTransaction demoEnv (makerParams 1) [utxoA]
      (Exchange.empty (walletsWithDust 1000 25))).1 = true := by
  refine ⟨by decide, ?_, ?_⟩
  · exact (createTransaction_dust demoEnv (makerParams 1) [utxoA]
      (Exchange.empty (walletsWithDust 1000 30))
      { WalletParam.new with currency := "LTC", dustAmount := 30 }
      { WalletParam.new with currency := "BLOCK", dustAmount := 1000 }
      (by decide) (by decide)).1 (Or.inl ⟨by decide, by decide⟩)
  · rw [(createTransaction_dust demoEnv (makerParams 1) [utxoA]
      (Exchange.empty (walletsWithDust 1000 25))
      { WalletParam.new with currency := "LTC", dustAmount := 25 }
      { WalletParam.new with currency := "BLOCK", dustAmount := 1000 }
      (by decide) (by decide)).2 (by decide) (by decide)]
    decide

/-- C13: `operator ==` holds iff txId and vout are equal; `operator <` is the
lexicographic order on (txId, vout); neither looks at another field; for all a, b
exactly one of a < b, b < a, a == b holds and `<` is transitive; hence the contents of a
`std::set<UtxoEntry>` (the empty set, and what insert and erase make of a set) never
hold two entries with the same (txid, vout). -/
theorem utxoEntry_strict_total_order :
    (∀ a r : UtxoEntry, a.eq r = true ↔ a.txId = r.txId ∧ a.vout = r.vout) ∧
    (∀ a r : UtxoEntry, a.lt r = true ↔
      a.txId.data < r.txId.data ∨ (a.txId = r.txId ∧ a.vout < r.vout)) ∧
    (∀ a a' r r' : UtxoEntry, a.txId = a'.txId → a.vout = a'.vout → r.txId = r'.txId →
      r.vout = r'.vout → a.lt r = a'.lt r' ∧ a.eq r = a'.eq r') ∧
    (∀ a b : UtxoEntry, (a.lt b = true ∨ b.lt a = true ∨ a.eq b = true) ∧
      ¬ (a.lt b = true ∧ b.lt a = true) ∧ ¬ (a.lt b = true ∧ a.eq b = true) ∧
      ¬ (b.lt a = true ∧ a.eq b = true)) ∧
    (∀ a b c : UtxoEntry, a.lt b = true → b.lt c = true → a.lt c = true) ∧
    IsSet [] ∧
    (∀ x s, IsSet s → IsSet (setInsert x s) ∧ IsSet (setErase x s)) ∧
    (∀ s, IsSet s → s.Pairwise (fun a b => ¬ (a.txId = b.txId ∧ a.vout = b.vout))) := by
  refine ⟨fun a r => UtxoEntry.eq_iff a r, UtxoEntry.lt_iff,
    fun a a' r r' h1 h2 h3 h4 =>
      ⟨UtxoEntry.lt_congr ⟨h1, h2⟩ ⟨h3, h4⟩, UtxoEntry.eq_congr ⟨h1, h2⟩ ⟨h3, h4⟩⟩,
    fun a b => ⟨UtxoEntry.trichotomy a b, fun h => UtxoEntry.lt_asymm' h.1 h.2,
      fun h => UtxoEntry.not_eq_of_lt h.1 h.2, fun h => ?_⟩,
    fun a b c => UtxoEntry.lt_trans', List.Pairwise.nil,
    fun x s h => ⟨isSet_setInsert x s h, isSet_setErase x s h⟩,
    fun s h => isSet_distinct s h⟩
  have hs : SameOutpoint b a := ((UtxoEntry.eq_iff a b).1 h.2).symm
  exact UtxoEntry.not_eq_of_lt h.1 ((UtxoEntry.eq_iff b a).2 hs)

/-- C13, at concrete inputs: two entries with the same outpoint and different amounts
are equal for `operator ==`, and inserting the second into a set holding the first
leaves the set as it is. -/
theorem utxoEntry_strict_total_order_witness :
    ({ utxoA with amount := 5 } : UtxoEntry).eq utxoA = true ∧
    IsSet (setInsert utxoB [utxoA]) ∧
    setInsert { utxoA with amount := 5 } (setInsert utxoB [utxoA]) = [utxoA, utxoB] :=
  ⟨(utxoEntry_strict_total_order.1 _ _).2 ⟨by decide, by decide⟩,
    (utxoEntry_strict_total_order.2.2.2.2.2.2.1 utxoB [utxoA]
      (List.pairwise_singleton _ _)).1,
    by decide⟩

/-- C14: for a dxCancelOrder call with one (string) parameter, an unknown id yields
TRANSACTION_NOT_FOUND; a known order whose state is not below trCreated yields
INVALID_STATE; in both cases cancelXBridgeTransaction is not invoked, the application is
left as it is and the descriptor is not changed. A known order whose state is below
trCreated makes the command invoke cancelXBridgeTransaction(id, crRpcRequest) exactly
once, on that order: the application and the descriptor after the command are those
this call returns; when its status is not SUCCESS the reply is the error with that
status; when it is SUCCESS the reply is NO_SESSION if a connector of the cancelled
order is missing and otherwise the object built from the descriptor the call
returned. -/
theorem dxCancelOrder_gated_by_state {σ : Type} (app : App σ) (s : σ) (idStr : String) :
    (app.transaction s (app.uint256S idStr) = none →
      (dxCancelOrder app s [.str idStr]).reply = .error .TRANSACTION_NOT_FOUND ∧
      (dxCancelOrder app s [.str idStr]).calls = [] ∧
      (dxCancelOrder app s [.str idStr]).app = s ∧
      (dxCancelOrder app s [.str idStr]).descr = none) ∧
    (∀ tx, app.transaction s (app.uint256S idStr) = some tx → tx.state ≥ app.trCreated →
      (dxCancelOrder app s [.str idStr]).reply = .error .INVALID_STATE ∧
      (dxCancelOrder app s [.str idStr]).calls = [] ∧
      (dxCancelOrder app s [.str idStr]).app = s ∧
      (dxCancelOrder app s [.str idStr]).descr = some tx) ∧
    (∀ tx, app.transaction s (app.uint256S idStr) = some tx → tx.state < app.trCreated →
      (dxCancelOrder app s [.str idStr]).calls =
        [AppCall.cancelXBridgeTransaction (app.uint256S idStr) .crRpcRequest] ∧
      (dxCancelOrder app s [.str idStr]).app =
        (app.cancelXBridgeTransaction s (app.uint256S idStr) .crRpcRequest tx).2.2 ∧
      (dxCancelOrder app s [.str idStr]).descr =
        some (app.cancelXBridgeTransaction s (app.uint256S idStr) .crRpcRequest tx).2.1 ∧
      ((app.cancelXBridgeTransaction s (app.uint256S idStr) .crRpcRequest tx).1 ≠ .SUCCESS →
        (dxCancelOrder app s [.str idStr]).reply =
          .error (app.cancelXBridgeTransaction s (app.uint256S idStr) .crRpcRequest tx).1) ∧
      ((app.cancelXBridgeTransaction s (app.uint256S idStr) .crRpcRequest tx).1 = .SUCCESS →
        ∀ tx' s', (app.cancelXBridgeTransaction s (app.uint256S idStr) .crRpcRequest tx).2
            = (tx', s') →
          (app.connectorByCurrency s' tx'.fromCurrency = false ∨
              app.connectorByCurrency s' tx'.toCurrency = false →
            (dxCancelOrder app s [.str idStr]).reply = .error .NO_SESSION) ∧
          (app.connectorByCurrency s' tx'.fromCurrency = true →
              app.connectorByCurrency s' tx'.toCurrency = true →
            (dxCancelOrder app s [.str idStr]).reply =
              .object [("id", .hex (app.uint256S idStr)), ("maker", .str tx'.fromCurrency),
                ("maker_size", .amount tx'.fromAmount),
                ("maker_address", .str (app.fromXAddr tx'.fromCurrency tx'.from_)),
                ("taker", .str tx'.toCurrency), ("taker_size", .amount tx'.toAmount),
                ("taker_address", .str (app.fromXAddr tx'.toCurrency tx'.to_)),
                ("refund_tx", .str tx'.refTx), ("updated_at", .time tx'.txtime),
                ("created_at", .time tx'.created), ("status", .str (app.strState tx'))]))) := by
  refine ⟨?_, ?_, ?_⟩
  · intro h
    simp [dxCancelOrder, Value.get_str, h]
  · intro tx h hst
    simp [dxCancelOrder, Value.get_str, h, hst]
  · intro tx h hst
    have hn : ¬ tx.state ≥ app.trCreated := not_le.2 hst
    simp only [dxCancelOrder, Value.get_str, h, hn, if_false]
    refine ⟨?_, ?_, ?_, ?_, ?_⟩
    · split_ifs <;> rfl
    · split_ifs <;> rfl
    · split_ifs <;> rfl
    · intro hr
      rw [if_pos hr]
    · intro hr tx' s' hpair
      rw [if_neg (not_not.2 hr), hpair]
      dsimp only
      constructor
      · rintro (hc | hc)
        · simp [hc]
        · by_cases hf : app.connectorByCurrency s' tx'.fromCurrency = true
          · simp [hf, hc]
          · simp [hf]
      · intro hf ht
        simp [hf, ht]

/-- C14, at concrete inputs: in `demoBook`, cancelling the unknown id 9 yields
TRANSACTION_NOT_FOUND and cancelling order 2 (state Created) yields INVALID_STATE, both
without a call and with the application unchanged; cancelling order 1 (state Pending)
calls cancelXBridgeTransaction once, after which the application holds order 1 in state
Cancelled and the reply is the order object with the status of that state. -/
theorem dxCancelOrder_gated_by_state_witness :
    ((dxCancelOrder demoApp demoBook [.str "09"]).reply = .error .TRANSACTION_NOT_FOUND ∧
      (dxCancelOrder demoApp demoBook [.str "09"]).calls = [] ∧
      (dxCancelOrder demoApp demoBook [.str "09"]).app = demoBook ∧
      (dxCancelOrder demoApp demoBook [.str "09"]).descr = none) ∧
    ((dxCancelOrder demoApp demoBook [.str "02"]).reply = .error .INVALID_STATE ∧
      (dxCancelOrder demoApp demoBook [.str "02"]).calls = [] ∧
      (dxCancelOrder demoApp demoBook [.str "02"]).app = demoBook ∧
      (dxCancelOrder demoApp demoBook [.str "02"]).descr =
        some (demoOrder 2 "LTC" 2500000000 "BLOCK" 100000000000 6)) ∧
    (dxCancelOrder demoApp demoBook [.str "01"]).calls =
      [AppCall.cancelXBridgeTransaction 1 .crRpcRequest] ∧
    demoApp.transaction (dxCancelOrder demoApp demoBook [.str "01"]).app 1 =
      some (demoOrder 1 "LTC" 2500000000 "BLOCK" 100000000000 10) ∧
    (dxCancelOrder demoApp demoBook [.str "01"]).descr =
      some (demoOrder 1 "LTC" 2500000000 "BLOCK" 100000000000 10) ∧
    (dxCancelOrder demoApp demoBook [.str "01"]).reply =
      .object [("id", .hex 1), ("maker", .str "LTC"), ("maker_size", .amount 2500000000),
        ("maker_address", .str ""), ("taker", .str "BLOCK"),
        ("taker_size", .amount 100000000000), ("taker_address", .str ""),
        ("refund_tx", .str ""), ("updated_at", .time 0), ("created_at", .time 0),
        ("status", .str "canceled")] :=
  ⟨(dxCancelOrder_gated_by_state demoApp demoBook "09").1 (by decide),
    (dxCancelOrder_gated_by_state demoApp demoBook "02").2.1
      (demoOrder 2 "LTC" 2500000000 "BLOCK" 100000000000 6) (by decide) (by decide),
    ((dxCancelOrder_gated_by_state demoApp demoBook "01").2.2
      (demoOrder 1 "LTC" 2500000000 "BLOCK" 100000000000 2) (by decide) (by decide)).1,
    by decide, by decide, by decide⟩

/-- C15: a dxTakeOrder call that invokes acceptXBridgeTransaction has three string
parameters, and checkAcceptParams gave it SUCCESS and a descriptor `d`; if
acceptXBridgeTransaction leaves fromCurrency, fromAmount, toCurrency and toAmount of the
descriptor as it received them, then after the call these four fields are those of `d`
when it returned a status other than SUCCESS, and those of `d` with from and to
exchanged when it returned SUCCESS. -/
theorem dxTakeOrder_swap_reverted {σ : Type} (app : App σ) (s : σ) (params : List Value)
    (h : (dxTakeOrder app s params).calls ≠ []) :
    ∃ idStr fromAddress toAddress d,
      params = [.str idStr, .str fromAddress, .str toAddress] ∧
      app.checkAcceptParams s (app.uint256S idStr) fromAddress = (.SUCCESS, some d) ∧
      (dxTakeOrder app s params).calls =
        [AppCall.acceptXBridgeTransaction (app.uint256S idStr) fromAddress toAddress] ∧
      ((app.acceptXBridgeTransaction s (app.uint256S idStr) fromAddress toAddress
            (swapPair d)).2.1.fromCurrency = (swapPair d).fromCurrency →
        (app.acceptXBridgeTransaction s (app.uint256S idStr) fromAddress toAddress
            (swapPair d)).2.1.fromAmount = (swapPair d).fromAmount →
        (app.acceptXBridgeTransaction s (app.uint256S idStr) fromAddress toAddress
            (swapPair d)).2.1.toCurrency = (swapPair d).toCurrency →
        (app.acceptXBridgeTransaction s (app.uint256S idStr) fromAddress toAddress
            (swapPair d)).2.1.toAmount = (swapPair d).toAmount →
        ∃ d', (dxTakeOrder app s params).descr = some d' ∧
          ((app.acceptXBridgeTransaction s (app.uint256S idStr) fromAddress toAddress
              (swapPair d)).1 ≠ .SUCCESS →
            d'.fromCurrency = d.fromCurrency ∧ d'.fromAmount = d.fromAmount ∧
            d'.toCurrency = d.toCurrency ∧ d'.toAmount = d.toAmount) ∧
          ((app.acceptXBridgeTransaction s (app.uint256S idStr) fromAddress toAddress
              (swapPair d)).1 = .SUCCESS →
            d'.fromCurrency = d.toCurrency ∧ d'.fromAmount = d.toAmount ∧
            d'.toCurrency = d.fromCurrency ∧ d'.toAmount = d.fromAmount)) := by
  obtain ⟨idStr, fromAddress, toAddress, hp, he⟩ := dxTakeOrder_calls app s params h
  rw [he] at h ⊢
  obtain ⟨d, hst, hd, -, hcalls, hdescr⟩ := takeOrderChecked_calls _ _ _ _ _ _ _ _ h
  refine ⟨idStr, fromAddress, toAddress, d, hp, Prod.ext hst hd, hcalls, ?_⟩
  intro k1 k2 k3 k4
  refine ⟨_, hdescr, ?_, ?_⟩
  · intro hne
    rw [if_neg hne]
    simp only [swapPair] at k1 k2 k3 k4 ⊢
    exact ⟨k3, k4, k1, k2⟩
  · intro heq
    rw [if_pos heq]
    simp only [swapPair] at k1 k2 k3 k4
    exact ⟨k1, k2, k3, k4⟩

/-- C15, at concrete inputs: taking order 3 of `demoBook` (state Accepting) fails with
INVALID_STATE and leaves its descriptor as it was; taking order 1 (Pending) succeeds and
leaves it with from and to exchanged. -/
theorem dxTakeOrder_swap_reverted_witness :
    (dxTakeOrder demoApp demoBook [.str "03", .str "a", .str "b"]).reply =
      .error .INVALID_STATE ∧
    (dxTakeOrder demoApp demoBook [.str "03", .str "a", .str "b"]).descr =
      some (demoOrder 3 "LTC" 1000000000 "BLOCK" 50000000000 3) ∧
    (dxTakeOrder demoApp demoBook [.str "01", .str "a", .str "b"]).descr =
      some (demoOrder 1 "BLOCK" 100000000000 "LTC" 2500000000 3) ∧
    (∃ idStr fromAddress toAddress d,
      [Value.str "03", .str "a", .str "b"] = [.str idStr, .str fromAddress, .str toAddress] ∧
      demoApp.checkAcceptParams demoBook (demoApp.uint256S idStr) fromAddress =
        (.SUCCESS, some d)) := by
  obtain ⟨idStr, fromAddress, toAddress, d, hp, hc, -, -⟩ :=
    dxTakeOrder_swap_reverted demoApp demoBook [.str "03", .str "a", .str "b"] (by decide)
  exact ⟨by decide, by decide, by decide, idStr, fromAddress, toAddress, d, hp, hc⟩

/-- C16: a dxTakeOrder call whose fourth parameter is the string "dryrun" never invokes
acceptXBridgeTransaction and leaves the application state as it was; when its checks
succeed (the addresses differ, checkAcceptParams gives SUCCESS and a descriptor that is
not local, both connectors exist and both addresses are valid) the reply has the
all-zero id and status "filled" and the descriptor is unchanged; a fourth string
parameter other than "dryrun" yields INVALID_PARAMETERS without accepting. -/
theorem dxTakeOrder_dryrun {σ : Type} (app : App σ) (s : σ)
    (idStr fromAddress toAddress : String) :
    (dxTakeOrder app s [.str idStr, .str fromAddress, .str toAddress, .str "dryrun"]).calls
      = [] ∧
    (dxTakeOrder app s [.str idStr, .str fromAddress, .str toAddress, .str "dryrun"]).app
      = s ∧
    (∀ d, fromAddress ≠ toAddress →
      app.checkAcceptParams s (app.uint256S idStr) fromAddress = (.SUCCESS, some d) →
      d.isLocal = false →
      app.connectorByCurrency s d.toCurrency = true →
      app.connectorByCurrency s d.fromCurrency = true →
      app.isValidAddress s toAddress d.fromCurrency = true →
      app.isValidAddress s fromAddress d.toCurrency = true →
      (dxTakeOrder app s [.str idStr, .str fromAddress, .str toAddress, .str "dryrun"]).reply
        = .object [("id", .hex 0), ("maker", .str d.fromCurrency),
            ("maker_size", .amount d.fromAmount), ("taker", .str d.toCurrency),
            ("taker_size", .amount d.toAmount), ("updated_at", .now),
            ("created_at", .time d.created), ("status", .str "filled")] ∧
      (dxTakeOrder app s [.str idStr, .str fromAddress, .str toAddress, .str "dryrun"]).descr
        = some d) ∧
    (∀ dryrunParam, dryrunParam ≠ "dryrun" →
      (dxTakeOrder app s [.str idStr, .str fromAddress, .str toAddress,
        .str dryrunParam]).reply = .error .INVALID_PARAMETERS ∧
      (dxTakeOrder app s [.str idStr, .str fromAddress, .str toAddress,
        .str dryrunParam]).calls = [] ∧
      (dxTakeOrder app s [.str idStr, .str fromAddress, .str toAddress,
        .str dryrunParam]).app = s) := by
  have hdry : ∀ st txd,
      (takeOrderChecked app s (app.uint256S idStr) fromAddress toAddress true st txd).calls = [] ∧
      (takeOrderChecked app s (app.uint256S idStr) fromAddress toAddress true st txd).app = s := by
    intro st txd
    unfold takeOrderChecked
    split
    · split
      · exact ⟨rfl, rfl⟩
      · dsimp only
        split_ifs <;> first | exact ⟨rfl, rfl⟩ | contradiction
    · exact ⟨rfl, rfl⟩
    · split <;> exact ⟨rfl, rfl⟩
    · exact ⟨rfl, rfl⟩
    · exact ⟨rfl, rfl⟩
  have hboth :
      (dxTakeOrder app s [.str idStr, .str fromAddress, .str toAddress, .str "dryrun"]).calls
        = [] ∧
      (dxTakeOrder app s [.str idStr, .str fromAddress, .str toAddress, .str "dryrun"]).app
        = s := by
    simp only [dxTakeOrder, takeOrderParams, Value.get_str]
    split_ifs
    · exact ⟨rfl, rfl⟩
    · exact ⟨rfl, rfl⟩
    · exact hdry _ _
  refine ⟨hboth.1, hboth.2, ?_, ?_⟩
  · intro d hne hc hl h1 h2 h3 h4
    simp [dxTakeOrder, takeOrderParams, Value.get_str, hne, hc, takeOrderChecked, hl, h1, h2,
      h3, h4]
  · intro dryrunParam hd
    simp only [dxTakeOrder, takeOrderParams, Value.get_str]
    split_ifs
    · exact ⟨rfl, rfl, rfl⟩
    · exact ⟨rfl, rfl, rfl⟩

/-- C16, at concrete inputs: a dry run of taking order 1 of `demoBook` replies with
status "filled" and leaves the descriptor of order 1 unchanged; the misspelt parameter
"dryrn" yields INVALID_PARAMETERS. -/
theorem dxTakeOrder_dryrun_witness :
    (dxTakeOrder demoApp demoBook [.str "01", .str "a", .str "b", .str "dryrun"]).descr =
      some (demoOrder 1 "LTC" 2500000000 "BLOCK" 100000000000 2) ∧
    (dxTakeOrder demoApp demoBook [.str "01", .str "a", .str "b", .str "dryrn"]).reply =
      .error .INVALID_PARAMETERS :=
  ⟨((dxTakeOrder_dryrun demoApp demoBook "01" "a" "b").2.2.1
      (demoOrder 1 "LTC" 2500000000 "BLOCK" 100000000000 2) (by decide) (by decide)
      (by decide) (by decide) (by decide) (by decide) (by decide)).2,
    ((dxTakeOrder_dryrun demoApp demoBook "01" "a" "b").2.2.2 "dryrn" (by decide)).1⟩

/-- C17: for a dxMakeOrder call with at least seven (string) parameters whose two sizes
have a supported precision and are numeric, if maker_address equals taker_address the
reply is the INVALID_PARAMETERS error, sendXBridgeTransaction is not invoked and the
application state is as before. -/
theorem dxMakeOrder_same_address {σ D : Type} (ops : DoubleOps D) (app : App σ) (s : σ)
    (maker makerSize address taker takerSize type : String) (rest : List Value)
    (fromAmount toAmount : D)
    (hv1 : ops.xBridgeValidCoin makerSize = true)
    (hv2 : ops.xBridgeValidCoin takerSize = true)
    (hx : ops.lexical_cast makerSize = some fromAmount)
    (hy : ops.lexical_cast takerSize = some toAmount) :
    (dxMakeOrder ops app s (.str maker :: .str makerSize :: .str address :: .str taker ::
      .str takerSize :: .str address :: .str type :: rest)).reply =
        .error .INVALID_PARAMETERS ∧
    (dxMakeOrder ops app s (.str maker :: .str makerSize :: .str address :: .str taker ::
      .str takerSize :: .str address :: .str type :: rest)).calls = [] ∧
    (dxMakeOrder ops app s (.str maker :: .str makerSize :: .str address :: .str taker ::
      .str takerSize :: .str address :: .str type :: rest)).app = s := by
  simp only [dxMakeOrder, Value.get_str, hv1, hv2, hx, hy, makeOrderValidated]
  split_ifs <;> exact ⟨rfl, rfl, rfl⟩

/-- C17, at concrete inputs: making an order of 25 LTC for 1000 BLOCK with the address
"a" on both sides is refused with INVALID_PARAMETERS. -/
theorem dxMakeOrder_same_address_witness :
    fixedOps.xBridgeValidCoin "25" = true ∧
    fixedOps.lexical_cast "25" = some 2500000000 ∧
    (dxMakeOrder fixedOps demoApp demoBook [.str "LTC", .str "25", .str "a", .str "BLOCK",
      .str "1000", .str "a", .str "exact"]).reply = .error .INVALID_PARAMETERS ∧
    (dxMakeOrder fixedOps demoApp demoBook [.str "LTC", .str "25", .str "a", .str "BLOCK",
      .str "1000", .str "a", .str "exact"]).calls = [] :=
  ⟨by decide, by decide,
    (dxMakeOrder_same_address fixedOps demoApp demoBook "LTC" "25" "a" "BLOCK" "1000" "exact"
      [] 2500000000 100000000000 (by decide) (by decide) (by decide) (by decide)).1,
    (dxMakeOrder_same_address fixedOps demoApp demoBook "LTC" "25" "a" "BLOCK" "1000" "exact"
      [] 2500000000 100000000000 (by decide) (by decide) (by decide) (by decide)).2.1⟩

/-- C18: for a dxMakeOrder call that passes the precision, type and address checks, with
`fromAmount` and `toAmount` the sizes as read, if one of them is greater than MAX_COIN
or not greater than 0 the reply is the INVALID_PARAMETERS error, no order is submitted
and the state is as before; if neither is, the call goes on to the later checks
(`makeOrderSubmit`); in particular a size equal to MAX_COIN is not greater than
MAX_COIN, so the upper limit does not reject it. -/
theorem dxMakeOrder_amount_range {σ D : Type} (ops : DoubleOps D) (app : App σ) (s : σ)
    (maker makerSize makerAddress taker takerSize takerAddress : String) (rest : List Value)
    (fromAmount toAmount : D)
    (hv1 : ops.xBridgeValidCoin makerSize = true)
    (hv2 : ops.xBridgeValidCoin takerSize = true)
    (hx : ops.lexical_cast makerSize = some fromAmount)
    (hy : ops.lexical_cast takerSize = some toAmount)
    (haddr : makerAddress ≠ takerAddress) :
    (ops.lt (ops.ofUInt64 app.MAX_COIN) fromAmount = true ∨
        ops.lt (ops.ofUInt64 app.MAX_COIN) toAmount = true ∨
        ops.le fromAmount (ops.ofUInt64 0) = true ∨ ops.le toAmount (ops.ofUInt64 0) = true →
      (dxMakeOrder ops app s (.str maker :: .str makerSize :: .str makerAddress ::
        .str taker :: .str takerSize :: .str takerAddress :: .str "exact" :: rest)).reply =
          .error .INVALID_PARAMETERS ∧
      (dxMakeOrder ops app s (.str maker :: .str makerSize :: .str makerAddress ::
        .str taker :: .str takerSize :: .str takerAddress :: .str "exact" :: rest)).calls
          = [] ∧
      (dxMakeOrder ops app s (.str maker :: .str makerSize :: .str makerAddress ::
        .str taker :: .str takerSize :: .str takerAddress :: .str "exact" :: rest)).app
          = s) ∧
    (ops.lt (ops.ofUInt64 app.MAX_COIN) fromAmount = false →
      ops.lt (ops.ofUInt64 app.MAX_COIN) toAmount = false →
      ops.le fromAmount (ops.ofUInt64 0) = false → ops.le toAmount (ops.ofUInt64 0) = false →
      dxMakeOrder ops app s (.str maker :: .str makerSize :: .str makerAddress ::
        .str taker :: .str takerSize :: .str takerAddress :: .str "exact" :: rest) =
          makeOrderSubmit ops app s maker fromAmount makerAddress taker toAmount
            takerAddress rest) ∧
    (ops.lt (ops.ofUInt64 app.MAX_COIN) (ops.ofUInt64 app.MAX_COIN) = false →
      fromAmount = ops.ofUInt64 app.MAX_COIN → toAmount = ops.ofUInt64 app.MAX_COIN →
      ops.le (ops.ofUInt64 app.MAX_COIN) (ops.ofUInt64 0) = false →
      dxMakeOrder ops app s (.str maker :: .str makerSize :: .str makerAddress ::
        .str taker :: .str takerSize :: .str takerAddress :: .str "exact" :: rest) =
          makeOrderSubmit ops app s maker fromAmount makerAddress taker toAmount
            takerAddress rest) := by
  have hgo : ops.lt (ops.ofUInt64 app.MAX_COIN) fromAmount = false →
      ops.lt (ops.ofUInt64 app.MAX_COIN) toAmount = false →
      ops.le fromAmount (ops.ofUInt64 0) = false → ops.le toAmount (ops.ofUInt64 0) = false →
      dxMakeOrder ops app s (.str maker :: .str makerSize :: .str makerAddress ::
        .str taker :: .str takerSize :: .str takerAddress :: .str "exact" :: rest) =
          makeOrderSubmit ops app s maker fromAmount makerAddress taker toAmount
            takerAddress rest := by
    intro h1 h2 h3 h4
    simp [dxMakeOrder, Value.get_str, hv1, hv2, hx, hy, makeOrderValidated, haddr, h1, h2,
      h3, h4]
  refine ⟨?_, hgo, ?_⟩
  · intro hbad
    simp only [dxMakeOrder, Value.get_str, hv1, hv2, hx, hy, makeOrderValidated, haddr]
    cases h1 : ops.lt (ops.ofUInt64 app.MAX_COIN) fromAmount <;>
      cases h2 : ops.lt (ops.ofUInt64 app.MAX_COIN) toAmount <;>
      cases h3 : ops.le fromAmount (ops.ofUInt64 0) <;>
      cases h4 : ops.le toAmount (ops.ofUInt64 0) <;>
      simp [h1, h2, h3, h4] at hbad ⊢
  · intro hirr hf ht hpos
    subst hf ht
    exact hgo hirr hirr hpos hpos

/-- C18, at concrete inputs: a maker size of 100000000.00000001 is refused with
INVALID_PARAMETERS, a maker size of 0 too, and a maker size of exactly 100000000 passes
the limits (the dry run then replies with the object of status "created"). -/
theorem dxMakeOrder_amount_range_witness :
    (dxMakeOrder fixedOps demoApp demoBook [.str "LTC", .str "100000000.00000001", .str "a",
      .str "BLOCK", .str "1000", .str "b", .str "exact"]).reply = .error .INVALID_PARAMETERS ∧
    (dxMakeOrder fixedOps demoApp demoBook [.str "LTC", .str "0", .str "a",
      .str "BLOCK", .str "1000", .str "b", .str "exact"]).reply = .error .INVALID_PARAMETERS ∧
    dxMakeOrder fixedOps demoApp demoBook [.str "LTC", .str "100000000", .str "a",
      .str "BLOCK", .str "100000000", .str "b", .str "exact", .str "dryrun"] =
      makeOrderSubmit fixedOps demoApp demoBook "LTC" (fixedOps.ofUInt64 demoApp.MAX_COIN) "a"
        "BLOCK" (fixedOps.ofUInt64 demoApp.MAX_COIN) "b" [.str "dryrun"] :=
  ⟨((dxMakeOrder_amount_range fixedOps demoApp demoBook "LTC" "100000000.00000001" "a" "BLOCK"
      "1000" "b" [] 10000000000000001 100000000000 (by decide) (by decide) (by decide)
      (by decide) (by decide)).1 (Or.inl (by decide))).1,
    ((dxMakeOrder_amount_range fixedOps demoApp demoBook "LTC" "0" "a" "BLOCK"
      "1000" "b" [] 0 100000000000 (by decide) (by decide) (by decide)
      (by decide) (by decide)).1 (Or.inr (Or.inr (Or.inl (by decide))))).1,
    (dxMakeOrder_amount_range fixedOps demoApp demoBook "LTC" "100000000" "a" "BLOCK"
      "100000000" "b" [.str "dryrun"] (fixedOps.ofUInt64 demoApp.MAX_COIN)
      (fixedOps.ofUInt64 demoApp.MAX_COIN) (by decide) (by decide) (by decide)
      (by decide) (by decide)).2.2 (by decide) rfl rfl (by decide)⟩

/-- C19: a dxGetOrderBook call with three or four parameters (an integer detail level,
two strings and, when present, an integer max_orders) whose detail level is outside
{1, 2, 3, 4} replies with the INVALID_DETAIL_LEVEL error, whatever the orders of the
application and whatever max_orders is. -/
theorem dxGetOrderBook_bad_detail_level {σ D : Type} (ops : DoubleOps D) (app : App σ)
    (sort : (Option TransactionDescr → Option TransactionDescr → Bool) →
      List (Option TransactionDescr) → List (Option TransactionDescr))
    (s : σ) (detailLevel : Int) (maker taker : String)
    (h : detailLevel < 1 ∨ 4 < detailLevel) :
    dxGetOrderBook ops app sort s [.int detailLevel, .str maker, .str taker] =
      .error .INVALID_DETAIL_LEVEL ∧
    ∀ maxOrders : Int,
      dxGetOrderBook ops app sort s [.int detailLevel, .str maker, .str taker,
        .int maxOrders] = .error .INVALID_DETAIL_LEVEL := by
  have hc : detailLevel < 1 ∨ detailLevel > 4 := h
  constructor
  · simp [dxGetOrderBook, Value.get_int, Value.get_str, orderBook, hc]
  · intro m
    simp [dxGetOrderBook, Value.get_int, Value.get_str, orderBook, hc]

/-- C19, at concrete inputs: detail levels 0 and 5 are refused on `demoBook`, also with
max_orders -1, and on an application without orders. -/
theorem dxGetOrderBook_bad_detail_level_witness :
    dxGetOrderBook fixedOps demoApp sortBy demoBook [.int 0, .str "LTC", .str "BLOCK"] =
      .error .INVALID_DETAIL_LEVEL ∧
    dxGetOrderBook fixedOps demoApp sortBy demoBook [.int 5, .str "LTC", .str "BLOCK",
      .int (-1)] = .error .INVALID_DETAIL_LEVEL ∧
    dxGetOrderBook fixedOps demoApp sortBy ⟨[], []⟩ [.int 5, .str "LTC", .str "BLOCK"] =
      .error .INVALID_DETAIL_LEVEL :=
  ⟨(dxGetOrderBook_bad_detail_level fixedOps demoApp sortBy demoBook 0 "LTC" "BLOCK"
      (Or.inl (by decide))).1,
    (dxGetOrderBook_bad_detail_level fixedOps demoApp sortBy demoBook 5 "LTC" "BLOCK"
      (Or.inr (by decide))).2 (-1),
    (dxGetOrderBook_bad_detail_level fixedOps demoApp sortBy ⟨[], []⟩ 5 "LTC" "BLOCK"
      (Or.inr (by decide))).1⟩

/-- C20: for a dxGetOrderBook call of detail level 1 (with or without max_orders), when
`<` on prices is irreflexive and transitive: the reply holds for the bid side nothing if
the pair has no bids, and otherwise one entry whose price is the bid price of a bid that
no bid exceeds, whose count is the number of bids with a bid price epsilon-equal to it;
for the ask side nothing if the pair has no asks, and otherwise one entry whose price is
the price of an ask that no ask undercuts, whose count is the number of asks with a price
epsilon-equal to it. Bids are the pending orders with positive amounts from taker to
maker, priced by `priceBid` (fromAmount/toAmount); asks are those from maker to taker,
priced by `price` (toAmount/fromAmount). -/
theorem level1_best_prices {σ D : Type} (ops : DoubleOps D) (app : App σ)
    (sort : (Option TransactionDescr → Option TransactionDescr → Bool) →
      List (Option TransactionDescr) → List (Option TransactionDescr))
    (s : σ) (maker taker : String) (params : List Value)
    (hirr : ∀ a, ops.lt a a = false)
    (htr : ∀ a b c, ops.lt a b = true → ops.lt b c = true → ops.lt a c = true)
    (hp : params = [.int 1, .str maker, .str taker] ∨
      ∃ m : Int, params = [.int 1, .str maker, .str taker, .int m]) :
    ∃ asks bids, dxGetOrderBook ops app sort s params = .book 1 maker taker asks bids ∧
      (bidOrders app (app.transactions s) maker taker = [] → bids = []) ∧
      (bidOrders app (app.transactions s) maker taker ≠ [] →
        ∃ best ∈ bidOrders app (app.transactions s) maker taker,
          (∀ o ∈ bidOrders app (app.transactions s) maker taker,
            ops.lt (ops.priceBid (some best)) (ops.priceBid (some o)) = false) ∧
          bids = [.counted (ops.priceBid (some best)) best.toAmount
            ((bidOrders app (app.transactions s) maker taker).filter (fun o =>
              floatCompare ops (ops.priceBid (some o)) (ops.priceBid (some best)))).length]) ∧
      (askOrders app (app.transactions s) maker taker = [] → asks = []) ∧
      (askOrders app (app.transactions s) maker taker ≠ [] →
        ∃ best ∈ askOrders app (app.transactions s) maker taker,
          (∀ o ∈ askOrders app (app.transactions s) maker taker,
            ops.lt (ops.price (some o)) (ops.price (some best)) = false) ∧
          asks = [.counted (ops.price (some best)) best.fromAmount
            ((askOrders app (app.transactions s) maker taker).filter (fun o =>
              floatCompare ops (ops.price (some o)) (ops.price (some best)))).length]) := by
  have hb := level1Bids_spec ops app hirr htr (app.transactions s) maker taker
  have ha := level1Asks_spec ops app hirr htr (app.transactions s) maker taker
  refine ⟨level1Asks ops ((app.transactions s).filter (isAskEntry app maker taker)),
    level1Bids ops ((app.transactions s).filter (isBidEntry app maker taker)), ?_,
    hb.1, hb.2, ha.1, ha.2⟩
  rcases hp with rfl | ⟨m, rfl⟩
  · simp only [dxGetOrderBook, Value.get_int, Value.get_str]
    exact orderBook_level1 ops app sort _ maker taker _
  · simp only [dxGetOrderBook, Value.get_int, Value.get_str]
    exact orderBook_level1 ops app sort _ maker taker _

/-- C20, at concrete inputs: on `scenarioBook`, detail level 1 for the pair BLOCK/LTC
gives the ask price 0.0010 with count 2 and the bid price 0.0009 with count 1 (prices in
units of 10^-8), and the bid entry is the one the theorem describes. -/
theorem level1_best_prices_witness :
    (∀ a : Int, fixedOps.lt a a = false) ∧
    dxGetOrderBook fixedOps demoApp sortBy scenarioBook [.int 1, .str "BLOCK", .str "LTC"] =
      .book 1 "BLOCK" "LTC" [.counted 100000 100000000000 2] [.counted 90000 100000000000 1] ∧
    ∃ asks bids,
      dxGetOrderBook fixedOps demoApp sortBy scenarioBook [.int 1, .str "BLOCK", .str "LTC"] =
        .book 1 "BLOCK" "LTC" asks bids ∧
      (bidOrders demoApp (demoApp.transactions scenarioBook) "BLOCK" "LTC" ≠ [] →
        ∃ best ∈ bidOrders demoApp (demoApp.transactions scenarioBook) "BLOCK" "LTC",
          (∀ o ∈ bidOrders demoApp (demoApp.transactions scenarioBook) "BLOCK" "LTC",
            fixedOps.lt (fixedOps.priceBid (some best)) (fixedOps.priceBid (some o)) = false) ∧
          bids = [.counted (fixedOps.priceBid (some best)) best.toAmount
            ((bidOrders demoApp (demoApp.transactions scenarioBook) "BLOCK" "LTC").filter
              (fun o => floatCompare fixedOps (fixedOps.priceBid (some o))
                (fixedOps.priceBid (some best)))).length]) := by
  have hirr : ∀ a : Int, fixedOps.lt a a = false := fun a => by simp [fixedOps]
  have htr : ∀ a b c : Int, fixedOps.lt a b = true → fixedOps.lt b c = true →
      fixedOps.lt a c = true := by
    intro a b c h1 h2
    simp only [fixedOps, decide_eq_true_eq] at h1 h2 ⊢
    exact lt_trans h1 h2
  obtain ⟨asks, bids, h, -, hb, -, -⟩ := level1_best_prices fixedOps demoApp sortBy
    scenarioBook "BLOCK" "LTC" [.int 1, .str "BLOCK", .str "LTC"] hirr htr (Or.inl rfl)
  exact ⟨hirr, by decide, asks, bids, h, hb⟩

/-- C21 (the claim as stated fails): on `scenarioBook` the asks at the best price 0.0010
are order 1 (size 1000) and order 2 (size 2000), 3000 in total; detail level 1 reports
the count 2 but the size 1000 of order 1 alone (sizes in units of 10^-8). -/
theorem level1_size_is_not_the_total :
    dxGetOrderBook fixedOps demoApp sortBy scenarioBook [.int 1, .str "BLOCK", .str "LTC"] =
      .book 1 "BLOCK" "LTC" [.counted 100000 100000000000 2] [.counted 90000 100000000000 1] ∧
    sizeAtPrice fixedOps fixedOps.price TransactionDescr.fromAmount 100000
      (askOrders demoApp (demoApp.transactions scenarioBook) "BLOCK" "LTC") = 300000000000 ∧
    (100000000000 : Nat) ≠ 300000000000 := by
  decide

/-- C21 (amended): for a dxGetOrderBook call of detail level 1, when `<` on prices is
irreflexive and transitive and the price of every order of the pair is epsilon-equal to
itself: the size of the bid entry is the size (toAmount) of one single bid, a bid that
no bid exceeds in bid price, and the size of the ask entry is the maker size
(fromAmount) of one single ask, an ask that no ask undercuts; the sizes of the other
orders at that price are not added, so the reported size is at most the total size at
the best price. -/
theorem level1_size_of_best_order {σ D : Type} (ops : DoubleOps D) (app : App σ)
    (sort : (Option TransactionDescr → Option TransactionDescr → Bool) →
      List (Option TransactionDescr) → List (Option TransactionDescr))
    (s : σ) (maker taker : String) (params : List Value)
    (hirr : ∀ a, ops.lt a a = false)
    (htr : ∀ a b c, ops.lt a b = true → ops.lt b c = true → ops.lt a c = true)
    (hreflB : ∀ o ∈ bidOrders app (app.transactions s) maker taker,
      floatCompare ops (ops.priceBid (some o)) (ops.priceBid (some o)) = true)
    (hreflA : ∀ o ∈ askOrders app (app.transactions s) maker taker,
      floatCompare ops (ops.price (some o)) (ops.price (some o)) = true)
    (hp : params = [.int 1, .str maker, .str taker] ∨
      ∃ m : Int, params = [.int 1, .str maker, .str taker, .int m]) :
    ∃ asks bids, dxGetOrderBook ops app sort s params = .book 1 maker taker asks bids ∧
      (bidOrders app (app.transactions s) maker taker ≠ [] →
        ∃ best ∈ bidOrders app (app.transactions s) maker taker, ∃ count,
          (∀ o ∈ bidOrders app (app.transactions s) maker taker,
            ops.lt (ops.priceBid (some best)) (ops.priceBid (some o)) = false) ∧
          bids = [.counted (ops.priceBid (some best)) best.toAmount count] ∧
          best.toAmount ≤ sizeAtPrice ops ops.priceBid TransactionDescr.toAmount
            (ops.priceBid (some best)) (bidOrders app (app.transactions s) maker taker)) ∧
      (askOrders app (app.transactions s) maker taker ≠ [] →
        ∃ best ∈ askOrders app (app.transactions s) maker taker, ∃ count,
          (∀ o ∈ askOrders app (app.transactions s) maker taker,
            ops.lt (ops.price (some o)) (ops.price (some best)) = false) ∧
          asks = [.counted (ops.price (some best)) best.fromAmount count] ∧
          best.fromAmount ≤ sizeAtPrice ops ops.price TransactionDescr.fromAmount
            (ops.price (some best)) (askOrders app (app.transactions s) maker taker)) := by
  have hb := level1Bids_spec ops app hirr htr (app.transactions s) maker taker
  have ha := level1Asks_spec ops app hirr htr (app.transactions s) maker taker
  refine ⟨level1Asks ops ((app.transactions s).filter (isAskEntry app maker taker)),
    level1Bids ops ((app.transactions s).filter (isBidEntry app maker taker)), ?_, ?_, ?_⟩
  · rcases hp with rfl | ⟨m, rfl⟩
    · simp only [dxGetOrderBook, Value.get_int, Value.get_str]
      exact orderBook_level1 ops app sort _ maker taker _
    · simp only [dxGetOrderBook, Value.get_int, Value.get_str]
      exact orderBook_level1 ops app sort _ maker taker _
  · intro hne
    obtain ⟨best, hmem, hmax, hrow⟩ := hb.2 hne
    exact ⟨best, hmem, _, hmax, hrow,
      le_sizeAtPrice ops ops.priceBid _ _ best hmem (hreflB best hmem)⟩
  · intro hne
    obtain ⟨best, hmem, hmin, hrow⟩ := ha.2 hne
    exact ⟨best, hmem, _, hmin, hrow,
      le_sizeAtPrice ops ops.price _ _ best hmem (hreflA best hmem)⟩

/-- C21 (amended), at concrete inputs: on `scenarioBook` the ask entry of detail level 1
carries the size of one ask that no ask undercuts. -/
theorem level1_size_of_best_order_witness :
    ∃ asks bids,
      dxGetOrderBook fixedOps demoApp sortBy scenarioBook [.int 1, .str "BLOCK", .str "LTC"] =
        .book 1 "BLOCK" "LTC" asks bids ∧
      ∃ best ∈ askOrders demoApp (demoApp.transactions scenarioBook) "BLOCK" "LTC", ∃ count,
        asks = [.counted (fixedOps.price (some best)) best.fromAmount count] ∧
        best.fromAmount ≤ sizeAtPrice fixedOps fixedOps.price TransactionDescr.fromAmount
          (fixedOps.price (some best))
          (askOrders demoApp (demoApp.transactions scenarioBook) "BLOCK" "LTC") := by
  have hirr : ∀ a : Int, fixedOps.lt a a = false := fun a => by simp [fixedOps]
  have htr : ∀ a b c : Int, fixedOps.lt a b = true → fixedOps.lt b c = true →
      fixedOps.lt a c = true := by
    intro a b c h1 h2
    simp only [fixedOps, decide_eq_true_eq] at h1 h2 ⊢
    exact lt_trans h1 h2
  obtain ⟨asks, bids, h, -, ha⟩ := level1_size_of_best_order fixedOps demoApp sortBy
    scenarioBook "BLOCK" "LTC" [.int 1, .str "BLOCK", .str "LTC"] hirr htr
    (by decide) (by decide) (Or.inl rfl)
  obtain ⟨best, hmem, count, -, hrow, hle⟩ := ha (by decide)
  exact ⟨asks, bids, h, best, hmem, count, hrow, hle⟩

/-- C22 (the code breaks the claim): detail level 2 with the default max_orders on
`ladderBook`, whose three asks and two bids all have different prices, returns no entry
for the ask price 0.0011 and none for the bid price 0.0008, because the index is
incremented by the inner `while` and again by the `for`; and on `scenarioBook` the
entry for the ask price 0.0010 has the count 2 but the size 1000 of one order, not the
3000 of the two orders at that price (prices and sizes in units of 10^-8). -/
theorem level2_skips_orders :
    dxGetOrderBook fixedOps demoApp sortBy ladderBook [.int 2, .str "BLOCK", .str "LTC"] =
      .book 2 "BLOCK" "LTC"
        [.counted 120000 100000000000 1, .counted 100000 100000000000 1]
        [.counted 90000 100000000000 1] ∧
    dxGetOrderBook fixedOps demoApp sortBy scenarioBook [.int 2, .str "BLOCK", .str "LTC"] =
      .book 2 "BLOCK" "LTC"
        [.counted 120000 100000000000 1, .counted 100000 100000000000 2]
        [.counted 90000 100000000000 1] ∧
    sizeAtPrice fixedOps fixedOps.price TransactionDescr.fromAmount 100000
      (askOrders demoApp (demoApp.transactions scenarioBook) "BLOCK" "LTC") = 300000000000 := by
  decide

/-- C23: for a dxGetOrderBook call of detail level 3 with max_orders >= 1 (or without
it, which stands for 50), fewer than 2^31 orders, and `std::sort` returning the asks and
the bids of the pair sorted by descending price: there are listings `sortedBids` of all
bids of the pair and `sortedAsks` of all asks of the pair, each order once, in
non-increasing price order, such that with k = min(max_orders, number of orders of the
side) the bids array holds the entries `[bid price, size, id]` of the first k bids of
`sortedBids`, in that order (best bid first), and the asks array the entries
`[price, size, id]` of the last k asks of `sortedAsks`, in that order (best ask last); no
bid left out has a higher bid price than a listed one, no ask left out a lower price than
a listed one; and when the orders of a side have different ids, so have its entries. -/
theorem level3_lists_best_orders {σ D : Type} (ops : DoubleOps D) (app : App σ)
    (sort : (Option TransactionDescr → Option TransactionDescr → Bool) →
      List (Option TransactionDescr) → List (Option TransactionDescr))
    (s : σ) (maker taker : String) (params : List Value) (maxOrders : Int)
    (hlen : (app.transactions s).length < 2 ^ 31)
    (hsortA : IsSortOf (fun a b => ops.lt (ops.price b) (ops.price a))
      (((app.transactions s).filter (isAskEntry app maker taker)).map Prod.snd)
      (sort (fun a b => ops.lt (ops.price b) (ops.price a))
        (((app.transactions s).filter (isAskEntry app maker taker)).map Prod.snd)))
    (hsortB : IsSortOf (fun a b => ops.lt (ops.priceBid b) (ops.priceBid a))
      (((app.transactions s).filter (isBidEntry app maker taker)).map Prod.snd)
      (sort (fun a b => ops.lt (ops.priceBid b) (ops.priceBid a))
        (((app.transactions s).filter (isBidEntry app maker taker)).map Prod.snd)))
    (h1 : 1 ≤ maxOrders) (h2 : maxOrders < 2 ^ 31)
    (hp : params = [.int 3, .str maker, .str taker, .int maxOrders] ∨
      (maxOrders = 50 ∧ params = [.int 3, .str maker, .str taker])) :
    ∃ sortedAsks sortedBids : List TransactionDescr,
      sortedBids.Perm (bidOrders app (app.transactions s) maker taker) ∧
      sortedBids.Pairwise (fun a b =>
        ops.lt (ops.priceBid (some a)) (ops.priceBid (some b)) = false) ∧
      sortedAsks.Perm (askOrders app (app.transactions s) maker taker) ∧
      sortedAsks.Pairwise (fun a b =>
        ops.lt (ops.price (some a)) (ops.price (some b)) = false) ∧
      dxGetOrderBook ops app sort s params = .book 3 maker taker
        ((sortedAsks.drop (sortedAsks.length - min maxOrders.toNat sortedAsks.length)).map
          (askRow3 ops))
        ((sortedBids.take (min maxOrders.toNat sortedBids.length)).map (bidRow3 ops)) ∧
      (∀ a ∈ sortedBids.take (min maxOrders.toNat sortedBids.length),
        ∀ b ∈ sortedBids.drop (min maxOrders.toNat sortedBids.length),
          ops.lt (ops.priceBid (some a)) (ops.priceBid (some b)) = false) ∧
      (∀ a ∈ sortedAsks.take (sortedAsks.length - min maxOrders.toNat sortedAsks.length),
        ∀ b ∈ sortedAsks.drop (sortedAsks.length - min maxOrders.toNat sortedAsks.length),
          ops.lt (ops.price (some a)) (ops.price (some b)) = false) ∧
      (((bidOrders app (app.transactions s) maker taker).map TransactionDescr.id).Nodup →
        ((sortedBids.take (min maxOrders.toNat sortedBids.length)).map
          TransactionDescr.id).Nodup) ∧
      (((askOrders app (app.transactions s) maker taker).map TransactionDescr.id).Nodup →
        ((sortedAsks.drop (sortedAsks.length - min maxOrders.toNat sortedAsks.length)).map
          TransactionDescr.id).Nodup) := by
  obtain ⟨sa, hva, hpa, hwa⟩ := sortedVector_descr ops.price ops.lt _
    (asksList_some app (app.transactions s) maker taker) _ hsortA
  obtain ⟨sb, hvb, hpb, hwb⟩ := sortedVector_descr ops.priceBid ops.lt _
    (bidsList_some app (app.transactions s) maker taker) _ hsortB
  rw [asksList_filterMap] at hpa
  rw [bidsList_filterMap] at hpb
  have h31 : (2 : Int) ^ 31 = 2147483648 := by norm_num
  have h31n : (2 : Nat) ^ 31 = 2147483648 := by norm_num
  have hmax : max maxOrders.toNat 1 = maxOrders.toNat := by omega
  have hbook := orderBook_level3 ops app sort (app.transactions s) maker taker maxOrders.toNat
    (by omega) hlen sa sb hpa hpb hva hvb
  rw [hmax] at hbook
  refine ⟨sa, sb, hpb, hwb, hpa, hwa, ?_, ?_, ?_, ?_, ?_⟩
  · rcases hp with rfl | ⟨h50, rfl⟩
    · have hsz : toSizeT maxOrders = maxOrders.toNat := toSizeT_of_lt _ (by omega) h2
      simp only [dxGetOrderBook, Value.get_int, Value.get_str, hsz]
      exact hbook
    · subst h50
      simp only [dxGetOrderBook, Value.get_int, Value.get_str]
      exact hbook
  · intro a ha b hb
    have := hwb
    rw [← List.take_append_drop (min maxOrders.toNat sb.length) sb, List.pairwise_append] at this
    exact this.2.2 a ha b hb
  · intro a ha b hb
    have := hwa
    rw [← List.take_append_drop (sa.length - min maxOrders.toNat sa.length) sa,
      List.pairwise_append] at this
    exact this.2.2 a ha b hb
  · intro hnd
    have h := (hpb.map TransactionDescr.id).nodup_iff.2 hnd
    exact h.sublist ((List.take_sublist _ _).map _)
  · intro hnd
    have h := (hpa.map TransactionDescr.id).nodup_iff.2 hnd
    exact h.sublist ((List.drop_sublist _ _).map _)

/-- C23, at concrete inputs: on `scenarioBook`, detail level 3 with max_orders 2 lists the
two asks at 0.0010 (orders 2 and 1) and leaves out the ask at 0.0012, and lists the one
bid. -/
theorem level3_lists_best_orders_witness :
    dxGetOrderBook fixedOps demoApp sortBy scenarioBook
        [.int 3, .str "BLOCK", .str "LTC", .int 2] =
      .book 3 "BLOCK" "LTC"
        [.byId 100000 200000000000 2, .byId 100000 100000000000 1]
        [.byId 90000 100000000000 4] ∧
    ∃ sortedAsks sortedBids : List TransactionDescr,
      sortedBids.Perm (bidOrders demoApp (demoApp.transactions scenarioBook) "BLOCK" "LTC") ∧
      sortedAsks.Perm (askOrders demoApp (demoApp.transactions scenarioBook) "BLOCK" "LTC") ∧
      dxGetOrderBook fixedOps demoApp sortBy scenarioBook
          [.int 3, .str "BLOCK", .str "LTC", .int 2] =
        .book 3 "BLOCK" "LTC"
          ((sortedAsks.drop (sortedAsks.length - min (2 : Int).toNat sortedAsks.length)).map
            (askRow3 fixedOps))
          ((sortedBids.take (min (2 : Int).toNat sortedBids.length)).map (bidRow3 fixedOps)) := by
  obtain ⟨sa, sb, hpb, -, hpa, -, h, -⟩ := level3_lists_best_orders fixedOps demoApp sortBy
    scenarioBook "BLOCK" "LTC" [.int 3, .str "BLOCK", .str "LTC", .int 2] 2 (by decide)
    (fixedOps_sorts _ _) (fixedOps_sorts _ _) (by decide) (by decide) (Or.inl rfl)
  exact ⟨by decide, sa, sb, hpb, hpa, h⟩

/-- C24: for dxGetOrderBook calls of detail levels 1 and 4 on the same orders, when
`fabs(a - b) = fabs(b - a)`, the orders have pairwise different ids, and the price of
every order of the pair is epsilon-equal to itself: a side without orders is empty at
both levels, and for a side with orders level 4 holds the price and the size of the
level-1 entry followed by a list of ids that has no repetition, holds exactly the ids of
the orders of that side whose price is epsilon-equal to that price, and has as many
elements as the count of the level-1 entry. -/
theorem level4_agrees_with_level1 {σ D : Type} (ops : DoubleOps D) (app : App σ)
    (sort : (Option TransactionDescr → Option TransactionDescr → Bool) →
      List (Option TransactionDescr) → List (Option TransactionDescr))
    (s : σ) (maker taker : String) (params1 params4 : List Value)
    (hsym : ∀ a b, ops.fabs (ops.sub a b) = ops.fabs (ops.sub b a))
    (hnd : (((app.transactions s).filterMap Prod.snd).map TransactionDescr.id).Nodup)
    (hreflB : ∀ o ∈ bidOrders app (app.transactions s) maker taker,
      floatCompare ops (ops.priceBid (some o)) (ops.priceBid (some o)) = true)
    (hreflA : ∀ o ∈ askOrders app (app.transactions s) maker taker,
      floatCompare ops (ops.price (some o)) (ops.price (some o)) = true)
    (hp1 : params1 = [.int 1, .str maker, .str taker] ∨
      ∃ m : Int, params1 = [.int 1, .str maker, .str taker, .int m])
    (hp4 : params4 = [.int 4, .str maker, .str taker] ∨
      ∃ m : Int, params4 = [.int 4, .str maker, .str taker, .int m]) :
    ∃ asks1 bids1 asks4 bids4,
      dxGetOrderBook ops app sort s params1 = .book 1 maker taker asks1 bids1 ∧
      dxGetOrderBook ops app sort s params4 = .book 4 maker taker asks4 bids4 ∧
      (bidOrders app (app.transactions s) maker taker = [] → bids1 = [] ∧ bids4 = []) ∧
      (bidOrders app (app.transactions s) maker taker ≠ [] →
        ∃ p size count ids,
          bids1 = [.counted p size count] ∧ bids4 = [.price p, .size size, .ids ids] ∧
          ids.Nodup ∧
          (∀ i, i ∈ ids ↔ ∃ o ∈ bidOrders app (app.transactions s) maker taker,
            floatCompare ops (ops.priceBid (some o)) p = true ∧ o.id = i) ∧
          ids.length = count) ∧
      (askOrders app (app.transactions s) maker taker = [] → asks1 = [] ∧ asks4 = []) ∧
      (askOrders app (app.transactions s) maker taker ≠ [] →
        ∃ p size count ids,
          asks1 = [.counted p size count] ∧ asks4 = [.price p, .size size, .ids ids] ∧
          ids.Nodup ∧
          (∀ i, i ∈ ids ↔ ∃ o ∈ askOrders app (app.transactions s) maker taker,
            floatCompare ops (ops.price (some o)) p = true ∧ o.id = i) ∧
          ids.length = count) := by
  have hb := level4Bids_spec ops app hsym (app.transactions s) maker taker hnd hreflB
  have ha := level4Asks_spec ops app hsym (app.transactions s) maker taker hnd hreflA
  refine ⟨_, _, _, _, ?_, ?_, hb.1, hb.2, ha.1, ha.2⟩
  · rcases hp1 with rfl | ⟨m, rfl⟩
    · simp only [dxGetOrderBook, Value.get_int, Value.get_str]
      exact orderBook_level1 ops app sort _ maker taker _
    · simp only [dxGetOrderBook, Value.get_int, Value.get_str]
      exact orderBook_level1 ops app sort _ maker taker _
  · rcases hp4 with rfl | ⟨m, rfl⟩
    · simp only [dxGetOrderBook, Value.get_int, Value.get_str]
      exact orderBook_level4 ops app sort _ maker taker _
    · simp only [dxGetOrderBook, Value.get_int, Value.get_str]
      exact orderBook_level4 ops app sort _ maker taker _

/-- C24, at concrete inputs: on `scenarioBook` detail level 4 lists the ids 1 and 2 at the
ask price 0.0010 and the id 4 at the bid price 0.0009, and its ask side agrees with
detail level 1 as the theorem says. -/
theorem level4_agrees_with_level1_witness :
    dxGetOrderBook fixedOps demoApp sortBy scenarioBook [.int 4, .str "BLOCK", .str "LTC"] =
      .book 4 "BLOCK" "LTC" [.price 100000, .size 100000000000, .ids [1, 2]]
        [.price 90000, .size 100000000000, .ids [4]] ∧
    ∃ asks1 bids1 asks4 bids4,
      dxGetOrderBook fixedOps demoApp sortBy scenarioBook [.int 1, .str "BLOCK", .str "LTC"] =
        .book 1 "BLOCK" "LTC" asks1 bids1 ∧
      dxGetOrderBook fixedOps demoApp sortBy scenarioBook [.int 4, .str "BLOCK", .str "LTC"] =
        .book 4 "BLOCK" "LTC" asks4 bids4 ∧
      ∃ p size count ids,
        asks1 = [.counted p size count] ∧ asks4 = [.price p, .size size, .ids ids] ∧
        ids.Nodup ∧ ids.length = count := by
  obtain ⟨asks1, bids1, asks4, bids4, h1, h4, -, -, -, ha⟩ := level4_agrees_with_level1
    fixedOps demoApp sortBy scenarioBook "BLOCK" "LTC" [.int 1, .str "BLOCK", .str "LTC"]
    [.int 4, .str "BLOCK", .str "LTC"]
    (fun a b => by simp only [fixedOps]; rw [abs_sub_comm])
    (by decide) (by decide) (by decide) (Or.inl rfl) (Or.inl rfl)
  obtain ⟨p, size, count, ids, e1, e4, hnd, -, hlen⟩ := ha (by decide)
  exact ⟨by decide, asks1, bids1, asks4, bids4, h1, h4, p, size, count, ids, e1, e4, hnd, hlen⟩

/-- C25 (the claim as stated fails): on `crowdedBook`, which has 51 bids, detail level 3
with max_orders 60 returns 51 bid entries, more than 50. -/
theorem max_orders_above_fifty :
    ((dxGetOrderBook fixedOps demoApp sortBy crowdedBook
      [.int 3, .str "BLOCK", .str "LTC", .int 60]).bids.map List.length) = some 51 ∧
    (bidOrders demoApp (demoApp.transactions crowdedBook) "BLOCK" "LTC").length = 51 ∧
    ¬ (51 ≤ min (min (max 60 1) 50) 51) := by
  decide

/-- C25 (amended): for a dxGetOrderBook call with a max_orders parameter from 0 to
2^31 - 1 (or without it, which stands for 50), fewer than 2^31 orders, and `std::sort`
rearranging its input: at detail level 3 each side has exactly
min(max(max_orders, 1), number of orders of the side) entries, and at detail level 2 at
most that many. The parameter is raised to 1 when it is 0 and is not lowered when it
exceeds 50; negative values are not covered. -/
theorem max_orders_only_raised_to_one {σ D : Type} (ops : DoubleOps D) (app : App σ)
    (sort : (Option TransactionDescr → Option TransactionDescr → Bool) →
      List (Option TransactionDescr) → List (Option TransactionDescr))
    (s : σ) (maker taker : String) (maxOrders : Int)
    (hlen : (app.transactions s).length < 2 ^ 31)
    (hperm : ∀ comp l, (sort comp l).Perm l)
    (h0 : 0 ≤ maxOrders) (h2 : maxOrders < 2 ^ 31) :
    (∀ params, (params = [.int 3, .str maker, .str taker, .int maxOrders] ∨
        (maxOrders = 50 ∧ params = [.int 3, .str maker, .str taker])) →
      ∃ asks bids, dxGetOrderBook ops app sort s params = .book 3 maker taker asks bids ∧
        asks.length = min (max maxOrders.toNat 1)
          (askOrders app (app.transactions s) maker taker).length ∧
        bids.length = min (max maxOrders.toNat 1)
          (bidOrders app (app.transactions s) maker taker).length) ∧
    (∀ params, (params = [.int 2, .str maker, .str taker, .int maxOrders] ∨
        (maxOrders = 50 ∧ params = [.int 2, .str maker, .str taker])) →
      ∃ asks bids, dxGetOrderBook ops app sort s params = .book 2 maker taker asks bids ∧
        asks.length ≤ min (max maxOrders.toNat 1)
          (askOrders app (app.transactions s) maker taker).length ∧
        bids.length ≤ min (max maxOrders.toNat 1)
          (bidOrders app (app.transactions s) maker taker).length) := by
  obtain ⟨sa, hva, hpa⟩ := permVector_descr _
    (asksList_some app (app.transactions s) maker taker) _
    (hperm (fun a b => ops.lt (ops.price b) (ops.price a)) _)
  obtain ⟨sb, hvb, hpb⟩ := permVector_descr _
    (bidsList_some app (app.transactions s) maker taker) _
    (hperm (fun a b => ops.lt (ops.priceBid b) (ops.priceBid a)) _)
  rw [asksList_filterMap] at hpa
  rw [bidsList_filterMap] at hpb
  have h31 : (2 : Int) ^ 31 = 2147483648 := by norm_num
  have h31n : (2 : Nat) ^ 31 = 2147483648 := by norm_num
  have hsz : toSizeT maxOrders = maxOrders.toNat := toSizeT_of_lt _ h0 h2
  have hbook3 := orderBook_level3 ops app sort (app.transactions s) maker taker
    maxOrders.toNat (by omega) hlen sa sb hpa hpb hva hvb
  obtain ⟨asks2, bids2, hbook2, hal, hbl⟩ := orderBook_level2 ops app sort
    (app.transactions s) maker taker maxOrders.toNat (by omega) hlen sa sb hpa hpb hva hvb
  rw [← hpa.length_eq, ← hpb.length_eq]
  constructor
  · intro params hp
    refine ⟨(sa.drop (sa.length - min (max maxOrders.toNat 1) sa.length)).map (askRow3 ops),
      (sb.take (min (max maxOrders.toNat 1) sb.length)).map (bidRow3 ops), ?_, ?_, ?_⟩
    · rcases hp with rfl | ⟨h50, rfl⟩
      · simp only [dxGetOrderBook, Value.get_int, Value.get_str, hsz]
        exact hbook3
      · subst h50
        simp only [dxGetOrderBook, Value.get_int, Value.get_str]
        exact hbook3
    · simp only [List.length_map, List.length_drop]
      omega
    · simp only [List.length_map, List.length_take]
      omega
  · intro params hp
    refine ⟨asks2, bids2, ?_, hal, hbl⟩
    rcases hp with rfl | ⟨h50, rfl⟩
    · simp only [dxGetOrderBook, Value.get_int, Value.get_str, hsz]
      exact hbook2
    · subst h50
      simp only [dxGetOrderBook, Value.get_int, Value.get_str]
      exact hbook2

/-- C25 (amended), at concrete inputs: on `scenarioBook` with max_orders 0, detail level
3 returns one ask and one bid. -/
theorem max_orders_only_raised_to_one_witness :
    ∃ asks bids,
      dxGetOrderBook fixedOps demoApp sortBy scenarioBook
        [.int 3, .str "BLOCK", .str "LTC", .int 0] = .book 3 "BLOCK" "LTC" asks bids ∧
      asks.length = min (max (0 : Int).toNat 1)
        (askOrders demoApp (demoApp.transactions scenarioBook) "BLOCK" "LTC").length ∧
      bids.length = min (max (0 : Int).toNat 1)
        (bidOrders demoApp (demoApp.transactions scenarioBook) "BLOCK" "LTC").length :=
  (max_orders_only_raised_to_one fixedOps demoApp sortBy scenarioBook "BLOCK" "LTC" 0
    (by decide) (fun comp l => sortBy_perm comp l) (by decide) (by decide)).1 _ (Or.inl rfl)

/-- C26: for a dxGetMyOrders call without parameters, when the active map and the
history hold no null pointer and `std::sort` sorts by ascending txtime: the reply is the
array of the objects of a list `kept` of orders in which no two orders have the same id,
the txtime is non-decreasing, every order is a local active order or a local historical
order in state Finished or Cancelled, and the ids are exactly the ids of the local
active orders together with the ids of the local historical orders in state Finished or
Cancelled. -/
theorem dxGetMyOrders_lists_local_orders {σ : Type} (app : App σ) (hist : AppHistory σ)
    (sort : (TransactionDescr → TransactionDescr → Bool) →
      List TransactionDescr → List TransactionDescr)
    (s : σ)
    (hactive : ∀ tp ∈ app.transactions s, tp.2 ≠ none)
    (hpast : ∀ tp ∈ hist.history s, tp.2 ≠ none)
    (hsort : ∀ l, IsSortOf (fun a b => decide (a.txtime < b.txtime)) l
      (sort (fun a b => decide (a.txtime < b.txtime)) l)) :
    ∃ kept : List TransactionDescr,
      dxGetMyOrders app hist sort s [] = .array (kept.map (myOrderObject app s)) ∧
      (kept.map TransactionDescr.id).Nodup ∧
      kept.Pairwise (fun a b => a.txtime ≤ b.txtime) ∧
      (∀ t ∈ kept,
        (t ∈ (app.transactions s).filterMap Prod.snd ∧ t.isLocal = true) ∨
        (t ∈ (hist.history s).filterMap Prod.snd ∧ t.isLocal = true ∧
          (t.state = hist.trFinished ∨ t.state = hist.trCancelled))) ∧
      (∀ i, i ∈ kept.map TransactionDescr.id ↔
        (∃ d ∈ (app.transactions s).filterMap Prod.snd, d.isLocal = true ∧ d.id = i) ∨
        (∃ d ∈ (hist.history s).filterMap Prod.snd, d.isLocal = true ∧
          (d.state = hist.trFinished ∨ d.state = hist.trCancelled) ∧ d.id = i)) := by
  have hA := collectOrders_eq (fun t => t.isLocal) (app.transactions s) hactive
  have hP := collectOrders_eq (fun ptr => ptr.isLocal &&
    (decide (ptr.state = hist.trFinished) || decide (ptr.state = hist.trCancelled)))
    (hist.history s) hpast
  obtain ⟨hperm, hpw⟩ := hsort
    (((app.transactions s).filterMap Prod.snd).filter (fun t => t.isLocal) ++
      ((hist.history s).filterMap Prod.snd).filter (fun ptr => ptr.isLocal &&
        (decide (ptr.state = hist.trFinished) || decide (ptr.state = hist.trCancelled))))
  have hmemA : ∀ t, t ∈ ((app.transactions s).filterMap Prod.snd).filter (fun t => t.isLocal) ↔
      t ∈ (app.transactions s).filterMap Prod.snd ∧ t.isLocal = true := by
    intro t; simp [List.mem_filter]
  have hmemP : ∀ t, t ∈ ((hist.history s).filterMap Prod.snd).filter (fun ptr => ptr.isLocal &&
        (decide (ptr.state = hist.trFinished) || decide (ptr.state = hist.trCancelled))) ↔
      t ∈ (hist.history s).filterMap Prod.snd ∧ t.isLocal = true ∧
        (t.state = hist.trFinished ∨ t.state = hist.trCancelled) := by
    intro t; simp [List.mem_filter]
  generalize ((app.transactions s).filterMap Prod.snd).filter (fun t => t.isLocal) = active
    at hA hperm hpw hmemA
  generalize ((hist.history s).filterMap Prod.snd).filter (fun ptr => ptr.isLocal &&
    (decide (ptr.state = hist.trFinished) || decide (ptr.state = hist.trCancelled))) = past
    at hP hperm hpw hmemP
  have hmem : ∀ t, t ∈ sort (fun a b => decide (a.txtime < b.txtime)) (active ++ past) ↔
      t ∈ active ∨ t ∈ past := by
    intro t
    rw [hperm.mem_iff, List.mem_append]
  refine ⟨dedupeById (sort (fun a b => decide (a.txtime < b.txtime)) (active ++ past)) [],
    ?_, nodup_dedupeById _ _, ?_, ?_, ?_⟩
  · unfold dxGetMyOrders
    simp only [List.isEmpty_nil, Bool.not_true, Bool.false_eq_true, if_false, hA, hP]
    by_cases he : (active ++ past).isEmpty = true
    · have hnil : active ++ past = [] := List.isEmpty_iff.1 he
      have hs : sort (fun a b => decide (a.txtime < b.txtime)) (active ++ past) = [] := by
        rw [hnil] at hperm ⊢
        exact hperm.eq_nil
      simp only [he, if_true, hs, dedupeById, List.map_nil]
    · simp only [he, Bool.false_eq_true, if_false, myOrdersLoop_eq]
  · have h1 : (sort (fun a b => decide (a.txtime < b.txtime)) (active ++ past)).Pairwise
        (fun a b => a.txtime ≤ b.txtime) := by
      refine hpw.imp ?_
      intro a b hab
      simp only [decide_eq_false_iff_not, not_lt] at hab
      exact hab
    exact h1.sublist (dedupeById_sublist _ _)
  · intro t ht
    have := (dedupeById_sublist _ _).subset ht
    rcases (hmem t).1 this with h | h
    · exact Or.inl ((hmemA t).1 h)
    · exact Or.inr ((hmemP t).1 h)
  · intro i
    rw [mem_dedupeById]
    simp only [List.not_mem_nil, not_false_eq_true, and_true, List.mem_map]
    constructor
    · rintro ⟨t, ht, hi⟩
      rcases (hmem t).1 ht with h | h
      · exact Or.inl ⟨t, ((hmemA t).1 h).1, ((hmemA t).1 h).2, hi⟩
      · exact Or.inr ⟨t, ((hmemP t).1 h).1, ((hmemP t).1 h).2.1, ((hmemP t).1 h).2.2, hi⟩
    · rintro (⟨d, hd, hl, hi⟩ | ⟨d, hd, hl, hst, hi⟩)
      · exact ⟨d, (hmem d).2 (Or.inl ((hmemA d).2 ⟨hd, hl⟩)), hi⟩
      · exact ⟨d, (hmem d).2 (Or.inr ((hmemP d).2 ⟨hd, hl, hst⟩)), hi⟩

/-- C26, at concrete inputs: with `myBook` and `demoHistory` the command returns the
orders 3, 6 and 1 (updated at 130, 200 and 250); order 1, which is both active and in
the history, appears once, and the remote orders 2, 5 and 7 do not appear. -/
theorem dxGetMyOrders_lists_local_orders_witness :
    (dxGetMyOrders demoApp demoHistory sortBy myBook []).ids = some [.hex 3, .hex 6, .hex 1] ∧
    ∃ kept : List TransactionDescr,
      dxGetMyOrders demoApp demoHistory sortBy myBook [] =
        .array (kept.map (myOrderObject demoApp myBook)) ∧
      (kept.map TransactionDescr.id).Nodup ∧
      kept.Pairwise (fun a b => a.txtime ≤ b.txtime) := by
  obtain ⟨kept, h, hnd, hpw, -⟩ := dxGetMyOrders_lists_local_orders demoApp demoHistory sortBy
    myBook (by decide) (by decide) sortBy_txtime_asc
  exact ⟨by decide, kept, h, hnd, hpw⟩

/-- C27: for a dxGetOrderFills call with the strings maker and taker and a boolean
`combined` (true when omitted), when the history holds no null pointer and `std::sort`
sorts by descending txtime: the reply is the array of the objects of a rearrangement of
`fillsOf` (the historical orders in state Finished from maker to taker, and with
`combined` also those from taker to maker) in which the txtime is non-increasing; and an
order is among the combined fills of (maker, taker) exactly when it is among the
non-combined fills of (maker, taker) or of (taker, maker). -/
theorem dxGetOrderFills_filters_and_orders {σ : Type} (hist : AppHistory σ)
    (sort : (TransactionDescr → TransactionDescr → Bool) →
      List TransactionDescr → List TransactionDescr)
    (s : σ) (maker taker : String)
    (hpast : ∀ tp ∈ hist.history s, tp.2 ≠ none)
    (hsort : ∀ l, IsSortOf (fun a b => decide (b.txtime < a.txtime)) l
      (sort (fun a b => decide (b.txtime < a.txtime)) l)) :
    (∀ params combined, (params = [.str maker, .str taker, .bool combined] ∨
        (combined = true ∧ params = [.str maker, .str taker])) →
      ∃ fills : List TransactionDescr,
        dxGetOrderFills hist sort s params = .array (fills.map fillObject) ∧
        fills.Perm (fillsOf hist s maker taker combined) ∧
        fills.Pairwise (fun a b => b.txtime ≤ a.txtime)) ∧
    (∀ d, d ∈ fillsOf hist s maker taker true ↔
      d ∈ fillsOf hist s maker taker false ∨ d ∈ fillsOf hist s taker maker false) := by
  constructor
  · intro params combined hp
    have hc := collectOrders_eq (isFill hist maker taker combined) (hist.history s) hpast
    have hf : ((hist.history s).filterMap Prod.snd).filter (isFill hist maker taker combined) =
        fillsOf hist s maker taker combined := by
      unfold fillsOf
      exact List.filter_congr (fun d _ => isFill_eq hist maker taker combined d)
    rw [hf] at hc
    obtain ⟨hperm, hpw⟩ := hsort (fillsOf hist s maker taker combined)
    refine ⟨sort (fun a b => decide (b.txtime < a.txtime)) (fillsOf hist s maker taker combined),
      ?_, hperm, ?_⟩
    · rcases hp with rfl | ⟨rfl, rfl⟩
      · simp only [dxGetOrderFills, Value.get_bool, orderFills, Value.get_str, hc]
      · simp only [dxGetOrderFills, orderFills, Value.get_str, hc]
    · refine hpw.imp ?_
      intro a b hab
      simp only [decide_eq_false_iff_not, not_lt] at hab
      exact hab
  · intro d
    simp only [fillsOf, List.mem_filter, decide_eq_true_eq]
    constructor
    · rintro ⟨hd, hst, h | ⟨-, h⟩⟩
      · exact Or.inl ⟨hd, hst, Or.inl h⟩
      · exact Or.inr ⟨hd, hst, Or.inl h⟩
    · rintro (⟨hd, hst, h | ⟨hf, -⟩⟩ | ⟨hd, hst, h | ⟨hf, -⟩⟩)
      · exact ⟨hd, hst, Or.inl h⟩
      · cases hf
      · exact ⟨hd, hst, Or.inr ⟨trivial, h⟩⟩
      · cases hf

/-- C27, at concrete inputs: with `demoHistory` the fills of BLOCK/LTC are the orders 7, 1
and 5 (updated at 500, 400 and 300); without `combined` they are 7 and 1, and those of
LTC/BLOCK are order 5; the cancelled order 6 is not a fill. -/
theorem dxGetOrderFills_filters_and_orders_witness :
    (dxGetOrderFills demoHistory sortBy myBook [.str "BLOCK", .str "LTC"]).ids =
      some [.hex 7, .hex 1, .hex 5] ∧
    (dxGetOrderFills demoHistory sortBy myBook [.str "BLOCK", .str "LTC", .bool false]).ids =
      some [.hex 7, .hex 1] ∧
    (dxGetOrderFills demoHistory sortBy myBook [.str "LTC", .str "BLOCK", .bool false]).ids =
      some [.hex 5] ∧
    ∃ fills : List TransactionDescr,
      dxGetOrderFills demoHistory sortBy myBook [.str "BLOCK", .str "LTC"] =
        .array (fills.map fillObject) ∧
      fills.Perm (fillsOf demoHistory myBook "BLOCK" "LTC" true) ∧
      fills.Pairwise (fun a b => b.txtime ≤ a.txtime) :=
  ⟨by decide, by decide, by decide,
    (dxGetOrderFills_filters_and_orders demoHistory sortBy myBook "BLOCK" "LTC" (by decide)
      sortBy_txtime_desc).1 _ true (Or.inr ⟨rfl, rfl⟩)⟩

/-- C29: for a list of one output whose script is not empty and which `Solver` classifies
as multisig with the solution vector `solutions`: with at least 4 slots, `snode_pubkey`
is the encoded key id of slot 1 and the payload is `multisigPayload solutions` (bytes 1
to 64 of the slots 2 to n-2, in slot order, up to the first slot whose length is not
65): the result is Empty when that payload is empty and otherwise the validation of
that payload, which hands it to the JSON reader; with fewer than 4 slots the result is
Empty and `snode_pubkey` stays empty. -/
theorem TxOutToCurrencyPair_single_multisig (ops : ChainOps) (out : CTxOut)
    (solutions : List (List Nat)) (hscript : out.scriptPubKey ≠ [])
    (hsolver : ops.Solver out.scriptPubKey = (.TX_MULTISIG, solutions)) :
    (4 ≤ solutions.length →
      TxOutToCurrencyPair ops [out] =
        if multisigPayload solutions = [] then
          (.Empty, ops.encodeKeyId (solutions[1]?.getD []))
        else
          (validatePayload ops (multisigPayload solutions),
            ops.encodeKeyId (solutions[1]?.getD []))) ∧
    (solutions.length < 4 → TxOutToCurrencyPair ops [out] = (.Empty, "")) := by
  have hne : out.scriptPubKey.isEmpty = false := by
    cases h : out.scriptPubKey with
    | nil => exact absurd h hscript
    | cons _ _ => rfl
  constructor
  · intro h4
    have hloop := multisigLoop_eq solutions solutions.length 2 [] (by omega)
    have hscan : scanOutput ops ⟨[], false, ""⟩ out =
        ⟨multisigPayload solutions, false, ops.encodeKeyId (solutions[1]?.getD [])⟩ := by
      unfold scanOutput
      simp only [hne, Bool.false_eq_true, if_false, hsolver]
      rw [if_neg (by omega), hloop]
      simp [multisigPayload]
    unfold TxOutToCurrencyPair
    simp only [List.isEmpty_cons, Bool.false_eq_true, if_false, List.foldl_cons, List.foldl_nil,
      hscan]
    by_cases hp : multisigPayload solutions = []
    · simp [hp]
    · have : (multisigPayload solutions).isEmpty = false := by
        cases h : multisigPayload solutions with
        | nil => exact absurd h hp
        | cons _ _ => rfl
      simp [hp, this]
  · intro h4
    have hscan : scanOutput ops ⟨[], false, ""⟩ out = ⟨[], false, ""⟩ := by
      unfold scanOutput
      simp only [hne, Bool.false_eq_true, if_false, hsolver]
      rw [if_pos h4]
    unfold TxOutToCurrencyPair
    simp [hscan]

set_option maxRecDepth 100000 in
/-- C29, at concrete inputs: `multisigOut` has the slots `multisigSlots`; its payload is
the 64 bytes 7 of slot 2 followed by the 64 bytes 8 of slot 3, which `demoChain` reads
as a valid record, and the service node is "sn". -/
theorem TxOutToCurrencyPair_single_multisig_witness :
    multisigOut.scriptPubKey ≠ [] ∧
    demoChain.Solver multisigOut.scriptPubKey = (.TX_MULTISIG, multisigSlots) ∧
    multisigPayload multisigSlots = List.replicate 64 7 ++ List.replicate 64 8 ∧
    TxOutToCurrencyPair demoChain [multisigOut] =
      (.Valid "a1" "BLOCK" 100000000000 "LTC" 100000000, "sn") ∧
    TxOutToCurrencyPair demoChain [multisigOut] =
      if multisigPayload multisigSlots = [] then
        (.Empty, demoChain.encodeKeyId (multisigSlots[1]?.getD []))
      else
        (validatePayload demoChain (multisigPayload multisigSlots),
          demoChain.encodeKeyId (multisigSlots[1]?.getD [])) :=
  ⟨by decide, by decide, by decide, by decide,
    (TxOutToCurrencyPair_single_multisig demoChain multisigOut multisigSlots (by decide)
      (by decide)).1 (by decide)⟩

/-- C30 (the code breaks the claim): `dxGetOrderHistory` answers every call with nine
parameters, such as BLOCK LTC 0 3600 60 false false 10 at_end, with the error
INVALID_PARAMETERS, because the check of the parameter count refuses more than eight;
and with eight parameters the query is built with the default interval timestamp, so
that at_end cannot be asked for. -/
theorem dxGetOrderHistory_rejects_ninth_parameter {σ Q A : Type} (ops : XSeriesOps σ Q A)
    (s : σ) :
    (∀ p0 p1 p2 p3 p4 p5 p6 p7 p8 : Value,
      dxGetOrderHistory ops s [p0, p1, p2, p3, p4, p5, p6, p7, p8] =
        .error .INVALID_PARAMETERS) ∧
    dxGetOrderHistory ops s [.str "BLOCK", .str "LTC", .int 0, .int 3600, .int 60,
      .bool false, .bool false, .int 10, .str "at_end"] = .error .INVALID_PARAMETERS ∧
    (∀ (maker taker : String) (start end_ granularity limit : Int)
        (with_txids with_inverse : Bool),
      dxGetOrderHistory ops s [.str maker, .str taker, .int start, .int end_,
        .int granularity, .bool with_txids, .bool with_inverse, .int limit] =
        orderHistoryRows ops s
          (ops.xQuery maker taker granularity start end_ with_txids with_inverse
            (some limit) none)) := by
  refine ⟨?_, ?_, ?_⟩
  · intro p0 p1 p2 p3 p4 p5 p6 p7 p8
    simp [dxGetOrderHistory]
  · simp [dxGetOrderHistory]
  · intro maker taker start end_ granularity limit with_txids with_inverse
    simp [dxGetOrderHistory, optionalParam, Value.get_str, Value.get_int, Value.get_int64,
      Value.get_bool]

/-- C31 (the code breaks the claim): `gettradingdata` can never show errors. Every call
with two parameters, so every call that gives `errors`, throws the help text, and no
array the command returns holds an error object. On `errorChain`, whose one scanned
transaction yields the Error "bad from amount", the call with 10 and true throws and the
call with 10 returns the empty array, although the scan with `showErrors` set would
return the object with timestamp 100, txid 7 and that reason. -/
theorem gettradingdata_never_shows_errors :
    (∀ (ops : ChainOps) (chain : List CBlockIndex) (p0 p1 : Value),
      gettradingdata ops chain [p0, p1] = .thrown) ∧
    (∀ (ops : ChainOps) (chain : List CBlockIndex) (params : List Value) l,
      gettradingdata ops chain params = .records l →
        ∀ r ∈ l, ∀ t txid xid, r ≠ .error t txid xid) ∧
    gettradingdata demoChain errorChain [.int 10, .bool true] = .thrown ∧
    gettradingdata demoChain errorChain [.int 10] = .records [] ∧
    tradingScan demoChain errorChain 10 true = .records [.error 100 7 "bad from amount"] :=
  ⟨fun ops chain => (gettradingdata_records_no_error ops chain).1,
    fun ops chain => (gettradingdata_records_no_error ops chain).2,
    by decide, by decide, by decide⟩

/-- C32: `makerUtxosAreStillValid` returns true without a query to the chain and without
a change of the transaction when fewer whole seconds than the configured interval have
passed since the last check; otherwise the transaction after the call is the one with
the time of the last check set to the current time, the result is false exactly when
the maker currency has a connector and `getTxOut` fails for one maker outpoint, without
a connector the result is true and nothing is queried, and the queries are a prefix of
the maker outpoints. For a last check that is not in the future, fewer whole seconds
than N means less than N million microseconds; and the interval is 900 seconds when
`-orderinputscheck` is not set. -/
theorem makerUtxosAreStillValid_spec {Tx : Type} (env : CheckEnv Tx) (tx : Tx) :
    (total_seconds (env.current - env.utxoCheckTime tx) < env.orderinputscheck.getD 900 →
      makerUtxosAreStillValid env tx = (true, tx, [])) ∧
    (¬ total_seconds (env.current - env.utxoCheckTime tx) < env.orderinputscheck.getD 900 →
      (makerUtxosAreStillValid env tx).2.1 = env.updateUtxoCheckTime tx env.current ∧
      ((makerUtxosAreStillValid env tx).1 = false ↔
        env.connectorByCurrency
            (env.a_currency (env.updateUtxoCheckTime tx env.current)) = true ∧
          ∃ entry ∈ env.a_utxos (env.updateUtxoCheckTime tx env.current),
            env.getTxOut (env.a_currency (env.updateUtxoCheckTime tx env.current)) entry
              = false) ∧
      (env.connectorByCurrency
          (env.a_currency (env.updateUtxoCheckTime tx env.current)) = false →
        (makerUtxosAreStillValid env tx).1 = true ∧
          (makerUtxosAreStillValid env tx).2.2 = []) ∧
      (makerUtxosAreStillValid env tx).2.2 <+:
        env.a_utxos (env.updateUtxoCheckTime tx env.current)) ∧
    (env.utxoCheckTime tx ≤ env.current →
      (total_seconds (env.current - env.utxoCheckTime tx) < env.orderinputscheck.getD 900 ↔
        env.current - env.utxoCheckTime tx < env.orderinputscheck.getD 900 * 1000000)) ∧
    (env.orderinputscheck = none → env.orderinputscheck.getD 900 = 900) := by
  refine ⟨?_, ?_, ?_, ?_⟩
  · intro h
    unfold makerUtxosAreStillValid
    rw [if_pos h]
  · intro h
    unfold makerUtxosAreStillValid
    rw [if_neg h]
    dsimp only
    by_cases hc : env.connectorByCurrency
        (env.a_currency (env.updateUtxoCheckTime tx env.current)) = true
    · simp only [hc, Bool.not_true, Bool.false_eq_true, if_false, true_and]
      refine ⟨makerUtxosLoop_false_iff env _ _, ?_, makerUtxosLoop_queries env _ _⟩
      intro hf
      cases hf
    · simp only [Bool.not_eq_true] at hc
      simp [hc]
  · intro hle
    exact total_seconds_lt_iff _ _ (by omega)
  · intro h
    rw [h]
    rfl

/-- C32, at concrete inputs: 899.999999 seconds after the last check nothing happens
(the theorem, at that input); after 900 seconds the check runs and fails at a spent
outpoint, passes when no outpoint is spent, and passes without a query when the maker
currency has no wallet. -/
theorem makerUtxosAreStillValid_spec_witness :
    makerUtxosAreStillValid (demoCheckEnv 899999999 [utxoA]) ⟨"LTC", [utxoA, utxoB], 0⟩ =
      (true, ⟨"LTC", [utxoA, utxoB], 0⟩, []) ∧
    makerUtxosAreStillValid (demoCheckEnv 900000000 [utxoB]) ⟨"LTC", [utxoA, utxoB], 0⟩ =
      (false, ⟨"LTC", [utxoA, utxoB], 900000000⟩, [utxoA, utxoB]) ∧
    makerUtxosAreStillValid (demoCheckEnv 900000000 []) ⟨"LTC", [utxoA, utxoB], 0⟩ =
      (true, ⟨"LTC", [utxoA, utxoB], 900000000⟩, [utxoA, utxoB]) ∧
    makerUtxosAreStillValid (demoCheckEnv 900000000 [utxoA]) ⟨"DOGE", [utxoA, utxoB], 0⟩ =
      (true, ⟨"DOGE", [utxoA, utxoB], 900000000⟩, []) :=
  ⟨(makerUtxosAreStillValid_spec (demoCheckEnv 899999999 [utxoA])
      ⟨"LTC", [utxoA, utxoB], 0⟩).1 (by decide),
    by decide, by decide, by decide⟩

/-- C33 (the code breaks the claim): with exactly eight parameters `dxMakeOrder` makes
no state-changing call, but the call with the nine parameters LTC 25 Laddr BLOCK 1000
Baddr exact dryrun extra calls `sendXBridgeTransaction` and returns the object of the
new order 4, which is in the application afterwards. -/
theorem dxMakeOrder_extra_parameter_sends :
    (∀ (σ D : Type) (ops : DoubleOps D) (app : App σ) (s : σ)
        (p0 p1 p2 p3 p4 p5 p6 p7 : Value),
      (dxMakeOrder ops app s [p0, p1, p2, p3, p4, p5, p6, p7]).calls = []) ∧ (dxMakeOrder fixedOps demoApp demoBook extraParams).calls =
      [AppCall.sendXBridgeTransaction "Laddr" "LTC" 2500000000 "Baddr" "BLOCK" 100000000000] ∧
    (dxMakeOrder fixedOps demoApp demoBook extraParams).reply =
      .object [("id", .hex 4), ("maker_address", .str "Laddr"), ("maker", .str "LTC"),
        ("maker_size", .amount 2500000000), ("taker_address", .str "Baddr"),
        ("taker", .str "BLOCK"), ("taker_size", .amount 100000000000),
        ("created_at", .time 0), ("updated_at", .now), ("block_id", .hex 0),
        ("status", .str "created")] ∧
    mapCount 4 (dxMakeOrder fixedOps demoApp demoBook extraParams).app.orders = true ∧
    mapCount 4 demoBook.orders = false := by
  refine ⟨fun σ D ops app s => dxMakeOrder_eight_calls ops app s, ?_, ?_, ?_, ?_⟩ <;> decide

/-- C34 (the code breaks the claim): on `scenarioBook`, which has one bid and three asks
for BLOCK/LTC, `dxGetOrderBook` with max_orders -1 has no defined outcome at detail
levels 3 and 2: a vector is indexed out of range. -/
theorem dxGetOrderBook_negative_max_orders :
    dxGetOrderBook fixedOps demoApp sortBy scenarioBook
      [.int 3, .str "BLOCK", .str "LTC", .int (-1)] = .undefined ∧
    dxGetOrderBook fixedOps demoApp sortBy scenarioBook
      [.int 2, .str "BLOCK", .str "LTC", .int (-1)] = .undefined := by
  constructor <;> decide

/-- C35 (the code breaks the claim): the state after createTransaction(1),
acceptTransaction(1) and createTransaction(1) again is reachable, and order 1 is a key
of both the pending map and the accepted map in it. -/
theorem order_both_pending_and_accepted :
    Reachable (fun _ _ => True) demoWallets recreatedOrder ∧
    mapCount 1 recreatedOrder.m_pendingTransactions = true ∧
    mapCount 1 recreatedOrder.m_transactions = true :=
  ⟨Reachable.step (.create demoEnv (makerParams 1) [utxoA]) _ _
      (Reachable.step (.accept demoEnv (takerParams 1) [utxoB]) _ _
        (Reachable.step (.create demoEnv (makerParams 1) [utxoA]) _ _
          Reachable.empty trivial rfl) trivial rfl) trivial rfl,
    by decide, by decide⟩

/-- C36 (the code breaks the claim): in the empty state, where order 1 is not a key of
the pending map, `updateTimestampOrRemoveExpired` for a transaction with id 1 has no
defined result: it dereferences the null entry that `operator[]` has just added. -/
theorem updateTimestampOrRemoveExpired_unknown_order :
    mapCount 1 (Exchange.empty demoWallets : Exchange Descr).m_pendingTransactions = false ∧
    updateTimestampOrRemoveExpired demoEnv (demoEnv.mkTx (makerParams 1))
      (Exchange.empty demoWallets) = none := by
  constructor <;> decide

/-- C37: in every state reached from the empty state by calls of the state-changing
methods, among them `lockUtxos` and `unlockUtxos`, every outpoint of `m_utxoItems` is in
the reservation list of some order of `m_utxoTxMap`. -/
theorem no_orphan_reservations {Tx : Type} (wallets : List (String × WalletParam))
    (e : Exchange Tx) (h : Reachable (fun _ _ => True) wallets e) :
    ∀ o ∈ e.m_utxoItems, ∃ x l, mapFind x e.m_utxoTxMap = some l ∧ Listed o l := by
  have hI : NoOrphans e := by
    induction h with
    | empty => exact noOrphans_empty wallets
    | step op e e' _ _ ha ih => exact noOrphans_apply op e e' ha ih
  intro o ho
  obtain ⟨x, l, hl, hol⟩ := hI o ((setCount_iff o _).2 (listed_of_mem ho))
  exact ⟨x, l, hl, hol⟩

/-- C37, at a concrete state: after `lockUtxos(1, [utxoA])`, `lockUtxos(2, [utxoB])` and
`unlockUtxos(1)` the reserved set is `[utxoB]`, and its outpoints are listed. -/
theorem no_orphan_reservations_witness :
    afterLockUnlock.m_utxoItems = [utxoB] ∧
    ∀ o ∈ afterLockUnlock.m_utxoItems,
      ∃ x l, mapFind x afterLockUnlock.m_utxoTxMap = some l ∧ Listed o l :=
  ⟨by decide,
    no_orphan_reservations demoWallets afterLockUnlock
      (Reachable.step (.unlock 1) _ _
        (Reachable.step (.lock 2 [utxoB]) _ _
          (Reachable.step (.lock 1 [utxoA]) _ _ Reachable.empty trivial rfl) trivial rfl)
        trivial rfl)⟩

/-- C38 (the code breaks the claim): when the wallet BLOCK is gone, `dxCancelOrder` for
the pending order 1 (25 LTC for 1000 BLOCK) calls `cancelXBridgeTransaction`, which
returns SUCCESS and leaves the order cancelled (state 10), and then answers with the
error NO_SESSION. -/
theorem dxCancelOrder_error_after_cancel :
    demoApp.transaction walletGone 1 =
      some (demoOrder 1 "LTC" 2500000000 "BLOCK" 100000000000 2) ∧
    (demoApp.cancelXBridgeTransaction walletGone 1 .crRpcRequest
      (demoOrder 1 "LTC" 2500000000 "BLOCK" 100000000000 2)).1 = .SUCCESS ∧
    (dxCancelOrder demoApp walletGone [.str "1"]).calls =
      [AppCall.cancelXBridgeTransaction 1 .crRpcRequest] ∧
    (dxCancelOrder demoApp walletGone [.str "1"]).reply = .error .NO_SESSION ∧
    demoApp.transaction (dxCancelOrder demoApp walletGone [.str "1"]).app 1 =
      some (demoOrder 1 "LTC" 2500000000 "BLOCK" 100000000000 10) := by
  refine ⟨?_, ?_, ?_, ?_, ?_⟩ <;> decide

/-- C39 (the code breaks the claim): whenever `isCreated` is true the call returns true
and the pending map holds the descriptor built from the arguments of this call; but not
the other way round: when order 1, created at time 0, is created again at time 1000
(time to live 100) with the timestamp 990, `createTransaction` returns true and the
pending map holds the descriptor built from the arguments of this call, which differs
from the one held before, yet `isCreated` is false. -/
theorem isCreated_false_on_replacement :
    (∀ (Tx : Type) (env : Env Tx) (p : TxParams) (items : List UtxoEntry) (e : Exchange Tx),
      (createTransaction env p items e).2.1 = true →
        (createTransaction env p items e).1 = true ∧
        mapFind p.id (createTransaction env p items e).2.2.m_pendingTransactions =
          some (env.mkTx p)) ∧
    (createTransaction lateEnv laterParams [utxoA] afterOneOrder).1 = true ∧
    (createTransaction lateEnv laterParams [utxoA] afterOneOrder).2.1 = false ∧
    mapFind 1 afterOneOrder.m_pendingTransactions = some (demoEnv.mkTx (makerParams 1)) ∧
    mapFind 1 (createTransaction lateEnv laterParams [utxoA] afterOneOrder).2.2.m_pendingTransactions
      = some (lateEnv.mkTx laterParams) ∧
    lateEnv.mkTx laterParams ≠ demoEnv.mkTx (makerParams 1) := by
  refine ⟨fun Tx env p items e h =>
    ⟨(createTransaction_isCreated env p items e h).1,
      (createTransaction_isCreated env p items e h).2.1⟩, ?_, ?_, ?_, ?_, ?_⟩ <;> decide

/-- C40, counterexample: order 1 is accepted and has the reservation list
`[utxoA, utxoB]`; `deletePendingTransaction(1)` leaves the accepted map unchanged but
removes the reservation list of order 1 and releases its outpoints. -/
theorem deletePendingTransaction_releases_accepted :
    mapCount 1 acceptedOrder.m_transactions = true ∧
    mapFind 1 acceptedOrder.m_utxoTxMap = some [utxoA, utxoB] ∧
    acceptedOrder.m_utxoItems = [utxoA, utxoB] ∧
    (deletePendingTransaction 1 acceptedOrder).2.m_transactions = acceptedOrder.m_transactions ∧
    mapFind 1 (deletePendingTransaction 1 acceptedOrder).2.m_utxoTxMap = none ∧
    (deletePendingTransaction 1 acceptedOrder).2.m_utxoItems = [] := by
  refine ⟨?_, ?_, ?_, ?_, ?_, ?_⟩ <;> decide

/-- C40, amended: for an id that is not a key of the accepted map,
`deletePendingTransaction(id)` leaves the accepted map unchanged, leaves the reservation
list of every accepted order unchanged, and an outpoint that is not in the reservation
list of `id` keeps its reserved status. -/
theorem deletePending_keeps_accepted_orders {Tx : Type} (id : Nat) (e : Exchange Tx)
    (hid : mapCount id e.m_transactions = false) :
    (deletePendingTransaction id e).2.m_transactions = e.m_transactions ∧
    (∀ y, mapCount y e.m_transactions = true →
      mapFind y (deletePendingTransaction id e).2.m_utxoTxMap = mapFind y e.m_utxoTxMap) ∧
    (∀ o, ¬ ListedFor e id o →
      setCount o (deletePendingTransaction id e).2.m_utxoItems = setCount o e.m_utxoItems) := by
  have h := deletePendingTransaction_frame id e
  refine ⟨h.1, ?_, h.2.2⟩
  intro y hy
  apply h.2.1
  rintro rfl
  rw [hid] at hy
  cases hy

/-- C40, amended, at a concrete state: order 1 is accepted and order 2 is pending;
`deletePendingTransaction(2)` leaves order 1 with its list `[utxoA]` and `utxoA`
reserved. -/
theorem deletePending_keeps_accepted_orders_witness :
    mapCount 2 acceptedAndPending.m_transactions = false ∧
    mapCount 1 acceptedAndPending.m_transactions = true ∧
    mapFind 1 (deletePendingTransaction 2 acceptedAndPending).2.m_utxoTxMap = some [utxoA] ∧
    (deletePendingTransaction 2 acceptedAndPending).2.m_utxoItems = [utxoA] ∧
    ((deletePendingTransaction 2 acceptedAndPending).2.m_transactions =
        acceptedAndPending.m_transactions ∧
      (∀ y, mapCount y acceptedAndPending.m_transactions = true →
        mapFind y (deletePendingTransaction 2 acceptedAndPending).2.m_utxoTxMap =
          mapFind y acceptedAndPending.m_utxoTxMap) ∧
      (∀ o, ¬ ListedFor acceptedAndPending 2 o →
        setCount o (deletePendingTransaction 2 acceptedAndPending).2.m_utxoItems =
          setCount o acceptedAndPending.m_utxoItems)) :=
  ⟨by decide, by decide, by decide, by decide, deletePending_keeps_accepted_orders 2 acceptedAndPending (by decide)⟩

end xbridge
